import Mathlib

/-!
# Enrollment authority (`os_auth/main-server.c`): request parsing and validation

A shallow embedding of `w_auth_parse_data`, `w_auth_validate_data`,
`w_auth_validate_groups`, `w_auth_add_agent` and the primary branch of
`run_dispatcher`, followed by the properties established about them.

C strings are lists of characters.  A pointer into the receive buffer is the
list of bytes from that position on; the buffer is allocated zero-filled, so a
read past the received bytes yields the NUL character.
-/

namespace Authd

/-! ## C strings -/

/-- The terminating NUL character. -/
def NUL : Char := Char.ofNat 0

/-- The single quote character. -/
def QUOTE : Char := Char.ofNat 39

/-- The byte `*p` at a pointer: the head of the memory, NUL past the data. -/
def deref (p : List Char) : Char := p.headD NUL

/-- The C string that starts at a pointer: the bytes before the first NUL. -/
def cstr (p : List Char) : List Char := p.takeWhile (fun c => c != NUL)

/-- `strlen(p)`. -/
def strlen (p : List Char) : Nat := (cstr p).length

/-- `strncmp(a, b, n) == 0`: the first `n` bytes agree, the comparison stopping
early at a common NUL. -/
def strncmp_zero : List Char → List Char → Nat → Bool
  | _, _, 0 => true
  | a, b, n + 1 =>
    if deref a != deref b then false
    else if deref a == NUL then true
    else strncmp_zero a.tail b.tail n

/-- `snprintf(dst, size, "%s", s)` for a formatted text `s`: at most `size - 1`
characters are stored; with `size = 0` the destination `old` is untouched. -/
def snprintf (size : Nat) (old s : List Char) : List Char :=
  if size = 0 then old else s.take (size - 1)

/-- The `%d` conversion of a non-negative counter. -/
def fmt_d (n : Nat) : List Char := (Nat.repr n).toList

/-- Return codes `w_err_t` used by the enrollment functions. -/
inductive w_err_t where
  | OS_SUCCESS
  | OS_INVALID
  | OS_MEMERR
  deriving DecidableEq, Repr

open w_err_t

/-! ## Constants, configuration and external collaborators -/

/-- Compile-time constants (`IPSIZE`, `MAX_AGENTS`, `MAX_TAG_COUNTER`,
`MAX_GROUPS_PER_MULTIGROUP`), the fields of `config` and `shost` read by the
enrollment functions, and the library routines they call whose definitions live
in headers and modules outside the sources at hand. -/
structure Env where
  /-- Size of an IP text buffer. -/
  IPSIZE : Nat
  /-- Agent limit constant. -/
  MAX_AGENTS : Nat
  /-- Bound of the duplicate-name counter. -/
  MAX_TAG_COUNTER : Nat
  /-- Bound on the groups of one multigroup. -/
  MAX_GROUPS_PER_MULTIGROUP : Nat
  /-- Flag `config.flags.use_source_ip`. -/
  use_source_ip : Bool
  /-- Flag `config.flags.force_insert`. -/
  force_insert : Bool
  /-- Value `config.force_time`. -/
  force_time : Int
  /-- Flag `config.flags.register_limit`. -/
  register_limit : Bool
  /-- Host name of the manager, `shost`. -/
  shost : List Char
  /-- Name validator `OS_IsValidName`. -/
  OS_IsValidName : List Char → Bool
  /-- IP validator `OS_IsValidIP(ip, NULL)`. -/
  OS_IsValidIP : List Char → Bool
  /-- Group-name validator `w_validate_group_name`: `0` when valid, a negative
  code otherwise. -/
  w_validate_group_name : List Char → Int
  /-- Whether `opendir` succeeds on the shared-configuration directory of a group. -/
  opendir_shared : List Char → Bool
  /-- Seconds since the last activity of an agent `OS_AgentAntiquity(name, ip)`,
  negative on error; the value is a whole number of seconds. -/
  OS_AgentAntiquity : List Char → List Char → Int
  /-- Whether `OS_AddNewAgent` reports an internal error for this name and IP. -/
  add_agent_error : List Char → List Char → Bool
  /-- Key material generated for the record that receives a given id. -/
  new_key : Nat → List Char
  /-- Whether the path of the group file of an id fits below `PATH_MAX`. -/
  group_path_fits : Nat → Bool
  /-- Text of a record id as printed by `%s`. -/
  id_text : Nat → List Char
  /-- Return value of `SSL_write` for a message. -/
  SSL_write : List Char → Int

/-! ## `w_auth_parse_data` -/

/-- Outputs of `w_auth_parse_data`: the return code and the final contents of
the `response`, `ip`, `*agentname` and `groups` arguments. -/
structure ParseResult where
  /-- Return code. -/
  ret : w_err_t
  /-- Contents of the response buffer. -/
  response : List Char
  /-- Contents of the ip buffer. -/
  ip : List Char
  /-- Value of `*agentname` (`none` for a NULL pointer). -/
  agentname : Option (List Char)
  /-- Contents of the groups buffer. -/
  groups : List Char
  deriving DecidableEq, Repr

/-- Shared-password stage (lines 771-786): the position after
`OSSEC PASS: <authpass> ` when `parseok` is set, `none` otherwise. -/
def password_stage (buf authpass : List Char) : Option (List Char) :=
  if strncmp_zero buf "OSSEC PASS: ".toList 12 then
    let buf := buf.drop 12
    if strlen buf > strlen authpass && strncmp_zero buf authpass (strlen authpass) then
      let buf := buf.drop (strlen authpass)
      if deref buf == ' ' then some buf.tail else none
    else none
  else none

/-- The loop of lines 801-809: walk to the first single quote before the end
of the string; gives the bytes walked over (the agent name once the quote is
overwritten by NUL) and the position after the quote. -/
def scan_name : List Char → Option (List Char × List Char)
  | [] => none
  | c :: cs =>
    if c == NUL then none
    else if c == QUOTE then some ([], cs)
    else (scan_name cs).map (fun r => (c :: r.1, r.2))

/-- The conversions `sscanf(buf, " G:'%65535[^']\"", dst)` and
`sscanf(buf, " IP:'%<width>[^']\"", dst)` once the `G:` / `IP:` token is known
to match: `p` is the input after the token and `old` the previous contents of
the destination, kept when the quote or the scan set fails to match. -/
def sscanf_field (width : Nat) (p old : List Char) : List Char :=
  if deref p == QUOTE then
    let s := (p.tail.takeWhile (fun c => c != QUOTE && c != NUL)).take width
    if s.isEmpty then old else s
  else old

/-- The tokens that successive `strtok_r(..., delim, &save_ptr)` calls return,
the delimiter `MULTIGROUP_SEPARATOR` being the comma of the comma-delimited
group lists: the maximal non-empty runs of characters other than the comma. -/
def strtok_tokens_aux : List Char → List Char → List (List Char)
  | [], cur => if cur.isEmpty then [] else [cur.reverse]
  | c :: cs, cur =>
    if c == ',' then
      (if cur.isEmpty then [] else [cur.reverse]) ++ strtok_tokens_aux cs []
    else strtok_tokens_aux cs (c :: cur)

/-- Tokens of a comma-separated C string. -/
def strtok_tokens (s : List Char) : List (List Char) := strtok_tokens_aux s []

/-- Modelled from the spec: `wstr_delete_repeated_groups`, which is not part of
the sources at hand: "duplicates inside the list are removed preserving first
occurrence".  The C function returns NULL only when memory is exhausted, which
this model never reports. -/
def wstr_delete_repeated_groups (groups : List Char) : Option (List Char) :=
  some (List.intercalate [','] (strtok_tokens groups).eraseDups)

/-- The response written by the `switch (valid)` of lines 843-862; a negative
code outside `-6 .. -1` leaves the response as it was. -/
def group_name_error (valid : Int) (groups response : List Char) : List Char :=
  let pre := "ERROR: Invalid group name: ".toList ++ groups.take 255
  if valid = -6 then snprintf 2048 response (pre ++ "... cannot start or end with ','\n\n".toList)
  else if valid = -5 then
    snprintf 2048 response (pre ++ "... consecutive ',' are not allowed \n\n, ".toList)
  else if valid = -4 then snprintf 2048 response (pre ++ "... white spaces are not allowed \n\n".toList)
  else if valid = -3 then snprintf 2048 response (pre ++ "... multigroup is too large \n\n".toList)
  else if valid = -2 then snprintf 2048 response (pre ++ "... group is too large\n\n".toList)
  else if valid = -1 then
    snprintf 2048 response (pre ++ "... characters '\\/:*?\"<>|,' are prohibited\n\n".toList)
  else response

/-- Lines 881-909: `buf` is the position reached by `++buf`. -/
def parse_ip (env : Env) (buf response ip agentname groups : List Char) : ParseResult :=
  if strncmp_zero buf "IP:".toList 3 then
    let client_source_ip := sscanf_field env.IPSIZE (buf.drop 3) []
    if !strncmp_zero client_source_ip "src".toList 3 then
      if !env.OS_IsValidIP client_source_ip then
        { ret := OS_INVALID
          response := snprintf 2048 response
            ("ERROR: Invalid IP: ".toList ++ client_source_ip ++ "\n\n".toList)
          ip := ip, agentname := some agentname, groups := groups }
      else
        { ret := OS_SUCCESS, response := response
          ip := snprintf env.IPSIZE ip client_source_ip
          agentname := some agentname, groups := groups }
    else
      { ret := OS_SUCCESS, response := response, ip := ip
        agentname := some agentname, groups := groups }
  else if !env.use_source_ip then
    { ret := OS_SUCCESS, response := response, ip := snprintf env.IPSIZE ip "any".toList
      agentname := some agentname, groups := groups }
  else
    { ret := OS_SUCCESS, response := response, ip := ip
      agentname := some agentname, groups := groups }

/-- Lines 827-879: `rest` is the position after the closing quote of the name
(the value of `buf` after the `buf++` of line 811). -/
def parse_group (env : Env) (rest response ip agentname groups : List Char) : ParseResult :=
  let buf := rest.tail
  if strncmp_zero buf "G:".toList 2 then
    let groups := sscanf_field 65535 (buf.drop 2) groups
    let valid := env.w_validate_group_name groups
    if valid < 0 then
      { ret := OS_INVALID, response := group_name_error valid groups response, ip := ip
        agentname := some agentname, groups := groups }
    else
      match wstr_delete_repeated_groups groups with
      | none =>
        { ret := OS_MEMERR, response := response, ip := ip
          agentname := some agentname, groups := groups }
      | some tmp_groups =>
        let buf := buf.drop (2 + strlen groups + 2)
        let groups := snprintf 65536 groups tmp_groups
        parse_ip env buf.tail response ip agentname groups
  else
    parse_ip env buf response ip agentname groups

/-- Lines 796-825 followed by the group and IP stages. -/
def parse_action (env : Env) (buf response ip : List Char) (agentname : Option (List Char))
    (groups : List Char) : ParseResult :=
  if strncmp_zero buf "OSSEC A:'".toList 9 then
    let buf := buf.drop 9
    match scan_name buf with
    | none =>
      { ret := OS_INVALID
        response := snprintf 2048 response "ERROR: Invalid request for new agent".toList
        ip := ip, agentname := some (cstr buf), groups := groups }
    | some (name, rest) =>
      if !env.OS_IsValidName name then
        { ret := OS_INVALID
          response := snprintf 2048 response
            ("ERROR: Invalid agent name: ".toList ++ name ++ "\n\n".toList)
          ip := ip, agentname := some name, groups := groups }
      else parse_group env rest response ip name groups
  else
    { ret := OS_INVALID
      response := snprintf 2048 response "ERROR: Invalid request for new agent".toList
      ip := ip, agentname := agentname, groups := groups }

/-- The function `w_auth_parse_data(buf, response, authpass, ip, &agentname, groups)`:
`buf` is the received request, `authpass` the shared password (`none` for
NULL), and `response`, `ip`, `agentname`, `groups` the contents of the
output arguments on entry. -/
def w_auth_parse_data (env : Env) (buf response : List Char) (authpass : Option (List Char))
    (ip : List Char) (agentname : Option (List Char)) (groups : List Char) : ParseResult :=
  match authpass with
  | none => parse_action env buf response ip agentname groups
  | some pw =>
    match password_stage buf pw with
    | none =>
      { ret := OS_INVALID, response := snprintf 2048 response "ERROR: Invalid password".toList
        ip := ip, agentname := agentname, groups := groups }
    | some buf => parse_action env buf response ip agentname groups

/-! ## Key store and pending queues -/

/-- A credential record `keyentry`: id, name, ip text and key. -/
structure keyentry where
  /-- Record id (the value of the id counter it was assigned from). -/
  id : Nat
  /-- Agent name. -/
  name : List Char
  /-- Text of the IP (`ip->ip`). -/
  ip : List Char
  /-- Key material. -/
  key : List Char
  deriving DecidableEq, Repr

/-- Modelled from the spec: the `keystore` type, declared outside the sources
at hand ("in-memory set of credential records keyed by id", with an "integer
counter persisted alongside the store"): the records `keyentries[0 .. keysize)`
in array order and the id counter. -/
structure keystore where
  /-- The records, in array order. -/
  keyentries : List keyentry
  /-- The id counter. -/
  id_counter : Nat
  deriving DecidableEq, Repr

/-- The field `keysize`. -/
def keystore.keysize (keys : keystore) : Nat := keys.keyentries.length

/-- The record `keyentries[index]`. -/
def keystore.entry (keys : keystore) (index : Nat) : keyentry :=
  keys.keyentries.getD index { id := 0, name := [], ip := [], key := [] }

/-- Index of the first record that satisfies a test. -/
def find_index (p : keyentry → Bool) : List keyentry → Option Nat
  | [] => none
  | e :: es => if p e then some 0 else (find_index p es).map (fun i => i + 1)

/-- Modelled from the spec: `OS_IsAllowedIP`, not part of the sources at hand
(`find_by_ip(ip) → id?`): the index of a record holding this IP, `none` for the
C result `-1`. -/
def OS_IsAllowedIP (keys : keystore) (ip : List Char) : Option Nat :=
  find_index (fun e => e.ip == ip) keys.keyentries

/-- Modelled from the spec: `OS_IsAllowedName`, not part of the sources at hand
(`find_by_name(name) → id?`): the index of a record holding this name, `none`
for the C result `-1`. -/
def OS_IsAllowedName (keys : keystore) (name : List Char) : Option Nat :=
  find_index (fun e => e.name == name) keys.keyentries

/-- Modelled from the spec: `OS_DeleteKey`, not part of the sources at hand
(`remove(id)` on a store keyed by id): the record with this id leaves the
store.  The spec does not distinguish the values of the `purge` argument. -/
def OS_DeleteKey (keys : keystore) (id : Nat) (_purge : Nat) : keystore :=
  { keys with keyentries := keys.keyentries.filter (fun e => e.id != id) }

/-- Modelled from the spec: `OS_AddNewAgent(&keys, NULL, name, ip, NULL)`, not
part of the sources at hand (`add(name, ip, pre_existing_key?) → id`, ids
"assigned monotonically" from the counter and "never reused"): on success the
new record is appended with the id of the counter and its index is returned;
`none` stands for a negative index, in which case the store is as before. -/
def OS_AddNewAgent (env : Env) (keys : keystore) (name ip : List Char) :
    Option (keystore × Nat) :=
  if env.add_agent_error name ip then none
  else
    some ({ keyentries := keys.keyentries ++
              [{ id := keys.id_counter, name := name, ip := ip
                 key := env.new_key keys.id_counter }]
            id_counter := keys.id_counter + 1 }, keys.keysize)

/-- A node `struct keynode` of a pending queue. -/
structure keynode where
  /-- Copy of the record id. -/
  id : Nat
  /-- Copy of the record name. -/
  name : List Char
  /-- Copy of the record IP. -/
  ip : List Char
  /-- Group string, `none` for NULL. -/
  group : Option (List Char)
  deriving DecidableEq, Repr

/-- The shared variables guarded by `mutex_keys`, with a log of the calls that
act on the file system. -/
structure AuthState where
  /-- The global `keys`. -/
  keys : keystore
  /-- Queue `queue_insert`, head first. -/
  queue_insert : List keynode
  /-- Queue `queue_backup`, head first. -/
  queue_backup : List keynode
  /-- Queue `queue_remove`, head first. -/
  queue_remove : List keynode
  /-- Flag `write_pending`. -/
  write_pending : Bool
  /-- Ids passed to `OS_RemoveAgentGroup`, oldest first. -/
  removed_groups : List Nat
  /-- Ids passed to `OS_RemoveAgent`, oldest first. -/
  removed_agents : List Nat
  deriving DecidableEq, Repr

/-- `add_insert(entry, group)`: append a copy at the tail of the insertion queue. -/
def add_insert (st : AuthState) (entry : keyentry) (group : Option (List Char)) : AuthState :=
  { st with queue_insert := st.queue_insert ++
      [{ id := entry.id, name := entry.name, ip := entry.ip, group := group }] }

/-- `add_backup(entry)`: append a copy at the tail of the backup queue. -/
def add_backup (st : AuthState) (entry : keyentry) : AuthState :=
  { st with queue_backup := st.queue_backup ++
      [{ id := entry.id, name := entry.name, ip := entry.ip, group := none }] }

/-- `add_remove(entry)`: append a copy at the tail of the deletion queue. -/
def add_remove (st : AuthState) (entry : keyentry) : AuthState :=
  { st with queue_remove := st.queue_remove ++
      [{ id := entry.id, name := entry.name, ip := entry.ip, group := none }] }

/-! ## `w_auth_validate_groups` -/

/-- The C string seen at `groups` once `strtok_r(groups, ",", &save_ptr)` has
run: leading commas are skipped, and the comma that ends the first token is
overwritten by NUL.  The later `strtok_r(NULL, ...)` calls write NUL only
further to the right, so this is also the string seen at `groups` on return. -/
def strtok_cut (groups : List Char) : List Char :=
  groups.takeWhile (fun c => c == ',') ++
    (groups.dropWhile (fun c => c == ',')).takeWhile (fun c => c != ',')

/-- The `while (group != NULL)` loop of lines 1001-1032 over the tokens still
to come, with the counter `max_multigroups` and the response (`none` for a
NULL pointer). -/
def validate_groups_loop (env : Env) :
    List (List Char) → Nat → Option (List Char) → w_err_t × Option (List Char)
  | [], _, response => (OS_SUCCESS, response)
  | group :: rest, max_multigroups, response =>
    if max_multigroups > env.MAX_GROUPS_PER_MULTIGROUP then (OS_INVALID, response)
    else if env.w_validate_group_name group ≠ 0 then
      (OS_INVALID, response.map (fun r => snprintf 2048 r
        ("ERROR: Invalid group name: ".toList ++ group.take 255 ++
          "... group is too large\n\n".toList)))
    else if !env.opendir_shared group then
      (OS_INVALID, response.map (fun r => snprintf 2048 r
        ("ERROR: Invalid group: ".toList ++ group ++ "\n\n".toList)))
    else validate_groups_loop env rest (max_multigroups + 1) response

/-- Outputs of `w_auth_validate_groups`. -/
structure GroupsResult where
  /-- Return code. -/
  ret : w_err_t
  /-- Contents of the response buffer (`none` for a NULL pointer). -/
  response : Option (List Char)
  /-- The C string at `groups` on return. -/
  groups : List Char
  deriving DecidableEq, Repr

/-- The function `w_auth_validate_groups(groups, response)`. -/
def w_auth_validate_groups (env : Env) (groups : List Char) (response : Option (List Char)) :
    GroupsResult :=
  let r := validate_groups_loop env (strtok_tokens groups) 0 response
  { ret := r.1, response := r.2, groups := strtok_cut groups }

/-! ## `w_auth_validate_data` -/

/-- Outputs of `w_auth_validate_data`. -/
structure ValidateResult where
  /-- Return code. -/
  ret : w_err_t
  /-- Contents of the response buffer. -/
  response : List Char
  /-- The shared state on return. -/
  st : AuthState
  /-- The C string in the caller's `groups` buffer on return. -/
  groups : List Char
  /-- Final value of the parameter variable `agentname`.  The parameter is a
  `char *` passed by value: the assignment `agentname = fname` of line 979 is
  local, and the caller's pointer keeps designating the requested name. -/
  agentname : List Char
  deriving DecidableEq, Repr

/-- The test `config.flags.force_insert && (antiquity = OS_AgentAntiquity(name, ip),
antiquity >= config.force_time || antiquity < 0)` of lines 931 and 957. -/
def force_supersedes (env : Env) (e : keyentry) : Bool :=
  env.force_insert &&
    (decide (env.OS_AgentAntiquity e.name e.ip ≥ env.force_time) ||
      decide (env.OS_AgentAntiquity e.name e.ip < 0))

/-- The `while` loop of lines 966-971 with `fuel` iterations left: the final
`fname` and `acount`.  The counter grows by one in each iteration and the loop
is left once it passes `MAX_TAG_COUNTER`, so `MAX_TAG_COUNTER + 1` iterations
are never used up when it starts from 2 (`tag_loop_fuel`). -/
def tag_loop (env : Env) (keys : keystore) (agentname : List Char) :
    Nat → List Char → Nat → List Char × Nat
  | 0, fname, acount => (fname, acount)
  | fuel + 1, fname, acount =>
    if (OS_IsAllowedName keys fname).isSome then
      let fname := snprintf 2048 fname (agentname ++ fmt_d acount)
      let acount := acount + 1
      if acount > env.MAX_TAG_COUNTER then (fname, acount)
      else tag_loop env keys agentname fuel fname acount
    else (fname, acount)

/-- Lines 983-991: the agent limit.  `MAX_AGENTS - 2` is computed over the
integers; the signed and the unsigned reading of the comparison agree as soon
as `MAX_AGENTS` is at least 2. -/
def validate_limit (env : Env) (st : AuthState) (response groups agentname : List Char) :
    ValidateResult :=
  if env.register_limit && decide ((st.keys.keysize : Int) ≥ (env.MAX_AGENTS : Int) - 2) then
    { ret := OS_INVALID
      response := snprintf 2048 response
        "ERROR: The maximum number of agents has been reached\n\n".toList
      st := st, groups := groups, agentname := agentname }
  else
    { ret := OS_SUCCESS, response := response, st := st, groups := groups
      agentname := agentname }

/-- Lines 946-981: manager name and duplicated names.  `strncpy(fname,
agentname, 2048)` copies the name whole when it is shorter than 2048
characters; for a longer name the C array is left unterminated and the first
2048 characters stand for it. -/
def validate_name (env : Env) (st : AuthState) (response groups agentname : List Char) :
    ValidateResult :=
  if agentname == env.shost then
    { ret := OS_INVALID
      response := snprintf 2048 response
        ("ERROR: Invalid agent name: ".toList ++ agentname ++ "\n\n".toList)
      st := st, groups := groups, agentname := agentname }
  else
    match OS_IsAllowedName st.keys agentname with
    | some index =>
      if force_supersedes env (st.keys.entry index) then
        let id_exist := (st.keys.entry index).id
        let st := add_backup st (st.keys.entry index)
        let st := { st with keys := OS_DeleteKey st.keys id_exist 0 }
        validate_limit env st response groups agentname
      else
        let r := tag_loop env st.keys agentname (env.MAX_TAG_COUNTER + 1)
          (agentname.take 2048) 2
        if r.2 > env.MAX_TAG_COUNTER then
          { ret := OS_INVALID
            response := snprintf 2048 response
              ("ERROR: Invalid agent name: ".toList ++ agentname ++ "\n\n".toList)
            st := st, groups := groups, agentname := agentname }
        else validate_limit env st response groups r.1
    | none => validate_limit env st response groups agentname

/-- Lines 928-944: duplicated IP, followed by the name and limit stages. -/
def validate_ip (env : Env) (st : AuthState) (response ip groups agentname : List Char) :
    ValidateResult :=
  if ip != "any".toList then
    match OS_IsAllowedIP st.keys ip with
    | some index =>
      if force_supersedes env (st.keys.entry index) then
        let id_exist := (st.keys.entry index).id
        let st := { st with removed_groups := st.removed_groups ++ [id_exist] }
        let st := add_backup st (st.keys.entry index)
        let st := { st with keys := OS_DeleteKey st.keys id_exist 0 }
        validate_name env st response groups agentname
      else
        { ret := OS_INVALID
          response := snprintf 2048 response
            ("ERROR: Duplicated IP: ".toList ++ ip ++ "\n\n".toList)
          st := st, groups := groups, agentname := agentname }
    | none => validate_name env st response groups agentname
  else validate_name env st response groups agentname

/-- The function `w_auth_validate_data(response, ip, agentname, groups)` run on
the shared state `st`. -/
def w_auth_validate_data (env : Env) (st : AuthState) (response ip agentname groups : List Char) :
    ValidateResult :=
  if deref groups != NUL then
    let g := w_auth_validate_groups env groups (some response)
    if g.ret != OS_SUCCESS then
      { ret := OS_INVALID, response := g.response.getD response, st := st
        groups := g.groups, agentname := agentname }
    else validate_ip env st (g.response.getD response) ip g.groups agentname
  else validate_ip env st response ip groups agentname

/-! ## `w_auth_add_agent` and the primary branch of `run_dispatcher` -/

/-- Outputs of `w_auth_add_agent`. -/
structure AddResult where
  /-- Return code. -/
  ret : w_err_t
  /-- Contents of the response buffer. -/
  response : List Char
  /-- The shared state on return. -/
  st : AuthState
  /-- Value of `*id`, `none` when it was not assigned. -/
  id : Option Nat
  /-- Value of `*key`, `none` when it was not assigned. -/
  key : Option (List Char)
  deriving DecidableEq, Repr

/-- The function `w_auth_add_agent(response, ip, agentname, groups, &id, &key)`
run on the shared state `st`. -/
def w_auth_add_agent (env : Env) (st : AuthState) (response ip agentname groups : List Char) :
    AddResult :=
  match OS_AddNewAgent env st.keys agentname ip with
  | none =>
    { ret := OS_INVALID
      response := snprintf 2048 response
        ("ERROR: Internal manager error adding agent: ".toList ++ agentname ++ "\n\n".toList)
      st := st, id := none, key := none }
  | some (keys, index) =>
    let st := { st with keys := keys }
    if deref groups != NUL && !env.group_path_fits (keys.entry index).id then
      { ret := OS_INVALID
        response := snprintf 2048 response
          ("ERROR: Internal manager error setting agent centralized group: ".toList ++
            groups ++ "\n\n".toList)
        st := { st with removed_agents := st.removed_agents ++ [(keys.entry index).id] }
        id := none, key := none }
    else
      { ret := OS_SUCCESS, response := response, st := st
        id := some (keys.entry index).id, key := some (keys.entry index).key }

/-- What one pass of the dispatcher loop leaves behind. -/
structure DispatchResult where
  /-- The shared state after the pass. -/
  st : AuthState
  /-- Contents of the response buffer after the pass. -/
  response : List Char
  /-- The messages handed to `SSL_write`, in order. -/
  written : List (List Char)
  /-- The flag `enrollment_ok`. -/
  enrollment_ok : Bool
  deriving DecidableEq, Repr

/-- Lines 710-749 on a primary node, once `enrollment_ok`, `new_id` and
`new_key` are settled. -/
def dispatch_reply (env : Env) (st : AuthState) (response ip agentname groups : List Char)
    (enrollment : Option (Nat × List Char)) : DispatchResult :=
  match enrollment with
  | some (new_id, new_key) =>
    let response := snprintf 2048 response
      ("OSSEC K:'".toList ++ env.id_text new_id ++ [' '] ++ agentname ++ [' '] ++ ip ++ [' '] ++
        new_key ++ "'\n\n".toList)
    let last := st.keys.entry (st.keys.keysize - 1)
    if env.SSL_write response < 0 then
      { st := { st with keys := OS_DeleteKey st.keys last.id 1 }
        response := response, written := [response], enrollment_ok := true }
    else
      let st := add_insert st last (if deref groups != NUL then some groups else none)
      { st := { st with write_pending := true }
        response := response, written := [response], enrollment_ok := true }
  | none =>
    let response2 := snprintf 2048 response "ERROR: Unable to add agent.\n\n".toList
    { st := st, response := response2, written := [response, response2]
      enrollment_ok := false }

/-- Lines 700-749 on a primary node: validation and commit under `mutex_keys`,
then the reply, for the `ip`, `agentname` and `groups` that the parser gave. -/
def dispatch_enroll (env : Env) (st : AuthState) (response ip agentname groups : List Char) :
    DispatchResult :=
  let v := w_auth_validate_data env st response ip agentname groups
  if v.ret == OS_SUCCESS then
    let a := w_auth_add_agent env v.st v.response ip agentname v.groups
    if a.ret == OS_SUCCESS then
      dispatch_reply env a.st a.response ip agentname v.groups
        (some (a.id.getD 0, a.key.getD []))
    else dispatch_reply env a.st a.response ip agentname v.groups none
  else dispatch_reply env v.st v.response ip agentname v.groups none

/-- One pass of the `run_dispatcher` loop on a primary node (`worker_node`
false), from the received request `buf` on (lines 685-749): `response` is the
content the response buffer still holds from earlier passes, `ip` the text of
the peer address. -/
def dispatch_primary (env : Env) (st : AuthState) (buf response : List Char)
    (authpass : Option (List Char)) (ip : List Char) : DispatchResult :=
  let p := w_auth_parse_data env buf response authpass ip none []
  if p.ret == OS_SUCCESS then
    dispatch_enroll env st p.response p.ip (p.agentname.getD []) p.groups
  else dispatch_reply env st p.response p.ip (p.agentname.getD []) p.groups none

/-! ## Request grammar and sample data -/

/-- The request text `OSSEC A:'<name>'[ G:'<groups>'][ IP:'<ip-or-src>']`. -/
def request (name : List Char) (groups ip : Option (List Char)) : List Char :=
  "OSSEC A:'".toList ++ name ++ [QUOTE] ++
    (match groups with
      | some g => " G:'".toList ++ g ++ [QUOTE]
      | none => []) ++
    (match ip with
      | some v => " IP:'".toList ++ v ++ [QUOTE]
      | none => [])

/-- Written from the grammar of the spec: strip one field ` <tok>'...'` from the
front of `p`, giving what follows its closing quote. -/
def grammar_field (tok p : List Char) : Option (List Char) :=
  if ([' '] ++ tok ++ [QUOTE]).isPrefixOf p then
    (scan_name (p.drop (tok.length + 2))).map (fun r => r.2)
  else none

/-- Written from the grammar of the spec: what may follow the closing quote of
the name is nothing, a `G:` field, an `IP:` field, or a `G:` field and then an
`IP:` field. -/
def grammar_tail (p : List Char) : Bool :=
  p == [] || grammar_field "IP:".toList p == some [] ||
    (match grammar_field "G:".toList p with
      | some q => q == [] || grammar_field "IP:".toList q == some []
      | none => false)

/-- Written from the grammar of the spec: recogniser of
`OSSEC A:'<name>'[ G:'<groups>'][ IP:'<ip-or-src>']`. -/
def grammar_request (p : List Char) : Bool :=
  if "OSSEC A:'".toList.isPrefixOf p then
    match scan_name (p.drop 9) with
    | some r => grammar_tail r.2
    | none => false
  else false

/-- Characters of a sample name validator: letters, digits, `-`, `_` and `.`. -/
def sample_name_char (c : Char) : Bool :=
  "abcdefghijklmnopqrstuvwxyzABCDEFGHIJKLMNOPQRSTUVWXYZ0123456789-_.".toList.elem c

/-- Characters of a sample IP validator: digits, `.`, `:`, `/` and hex letters. -/
def sample_ip_char (c : Char) : Bool :=
  "0123456789.:/abcdefABCDEF".toList.elem c

/-- A sample environment: `IPSIZE` 46, an agent limit of 5, a tag counter bound
of 4, at most 2 groups in a multigroup, force-insert off, the limit enabled, a
name validator accepting 2 to 128 characters among letters, digits, `-`, `_`
and `.`, an IP validator accepting non-empty texts of digits, `.`, `:`, `/`
and hex letters, no group name refused, every group directory present,
unknown antiquity, and no internal error. -/
def sampleEnv : Env where
  IPSIZE := 46
  MAX_AGENTS := 5
  MAX_TAG_COUNTER := 4
  MAX_GROUPS_PER_MULTIGROUP := 2
  use_source_ip := false
  force_insert := false
  force_time := 0
  register_limit := true
  shost := "manager".toList
  OS_IsValidName := fun n =>
    decide (2 ≤ n.length) && decide (n.length ≤ 128) && n.all sample_name_char
  OS_IsValidIP := fun s => !s.isEmpty && s.all sample_ip_char
  w_validate_group_name := fun _ => 0
  opendir_shared := fun _ => true
  OS_AgentAntiquity := fun _ _ => -1
  add_agent_error := fun _ _ => false
  new_key := fun _ => "key".toList
  group_path_fits := fun _ => true
  id_text := fun n => (Nat.repr n).toList
  SSL_write := fun m => m.length

/-- The sample environment with force-insert on. -/
def sampleEnvForce : Env := { sampleEnv with force_insert := true }

/-- A shared state with empty queues around a key store. -/
def AuthState.ofKeys (keys : keystore) : AuthState where
  keys := keys
  queue_insert := []
  queue_backup := []
  queue_remove := []
  write_pending := false
  removed_groups := []
  removed_agents := []

/-- A sample store: the record `(1, a1, 10.0.0.1)`. -/
def sampleKeys : keystore where
  keyentries := [{ id := 1, name := "a1".toList, ip := "10.0.0.1".toList, key := "k1".toList }]
  id_counter := 2

/-- A sample store of three records, the most that the limit of the sample
environment admits. -/
def sampleKeysFull : keystore where
  keyentries :=
    [{ id := 1, name := "a1".toList, ip := "10.0.0.1".toList, key := "k1".toList },
     { id := 2, name := "b2".toList, ip := "10.0.0.2".toList, key := "k2".toList },
     { id := 3, name := "c3".toList, ip := "any".toList, key := "k3".toList }]
  id_counter := 4

/-- The candidate name number `k` of line 967: `snprintf(fname, 2048, "%s%d",
agentname, k)`. -/
def tag_candidate (agentname : List Char) (k : Nat) : List Char :=
  (agentname ++ fmt_d k).take 2047

/-- The store is below the agent limit whenever the limit is enabled. -/
def below_limit (env : Env) (keys : keystore) : Prop :=
  env.register_limit = true → (keys.keysize : Int) < (env.MAX_AGENTS : Int) - 2

/-- The node that `add_backup` appends for a record. -/
def backup_node (e : keyentry) : keynode :=
  { id := e.id, name := e.name, ip := e.ip, group := none }

/-! ## Error lines -/

/-- The error line of the wire protocol, `ERROR: <reason>` and two newlines:
the text starts with `ERROR: ` and ends with two newline characters. -/
def error_line (r : List Char) : Prop :=
  "ERROR: ".toList <+: r ∧ "\n\n".toList <:+ r

instance (r : List Char) : Decidable (error_line r) := by
  unfold error_line
  infer_instance

/-- What an enrollment function may leave in the response buffer that held
`old`: the old content, or an error line written by `snprintf(response, 2048,
...)`. -/
def written_error (old r : List Char) : Prop :=
  r = old ∨ ∃ s, r = snprintf 2048 old s ∧ error_line s

/-- What `w_auth_parse_data` may leave in the response buffer that held `old`:
besides the above, one of its two messages without newlines or its message
for consecutive commas, which goes on after the two newlines. -/
def parse_written_error (old r : List Char) : Prop :=
  written_error old r ∨ r = "ERROR: Invalid password".toList ∨
    r = "ERROR: Invalid request for new agent".toList ∨
    ∃ x, r = snprintf 2048 old (x ++ "\n\n, ".toList)

/-! ## The worker branch of `run_dispatcher` -/

/-- The cluster calls of a worker node and the C library behaviour that the
worker branch relies on; the calls are declared outside the sources at hand. -/
structure Cluster where
  /-- The call `w_request_agent_add_clustered` for a name, an ip, a group
  string and a force value: its return value, and the id and key that the
  primary assigned to the request. -/
  add_clustered : List Char → List Char → List Char → Int → Int × List Char × List Char
  /-- The call `w_request_agent_remove_clustered(&master_err, id, 1, TRUE)` for
  an id (`none` for a NULL pointer): its return value and `master_err`. -/
  remove_clustered : Option (List Char) → Int × Int
  /-- What `%s` prints for a NULL pointer: undefined in C, `(null)` with the
  GNU C library. -/
  null_text : List Char

/-- The conversion `%s` of a `char *` that may be NULL. -/
def fmt_s (cl : Cluster) (p : Option (List Char)) : List Char :=
  p.getD cl.null_text

/-- What one pass of the dispatcher loop leaves behind on a worker node. -/
structure WorkerResult where
  /-- Contents of the response buffer after the pass. -/
  response : List Char
  /-- The messages handed to `SSL_write`, in order. -/
  written : List (List Char)
  /-- The flag `enrollment_ok`. -/
  enrollment_ok : Bool
  /-- The values of `new_id` handed to `w_request_agent_remove_clustered`. -/
  removed : List (Option (List Char))
  deriving DecidableEq, Repr

/-- One pass of the `run_dispatcher` loop on a worker node (`worker_node`
true), from the received request `buf` on (lines 685-749).  The variables
`new_id` and `new_key` are NULL when `w_request_agent_add_clustered` receives
them by value (line 694), so they are still NULL when the reply is formatted
(line 712), whatever the primary assigned. -/
def dispatch_worker (env : Env) (cl : Cluster) (buf response : List Char)
    (authpass : Option (List Char)) (ip : List Char) : WorkerResult :=
  let p := w_auth_parse_data env buf response authpass ip none []
  let new_id : Option (List Char) := none
  let new_key : Option (List Char) := none
  let agentname := p.agentname.getD []
  if p.ret == OS_SUCCESS &&
      (cl.add_clustered agentname p.ip p.groups
        (if env.force_insert then env.force_time else 0)).1 == 0 then
    let response := snprintf 2048 p.response
      ("OSSEC K:'".toList ++ fmt_s cl new_id ++ [' '] ++ agentname ++ [' '] ++ p.ip ++ [' '] ++
        fmt_s cl new_key ++ "'\n\n".toList)
    { response := response, written := [response], enrollment_ok := true
      removed := if env.SSL_write response < 0 then [new_id] else [] }
  else
    let response2 := snprintf 2048 p.response "ERROR: Unable to add agent.\n\n".toList
    { response := response2, written := [p.response, response2], enrollment_ok := false
      removed := [] }

/-- The success line that the protocol prescribes for an id, a name, an ip and
a key. -/
def success_line (id name ip key : List Char) : List Char :=
  "OSSEC K:'".toList ++ id ++ [' '] ++ name ++ [' '] ++ ip ++ [' '] ++ key ++ "'\n\n".toList

/-- A sample cluster: the primary accepts every request and assigns the id
`007` and the key `secret`. -/
def sampleCluster : Cluster where
  add_clustered := fun _ _ _ _ => (0, "007".toList, "secret".toList)
  remove_clustered := fun _ => (0, 0)
  null_text := "(null)".toList

/-- The sample environment with an `SSL_write` that returns 0. -/
def sampleEnvWriteZero : Env := { sampleEnv with SSL_write := fun _ => 0 }

/-- The sample environment with an `SSL_write` that returns -1. -/
def sampleEnvWriteFail : Env := { sampleEnv with SSL_write := fun _ => -1 }

/-- A sample store in which the name `a1` and its candidates `a12` and `a13`
are taken, `a14` being free. -/
def sampleKeysTagged : keystore where
  keyentries :=
    [{ id := 1, name := "a1".toList, ip := "any".toList, key := "k1".toList },
     { id := 2, name := "a12".toList, ip := "any".toList, key := "k2".toList },
     { id := 3, name := "a13".toList, ip := "any".toList, key := "k3".toList }]
  id_counter := 4

/-- The sample environment without agent limit. -/
def sampleEnvNoLimit : Env := { sampleEnv with register_limit := false }

/-! ## `run_writer` -/

/-- The calls by which one pass of `run_writer` acts on the disk and on the
state database, with their arguments. -/
inductive WriterEffect where
  | OS_WriteKeys (copy_keys : keystore)
  | OS_AddAgentTimestamp (id : Nat) (name ip : List Char) (cur_time : Int)
  | set_agent_group (id : Nat) (group : List Char)
  | set_agent_multigroup (group : List Char)
  | OS_BackupAgentInfo (id : Nat) (name ip : List Char)
  | wdbc_query_remove (id : Nat)
  | delete_agentinfo (id : Nat) (name ip : List Char)
  | OS_RemoveCounter (id : Nat)
  | OS_RemoveAgentTimestamp (id : Nat)
  | OS_RemoveAgentGroup (id : Nat)
  deriving DecidableEq, Repr

/-- The loop of lines 1107-1124 from the node `cur` on, appending to the calls
made so far. -/
def writer_insert_loop (cur_time : Int) : List keynode → List WriterEffect → List WriterEffect
  | [], log => log
  | cur :: next, log =>
    let log := log ++ [WriterEffect.OS_AddAgentTimestamp cur.id cur.name cur.ip cur_time]
    let log :=
      match cur.group with
      | some group =>
        log ++ [WriterEffect.set_agent_group cur.id group, WriterEffect.set_agent_multigroup group]
      | none => log
    writer_insert_loop cur_time next log

/-- The loop of lines 1126-1137 from the node `cur` on. -/
def writer_backup_loop : List keynode → List WriterEffect → List WriterEffect
  | [], log => log
  | cur :: next, log =>
    writer_backup_loop next
      (log ++ [WriterEffect.OS_BackupAgentInfo cur.id cur.name cur.ip,
               WriterEffect.wdbc_query_remove cur.id])

/-- The loop of lines 1139-1155 from the node `cur` on; `delete_agentinfo`
receives the id and the text `<name>-<ip>`, recorded here by its two parts. -/
def writer_remove_loop : List keynode → List WriterEffect → List WriterEffect
  | [], log => log
  | cur :: next, log =>
    writer_remove_loop next
      (log ++ [WriterEffect.delete_agentinfo cur.id cur.name cur.ip,
               WriterEffect.OS_RemoveCounter cur.id,
               WriterEffect.OS_RemoveAgentTimestamp cur.id,
               WriterEffect.OS_RemoveAgentGroup cur.id,
               WriterEffect.wdbc_query_remove cur.id])

/-- What one pass of the `run_writer` loop leaves behind. -/
structure WriterPass where
  /-- The shared state after the pass. -/
  st : AuthState
  /-- The detached list `copy_insert`. -/
  copy_insert : List keynode
  /-- The detached list `copy_backup`. -/
  copy_backup : List keynode
  /-- The detached list `copy_remove`. -/
  copy_remove : List keynode
  /-- The calls made by the pass, in order. -/
  effects : List WriterEffect
  deriving DecidableEq, Repr

/-- One pass of the `while (running)` loop of `run_writer` once the condition
variable lets it through (lines 1087-1155): the queues are detached under the
lock, then the copies are walked at the time `cur_time`. -/
def run_writer_pass (st : AuthState) (cur_time : Int) : WriterPass :=
  let copy_keys := st.keys
  let copy_insert := st.queue_insert
  let copy_backup := st.queue_backup
  let copy_remove := st.queue_remove
  let st := { st with queue_insert := [], queue_backup := [], queue_remove := []
                      write_pending := false }
  let log := [WriterEffect.OS_WriteKeys copy_keys]
  let log := writer_insert_loop cur_time copy_insert log
  let log := writer_backup_loop copy_backup log
  let log := writer_remove_loop copy_remove log
  { st := st, copy_insert := copy_insert, copy_backup := copy_backup
    copy_remove := copy_remove, effects := log }

/-- The calls on the pending queues and the passes of the writer, each taken
as one step. -/
inductive QueueOp where
  | insert (entry : keyentry) (group : Option (List Char))
  | backup (entry : keyentry)
  | remove (entry : keyentry)
  | flush (cur_time : Int)
  deriving DecidableEq, Repr

/-- Run a sequence of queue calls and writer passes: the final state and the
passes made, oldest first. -/
def run_queue_ops : AuthState → List QueueOp → AuthState × List WriterPass
  | st, [] => (st, [])
  | st, QueueOp.insert entry group :: ops => run_queue_ops (add_insert st entry group) ops
  | st, QueueOp.backup entry :: ops => run_queue_ops (add_backup st entry) ops
  | st, QueueOp.remove entry :: ops => run_queue_ops (add_remove st entry) ops
  | st, QueueOp.flush cur_time :: ops =>
    let p := run_writer_pass st cur_time
    let r := run_queue_ops p.st ops
    (r.1, p :: r.2)

/-- The nodes that the `add_insert` calls of a sequence append, in order. -/
def appended_insert : List QueueOp → List keynode
  | [] => []
  | QueueOp.insert entry group :: ops =>
    { id := entry.id, name := entry.name, ip := entry.ip, group := group } :: appended_insert ops
  | _ :: ops => appended_insert ops

/-- The nodes that the `add_backup` calls of a sequence append, in order. -/
def appended_backup : List QueueOp → List keynode
  | [] => []
  | QueueOp.backup entry :: ops => backup_node entry :: appended_backup ops
  | _ :: ops => appended_backup ops

/-- The nodes that the `add_remove` calls of a sequence append, in order. -/
def appended_remove : List QueueOp → List keynode
  | [] => []
  | QueueOp.remove entry :: ops => backup_node entry :: appended_remove ops
  | _ :: ops => appended_remove ops

/-- Whether a sequence holds no writer pass. -/
def no_flush : List QueueOp → Bool
  | [] => true
  | QueueOp.flush _ :: _ => false
  | _ :: ops => no_flush ops

/-- The calls that the writer makes for one insertion node. -/
def insert_effects (cur_time : Int) (n : keynode) : List WriterEffect :=
  WriterEffect.OS_AddAgentTimestamp n.id n.name n.ip cur_time ::
    (match n.group with
      | some group =>
        [WriterEffect.set_agent_group n.id group, WriterEffect.set_agent_multigroup group]
      | none => [])

/-- The calls that the writer makes for one backup node. -/
def backup_effects (n : keynode) : List WriterEffect :=
  [WriterEffect.OS_BackupAgentInfo n.id n.name n.ip, WriterEffect.wdbc_query_remove n.id]

/-- The calls that the writer makes for one deletion node. -/
def remove_effects (n : keynode) : List WriterEffect :=
  [WriterEffect.delete_agentinfo n.id n.name n.ip, WriterEffect.OS_RemoveCounter n.id,
   WriterEffect.OS_RemoveAgentTimestamp n.id, WriterEffect.OS_RemoveAgentGroup n.id,
   WriterEffect.wdbc_query_remove n.id]

/-! ## A first pass of the dispatcher -/

/-- A first pass of the dispatcher on the sample store: the request
`OSSEC A:'alpha'` of the peer `192.168.1.7`, the response buffer empty. -/
def sampleFirstPass : DispatchResult :=
  dispatch_primary sampleEnv (AuthState.ofKeys sampleKeys) "OSSEC A:'alpha'".toList []
    none "192.168.1.7".toList

end Authd

/-!
# Integrity synchronizer (`syscheckd/fim_sync.c`)

A shallow embedding of `fim_run_integrity`, `fim_sync_checksum`,
`fim_sync_checksum_split`, `fim_sync_send_list` and `fim_sync_dispatch`.
-/

namespace FimSync

/-- The value `valuedouble` of a JSON number, as the exact fraction
`num / den`: every finite double is such a fraction with `den` positive, and
the whole number `n` is `n / 1`.  A denominator 0 stands for the values that
are not finite: the infinities by the sign of `num` (the parser gives them for
a literal beyond the range of `double`) and NaN for `0 / 0`. -/
structure JsonNumber where
  /-- Numerator. -/
  num : Int
  /-- Denominator: positive for a finite value, 0 otherwise. -/
  den : Nat
  deriving DecidableEq, Repr

/-- The JSON number of a whole value. -/
def JsonNumber.ofInt (n : Int) : JsonNumber := { num := n, den := 1 }

/-- A natural number cut to the granularity `2 ^ e`, to nearest with ties to
even: the multiple of `2 ^ e` that a binary floating-point format keeping the
bits above `e` stores for it. -/
def round_at (a e : Nat) : Nat :=
  let q := a / 2 ^ e
  let r := a % 2 ^ e
  if 2 * r > 2 ^ e ∨ (2 * r = 2 ^ e ∧ q % 2 = 1) then (q + 1) * 2 ^ e else q * 2 ^ e

/-- The number of low bits of `a` that do not fit the 53-bit significand of a
`double`: how often `a` is halved before it is below `2 ^ 53`.  The first
argument bounds the recursion and is `a` itself, which is never used up. -/
def excess_bits : Nat → Nat → Nat
  | 0, _ => 0
  | fuel + 1, a => if a < 2 ^ 53 then 0 else excess_bits fuel (a / 2) + 1

/-- The conversion of a `long` to `double` that the comparisons of lines 193
and 196 apply to `fim_sync_cur_id` (usual arithmetic conversions, round to
nearest, ties to even): values of magnitude up to `2 ^ 53` are kept, larger
ones are rounded to 53 significant bits. -/
def long_to_double (x : Int) : Int :=
  let r := round_at x.natAbs (excess_bits x.natAbs x.natAbs)
  if 0 ≤ x then (r : Int) else -(r : Int)

/-- Whether a whole value lies in the range of a `long` of `bits` bits. -/
def in_long_range (bits : Nat) (x : Int) : Bool :=
  decide (-((2 ^ (bits - 1) : Nat) : Int) ≤ x) && decide (x < ((2 ^ (bits - 1) : Nat) : Int))

/-- The comparison `valuedouble < cur` of line 193, made in `double` after the
conversion of the `long`. -/
def JsonNumber.lt_long (x : JsonNumber) (cur : Int) : Bool :=
  decide (x.num < long_to_double cur * (x.den : Int))

/-- The comparison `valuedouble > cur` of line 196, made in `double` after the
conversion of the `long`. -/
def JsonNumber.gt_long (x : JsonNumber) (cur : Int) : Bool :=
  decide (x.num > long_to_double cur * (x.den : Int))

/-- The conversion of `valuedouble` to a `long` of `bits` bits (lines 194 and
210): the fractional part is discarded; when the value is not finite or its
whole part is outside the range of `long` the C standard leaves the result
undefined, and `indefinite` stands for what the platform gives. -/
def JsonNumber.to_long (x : JsonNumber) (bits : Nat) (indefinite : Int) : Int :=
  if x.den ≠ 0 ∧ in_long_range bits (Int.tdiv x.num (x.den : Int)) = true then
    Int.tdiv x.num (x.den : Int)
  else indefinite

/-- What `fim_sync_dispatch` reads from the parsed argument `root`. -/
structure JsonArg where
  /-- The number of the item `id`, `none` unless `cJSON_IsNumber` holds. -/
  id : Option JsonNumber
  /-- The string value of the item `begin`, `none` for NULL. -/
  begin_str : Option (List Char)
  /-- The string value of the item `end`, `none` for NULL. -/
  end_str : Option (List Char)
  deriving DecidableEq, Repr

/-- A message handed to `fim_send_sync_msg`. -/
inductive SyncMsg where
  | integrity_check_global (id : Int) (start top checksum : List Char)
  | integrity_clear (id : Int)
  | state (path data : List Char)
  deriving DecidableEq, Repr

/-- A call of one of the two handlers of `fim_sync_dispatch`. -/
inductive HandlerCall where
  | checksum_split (start top : List Char) (id : Int)
  | send_list (start top : List Char)
  deriving DecidableEq, Repr

/-- Modelled from the spec: the entity table behind `fim_db.h`, which is not
part of the sources at hand ("local entity table", keys in lexicographic
order): the records as pairs of path and data, first row first. -/
structure FimDb where
  /-- The rows, in key order. -/
  rows : List (List Char × List Char)
  deriving DecidableEq, Repr

/-- Modelled from the spec: `fim_db_get_row_path(FIM_FIRST_ROW)`, the smallest
key, `none` for NULL. -/
def fim_db_first_row (db : FimDb) : Option (List Char) := db.rows.head?.map (fun r => r.1)

/-- Modelled from the spec: `fim_db_get_row_path(FIM_LAST_ROW)`, the largest
key, `none` for NULL. -/
def fim_db_last_row (db : FimDb) : Option (List Char) := db.rows.getLast?.map (fun r => r.1)

/-- Modelled from the spec: `fim_db_get_path(path)`, the record of a key. -/
def fim_db_get_path (db : FimDb) (path : List Char) : Option (List Char × List Char) :=
  db.rows.find? (fun r => r.1 == path)

/-- The fields of `syscheck` that the synchronizer reads, the platform and the
library routines that it calls. -/
structure SyncEnv where
  /-- Field `syscheck.sync_interval`. -/
  sync_interval : Int
  /-- Field `syscheck.max_sync_interval`. -/
  max_sync_interval : Int
  /-- Field `syscheck.sync_response_timeout`. -/
  sync_response_timeout : Int
  /-- Number of bits of the type `long`. -/
  LONG_BITS : Nat
  /-- What the platform gives for the conversion to `long` of a double whose
  whole part is outside the range of `long` (`LONG_MIN` on x86-64). -/
  long_indefinite : Int
  /-- The parser `cJSON_Parse`, `none` for NULL. -/
  cJSON_Parse : List Char → Option JsonArg
  /-- The hexadecimal SHA-1 digest that `fim_db_get_data_checksum` and
  `OS_SHA1_Hexdigest` give for the table. -/
  hexdigest : FimDb → List Char

/-- The variable `fim_sync_cur_id` with a log of the messages sent and of the
handler calls made. -/
structure SyncState where
  /-- The variable `fim_sync_cur_id`. -/
  fim_sync_cur_id : Int
  /-- The messages handed to `fim_send_sync_msg`, oldest first. -/
  sent : List SyncMsg
  /-- The handler calls made by `fim_sync_dispatch`, oldest first. -/
  calls : List HandlerCall
  deriving DecidableEq, Repr

/-- A value brought into the range of a `long` of `bits` bits, as two's
complement arithmetic does. -/
def wrap_long (bits : Nat) (x : Int) : Int :=
  (x + 2 ^ (bits - 1)) % 2 ^ bits - 2 ^ (bits - 1)

/-- The function `fim_sync_checksum()` run at the time `now`. -/
def fim_sync_checksum (env : SyncEnv) (db : FimDb) (now : Int) (st : SyncState) : SyncState :=
  let start := fim_db_first_row db
  let top := fim_db_last_row db
  let st := { st with fim_sync_cur_id := now }
  match start, top with
  | some start, some top =>
    { st with sent := st.sent ++
        [SyncMsg.integrity_check_global st.fim_sync_cur_id start top (env.hexdigest db)] }
  | _, _ => { st with sent := st.sent ++ [SyncMsg.integrity_clear st.fim_sync_cur_id] }

/-- The function `fim_sync_checksum_split(start, top, id)`.  The count `n` is
the constant 0: the call `fim_db_get_count_range` that would set it is
commented out (line 112), as is the call of the `default` case (line 130). -/
def fim_sync_checksum_split (db : FimDb) (st : SyncState) (start top : List Char) (id : Int) :
    SyncState :=
  let st := { st with calls := st.calls ++ [HandlerCall.checksum_split start top id] }
  let n : Int := 0
  if n = 0 then st
  else if n = 1 then
    match fim_db_get_path db start with
    | some entry => { st with sent := st.sent ++ [SyncMsg.state start entry.2] }
    | none => st
  else st

/-- The function `fim_sync_send_list(start, top)`, whose body is commented
out (lines 139-161). -/
def fim_sync_send_list (st : SyncState) (start top : List Char) : SyncState :=
  { st with calls := st.calls ++ [HandlerCall.send_list start top] }

/-- The split of `strchr(payload, ' ')`: the command before the first space
and the argument after it, `none` without a space. -/
def split_space : List Char → Option (List Char × List Char)
  | [] => none
  | c :: cs =>
    if c == ' ' then some ([], cs)
    else (split_space cs).map (fun r => (c :: r.1, r.2))

/-- The function `fim_sync_dispatch(payload)`. -/
def fim_sync_dispatch (env : SyncEnv) (db : FimDb) (st : SyncState) (payload : List Char) :
    SyncState :=
  match split_space (Authd.cstr payload) with
  | none => st
  | some (command, json_arg) =>
    match env.cJSON_Parse json_arg with
    | none => st
    | some root =>
      match root.id with
      | none => st
      | some id =>
        if id.lt_long st.fim_sync_cur_id then
          let st := { st with fim_sync_cur_id := id.to_long env.LONG_BITS env.long_indefinite }
          match root.begin_str, root.end_str with
          | some begin_str, some end_str =>
            if command == "checksum_fail".toList then
              fim_sync_checksum_split db st begin_str end_str
                (id.to_long env.LONG_BITS env.long_indefinite)
            else if command == "no_data".toList then fim_sync_send_list st begin_str end_str
            else st
          | _, _ => st
        else if id.gt_long st.fim_sync_cur_id then st
        else
          match root.begin_str, root.end_str with
          | some begin_str, some end_str =>
            if command == "checksum_fail".toList then
              fim_sync_checksum_split db st begin_str end_str
                (id.to_long env.LONG_BITS env.long_indefinite)
            else if command == "no_data".toList then fim_sync_send_list st begin_str end_str
            else st
          | _, _ => st

/-- The state of the loop of `fim_run_integrity`. -/
structure RunState where
  /-- The variable `sync_interval`. -/
  sync_interval : Int
  /-- The state of the synchronizer. -/
  sync : SyncState
  deriving DecidableEq, Repr

/-- What the outside gives to one round of `fim_run_integrity`: the time at
which `fim_sync_checksum` runs, the entity table, and the messages that
`queue_pop_ex_timedwait` hands out before it times out. -/
structure Round where
  /-- The time `time(NULL)` of the round. -/
  now : Int
  /-- The entity table during the round. -/
  db : FimDb
  /-- The messages dequeued during the round, in order. -/
  msgs : List (List Char)
  deriving DecidableEq, Repr

/-- The inner `while` of lines 48-58 over the messages still to come, with the
flag `sync_successful`. -/
def collect_loop (env : SyncEnv) (db : FimDb) :
    List (List Char) → SyncState → Bool → SyncState × Bool
  | [], st, sync_successful => (st, sync_successful)
  | msg :: rest, st, _ => collect_loop env db rest (fim_sync_dispatch env db st msg) false

/-- One round of the `while (1)` of `fim_run_integrity` (lines 35-67): the
state after the round and the final value of `sync_successful`. -/
def integrity_round (env : SyncEnv) (rs : RunState) (round : Round) : RunState × Bool :=
  let sync_successful := true
  let st := fim_sync_checksum env round.db round.now rs.sync
  let r := collect_loop env round.db round.msgs st sync_successful
  if r.2 then ({ sync_interval := env.sync_interval, sync := r.1 }, r.2)
  else
    let sync_interval := wrap_long env.LONG_BITS (rs.sync_interval * 2)
    let sync_interval :=
      if sync_interval < env.max_sync_interval then sync_interval else env.max_sync_interval
    ({ sync_interval := sync_interval, sync := r.1 }, r.2)

/-- The state in which `fim_run_integrity` enters its loop (line 31), the
synchronizer being in the state `sync`. -/
def integrity_start (env : SyncEnv) (sync : SyncState) : RunState :=
  { sync_interval := env.sync_interval, sync := sync }

/-- The loop of `fim_run_integrity` over a finite number of rounds. -/
def integrity_rounds (env : SyncEnv) : RunState → List Round → RunState
  | rs, [] => rs
  | rs, round :: rest => integrity_rounds env (integrity_round env rs round).1 rest

/-- A sample parser recognising three argument texts: a whole id 100, a whole
id 90 and the fractional id 2.5, each with the range from `a` to `z`. -/
def sample_parse (json : List Char) : Option JsonArg :=
  if json == "\x7b\"id\":100,\"begin\":\"a\",\"end\":\"z\"\x7d".toList then
    some { id := some (JsonNumber.ofInt 100), begin_str := some "a".toList
           end_str := some "z".toList }
  else if json == "\x7b\"id\":90,\"begin\":\"a\",\"end\":\"z\"\x7d".toList then
    some { id := some (JsonNumber.ofInt 90), begin_str := some "a".toList
           end_str := some "z".toList }
  else if json == "\x7b\"id\":2.5,\"begin\":\"a\",\"end\":\"z\"\x7d".toList then
    some { id := some { num := 5, den := 2 }, begin_str := some "a".toList
           end_str := some "z".toList }
  else none

/-- A sample environment: intervals of 300 and 3600 seconds, a `long` of 64
bits, the sample parser and a constant digest. -/
def sampleSyncEnv : SyncEnv where
  sync_interval := 300
  max_sync_interval := 3600
  sync_response_timeout := 30
  LONG_BITS := 64
  long_indefinite := -9223372036854775808
  cJSON_Parse := sample_parse
  hexdigest := fun _ => "da39a3ee".toList

/-- A second sample parser, for ids at the limits of the number types: the
whole id `2 ^ 53 = 9007199254740992` and the id `-1e19`, below the range of a
`long` of 64 bits, each with the range from `a` to `z`. -/
def sample_parse_wide (json : List Char) : Option JsonArg :=
  if json == "\x7b\"id\":9007199254740992,\"begin\":\"a\",\"end\":\"z\"\x7d".toList then
    some { id := some (JsonNumber.ofInt 9007199254740992), begin_str := some "a".toList
           end_str := some "z".toList }
  else if json == "\x7b\"id\":-1e19,\"begin\":\"a\",\"end\":\"z\"\x7d".toList then
    some { id := some (JsonNumber.ofInt (-10000000000000000000)), begin_str := some "a".toList
           end_str := some "z".toList }
  else none

/-- The sample environment with the second sample parser. -/
def sampleSyncEnvWide : SyncEnv := { sampleSyncEnv with cJSON_Parse := sample_parse_wide }

/-- A sample table of three records. -/
def sampleDb : FimDb where
  rows := [("a".toList, "d1".toList), ("m".toList, "d2".toList), ("z".toList, "d3".toList)]

/-- A sample table of one record. -/
def sampleDbOne : FimDb where
  rows := [("a".toList, "d1".toList)]

/-- A synchronizer state with empty logs. -/
def SyncState.ofId (id : Int) : SyncState where
  fim_sync_cur_id := id
  sent := []
  calls := []

end FimSync

/-! # Properties -/

namespace Authd
open w_err_t

/-! ## C strings -/


theorem strncmp_zero_append (b r : List Char) (h : NUL ∉ b) :
    strncmp_zero (b ++ r) b b.length = true := by
  induction b with
  | nil => simp [strncmp_zero]
  | cons c cs ih =>
    have hc : c ≠ NUL := fun e => h (by simp [e])
    have hcs : NUL ∉ cs := fun e => h (by simp [e])
    simp [strncmp_zero, deref, hc, ih hcs]

theorem strncmp_zero_split (b : List Char) (h : NUL ∉ b) :
    ∀ a : List Char, strncmp_zero a b b.length = true → a = b ++ a.drop b.length := by
  induction b with
  | nil => intro a _; simp
  | cons c cs ih =>
    intro a ha
    have hc : c ≠ NUL := fun e => h (by simp [e])
    have hcs : NUL ∉ cs := fun e => h (by simp [e])
    cases a with
    | nil => simp [strncmp_zero, deref, hc, Ne.symm hc] at ha
    | cons x xs =>
      simp only [strncmp_zero, deref, List.headD_cons, List.length_cons, List.tail_cons] at ha
      by_cases hx : x = c
      · subst hx
        simp [hc] at ha
        have := ih hcs xs ha
        simp only [List.length_cons, List.drop_succ_cons, List.cons_append]
        rw [← this]
      · simp [hx] at ha

theorem cstr_append (a b : List Char) (h : NUL ∉ a) : cstr (a ++ b) = a ++ cstr b := by
  induction a with
  | nil => rfl
  | cons c cs ih =>
    have hc : c ≠ NUL := fun e => h (by simp [e])
    have hcs : NUL ∉ cs := fun e => h (by simp [e])
    have := ih hcs
    simp only [cstr] at this ⊢
    have hb : (c != NUL) = true := by simpa using hc
    simp [List.takeWhile, hb, this]

theorem cstr_self (a : List Char) (h : NUL ∉ a) : cstr a = a := by
  have := cstr_append a [] h
  simpa [cstr] using this

theorem strlen_eq (a : List Char) (h : NUL ∉ a) : strlen a = a.length := by
  simp [strlen, cstr_self a h]

theorem scan_name_append (n rest : List Char) (hq : QUOTE ∉ n) (h0 : NUL ∉ n) :
    scan_name (n ++ QUOTE :: rest) = some (n, rest) := by
  induction n with
  | nil => simp [scan_name, QUOTE, NUL]
  | cons c cs ih =>
    have hc : c ≠ NUL := fun e => h0 (by simp [e])
    have hcs : NUL ∉ cs := fun e => h0 (by simp [e])
    have hc2 : c ≠ QUOTE := fun e => hq (by simp [e])
    have hcs2 : QUOTE ∉ cs := fun e => hq (by simp [e])
    simp [scan_name, hc, hc2, ih hcs2 hcs]

theorem scan_name_some (p n rest : List Char) (h : scan_name p = some (n, rest)) :
    p = n ++ QUOTE :: rest ∧ QUOTE ∉ n ∧ NUL ∉ n := by
  induction p generalizing n with
  | nil => simp [scan_name] at h
  | cons c cs ih =>
    simp only [scan_name] at h
    by_cases hc : c = NUL
    · simp [hc] at h
    · by_cases hc2 : c = QUOTE
      · subst hc2
        simp [hc] at h
        obtain ⟨h1, h2⟩ := h
        subst h1; subst h2
        simp
      · simp [hc, hc2] at h
        obtain ⟨a, hab, h1⟩ := h
        subst h1
        obtain ⟨e, q, z⟩ := ih a hab
        refine ⟨by simp [e], ?_, ?_⟩
        · simp [q]; exact Ne.symm hc2
        · simp [z]; exact Ne.symm hc

theorem snprintf_fits (size : Nat) (old s : List Char) (h : s.length < size) :
    snprintf size old s = s := by
  unfold snprintf
  have : size ≠ 0 := by omega
  simp [this]
  omega

/-- Claim C1: with no shared password, the request `OSSEC A:'n'` for a name `n`
that passes the name validator (and holds no single quote and no NUL) is
parsed with `OS_SUCCESS`, `agentname = n`, the groups left empty, and the ip
set to `any` when `use_source_ip` is off and left at the peer address when it
is on.  `IPSIZE` is taken to hold the text `any` (four bytes). -/
theorem parse_happy_path (env : Env) (n response ip : List Char)
    (hq : QUOTE ∉ n) (h0 : NUL ∉ n) (hv : env.OS_IsValidName n = true) (hsz : 4 ≤ env.IPSIZE) :
    w_auth_parse_data env ("OSSEC A:'".toList ++ n ++ [QUOTE]) response none ip none [] =
      { ret := OS_SUCCESS, response := response
        ip := if env.use_source_ip then ip else "any".toList
        agentname := some n, groups := [] } := by
  have h1 : strncmp_zero ("OSSEC A:'".toList ++ (n ++ [QUOTE])) "OSSEC A:'".toList 9 = true :=
    strncmp_zero_append "OSSEC A:'".toList (n ++ [QUOTE]) (by decide)
  have h2 : ("OSSEC A:'".toList ++ (n ++ [QUOTE])).drop 9 = n ++ [QUOTE] := by
    simp
  have h3 : scan_name (n ++ [QUOTE]) = some (n, []) := scan_name_append n [] hq h0
  have h4 : snprintf env.IPSIZE ip "any".toList = "any".toList :=
    snprintf_fits _ _ _ (by simp; omega)
  simp only [w_auth_parse_data, parse_action, List.append_assoc, h1, h2, h3, hv, if_true,
    Bool.not_true, parse_group, List.tail_nil]
  have h5 : strncmp_zero [] "G:".toList 2 = false := by decide
  have h6 : strncmp_zero [] "IP:".toList 3 = false := by decide
  simp only [h5, h6, parse_ip, h4]
  cases env.use_source_ip <;> simp

/-- Claim C1 at the request `OSSEC A:'alpha'`. -/
theorem parse_happy_path_witness :
    w_auth_parse_data sampleEnv ("OSSEC A:'".toList ++ "alpha".toList ++ [QUOTE]) [] none
        "192.168.1.7".toList none [] =
      { ret := OS_SUCCESS, response := []
        ip := if sampleEnv.use_source_ip then "192.168.1.7".toList else "any".toList
        agentname := some "alpha".toList, groups := [] } :=
  parse_happy_path sampleEnv "alpha".toList [] "192.168.1.7".toList (by decide) (by decide)
    (by decide) (by decide)

theorem password_stage_append (pw rest : List Char) (h0 : NUL ∉ pw) :
    password_stage ("OSSEC PASS: ".toList ++ pw ++ ' ' :: rest) pw = some rest := by
  have h1 : strncmp_zero ("OSSEC PASS: ".toList ++ (pw ++ ' ' :: rest)) "OSSEC PASS: ".toList 12
      = true := strncmp_zero_append "OSSEC PASS: ".toList _ (by decide)
  have h2 : ("OSSEC PASS: ".toList ++ (pw ++ ' ' :: rest)).drop 12 = pw ++ ' ' :: rest := by simp
  have h3 : strlen (pw ++ ' ' :: rest) > strlen pw := by
    have hs : (' ' != NUL) = true := by decide
    simp [strlen, cstr_append pw _ h0, cstr_self pw h0]
    simp [cstr, List.takeWhile, hs]
  have h4 : strncmp_zero (pw ++ ' ' :: rest) pw (strlen pw) = true := by
    rw [strlen_eq pw h0]; exact strncmp_zero_append pw _ h0
  have h5 : (pw ++ ' ' :: rest).drop (strlen pw) = ' ' :: rest := by
    rw [strlen_eq pw h0]; simp
  simp only [password_stage, List.append_assoc, h1, h2, h4, h5, if_true, decide_eq_true h3,
    Bool.and_self, deref, List.headD_cons, List.tail_cons, beq_self_eq_true]

theorem password_stage_some (buf pw rest : List Char) (h0 : NUL ∉ pw)
    (h : password_stage buf pw = some rest) :
    buf = "OSSEC PASS: ".toList ++ pw ++ ' ' :: rest := by
  unfold password_stage at h
  by_cases h1 : strncmp_zero buf "OSSEC PASS: ".toList 12 = true
  · have e1 := strncmp_zero_split "OSSEC PASS: ".toList (by decide) buf h1
    simp only [h1, if_true] at h
    have hl : "OSSEC PASS: ".toList.length = 12 := by decide
    rw [hl] at e1
    generalize buf.drop 12 = b1 at h e1
    by_cases h2 : (decide (strlen b1 > strlen pw) && strncmp_zero b1 pw (strlen pw)) = true
    · simp only [h2, if_true] at h
      simp only [Bool.and_eq_true] at h2
      have e2 := strncmp_zero_split pw h0 b1 (by rw [← strlen_eq pw h0]; exact h2.2)
      rw [strlen_eq pw h0] at h
      generalize b1.drop pw.length = b2 at h e2
      cases b2 with
      | nil => simp [deref, NUL] at h
      | cons c cs =>
        by_cases h3 : c = ' '
        · subst h3
          simp [deref] at h
          subst h
          rw [e1, e2]; simp
        · simp [deref, h3] at h
    · rw [if_neg h2] at h; exact absurd h (by simp)
  · rw [if_neg h1] at h; exact absurd h (by simp)

/-- Claim C2: with a shared password `pw` configured, the password stage is
passed exactly by the buffers `OSSEC PASS: ` ++ `pw` ++ one space ++ rest, the
rest being then parsed as a request without password prefix; every other
buffer gives `OS_INVALID` with the response `ERROR: Invalid password`. -/
theorem parse_password_check (env : Env) (pw response ip groups : List Char)
    (agentname : Option (List Char)) (h0 : NUL ∉ pw) :
    (∀ buf rest, password_stage buf pw = some rest ↔
        buf = "OSSEC PASS: ".toList ++ pw ++ ' ' :: rest) ∧
    (∀ rest, w_auth_parse_data env ("OSSEC PASS: ".toList ++ pw ++ ' ' :: rest) response
        (some pw) ip agentname groups
      = w_auth_parse_data env rest response none ip agentname groups) ∧
    (∀ buf, (¬ ∃ rest, buf = "OSSEC PASS: ".toList ++ pw ++ ' ' :: rest) →
      w_auth_parse_data env buf response (some pw) ip agentname groups =
        { ret := OS_INVALID, response := "ERROR: Invalid password".toList, ip := ip
          agentname := agentname, groups := groups }) := by
  refine ⟨?_, ?_, ?_⟩
  · intro buf rest
    constructor
    · exact password_stage_some buf pw rest h0
    · intro e; subst e; exact password_stage_append pw rest h0
  · intro rest
    simp only [w_auth_parse_data, password_stage_append pw rest h0]
  · intro buf hb
    have hn : password_stage buf pw = none := by
      cases hp : password_stage buf pw with
      | none => rfl
      | some rest => exact absurd ⟨rest, password_stage_some buf pw rest h0 hp⟩ hb
    simp only [w_auth_parse_data, hn]
    rw [snprintf_fits _ _ _ (by decide)]

theorem takeWhile_field (v tail : List Char) (hq : QUOTE ∉ v) (h0 : NUL ∉ v) :
    (v ++ QUOTE :: tail).takeWhile (fun c => c != QUOTE && c != NUL) = v := by
  induction v with
  | nil => simp [List.takeWhile]
  | cons c cs ih =>
    have hc : c ≠ NUL := fun e => h0 (by simp [e])
    have hcs : NUL ∉ cs := fun e => h0 (by simp [e])
    have hc2 : c ≠ QUOTE := fun e => hq (by simp [e])
    have hcs2 : QUOTE ∉ cs := fun e => hq (by simp [e])
    have hb : (c != QUOTE && c != NUL) = true := by simp [hc, hc2]
    have := ih hcs2 hcs
    simp only [List.cons_append, List.takeWhile_cons, hb, if_true, this]

theorem sscanf_field_quoted (width : Nat) (v tail old : List Char) (hq : QUOTE ∉ v)
    (h0 : NUL ∉ v) (hw : v.length ≤ width) :
    sscanf_field width (QUOTE :: (v ++ QUOTE :: tail)) old = if v.isEmpty then old else v := by
  simp only [sscanf_field, deref, List.headD_cons, beq_self_eq_true, if_true, List.tail_cons,
    takeWhile_field v tail hq h0, List.take_of_length_le hw]

theorem strncmp_src_false (v : List Char) (h : ¬ "src".toList <+: v) :
    strncmp_zero v "src".toList 3 = false := by
  cases hs : strncmp_zero v "src".toList 3 with
  | false => rfl
  | true =>
    exfalso
    have := strncmp_zero_split "src".toList (by decide) v hs
    exact h ⟨_, this.symm⟩

/-- Claim C2 at the password `secret`: the request behind the prefix is parsed
as without password. -/
theorem parse_password_check_witness :
    w_auth_parse_data sampleEnv ("OSSEC PASS: ".toList ++ "secret".toList ++
        ' ' :: "OSSEC A:'alpha'".toList) [] (some "secret".toList) "192.168.1.7".toList none []
      = w_auth_parse_data sampleEnv "OSSEC A:'alpha'".toList [] none "192.168.1.7".toList none [] :=
  (parse_password_check sampleEnv "secret".toList [] "192.168.1.7".toList [] none
    (by decide)).2.1 "OSSEC A:'alpha'".toList

/-- Result of the IP stage on a well-formed `IP:'v'` field. -/
theorem parse_ip_field (env : Env) (v tail response ip n g : List Char) (hq : QUOTE ∉ v)
    (h0 : NUL ∉ v) (hw : v.length ≤ env.IPSIZE) :
    parse_ip env ("IP:".toList ++ QUOTE :: (v ++ QUOTE :: tail)) response ip n g =
      if strncmp_zero v "src".toList 3 then
        { ret := OS_SUCCESS, response := response, ip := ip, agentname := some n, groups := g }
      else if env.OS_IsValidIP v then
        { ret := OS_SUCCESS, response := response, ip := snprintf env.IPSIZE ip v
          agentname := some n, groups := g }
      else
        { ret := OS_INVALID
          response := snprintf 2048 response ("ERROR: Invalid IP: ".toList ++ v ++ "\n\n".toList)
          ip := ip, agentname := some n, groups := g } := by
  have h1 : strncmp_zero ("IP:".toList ++ QUOTE :: (v ++ QUOTE :: tail)) "IP:".toList 3 = true :=
    strncmp_zero_append "IP:".toList _ (by decide)
  have h2 : ("IP:".toList ++ QUOTE :: (v ++ QUOTE :: tail)).drop 3 = QUOTE :: (v ++ QUOTE :: tail) := by
    simp
  have h3 := sscanf_field_quoted env.IPSIZE v tail [] hq h0 hw
  have h4 : (if v.isEmpty then [] else v) = v := by
    cases v <;> simp
  rw [h4] at h3
  simp only [parse_ip, h1, h2, h3, if_true]
  cases strncmp_zero v "src".toList 3 <;> cases env.OS_IsValidIP v <;> simp


/-- The name stage on a well-formed request: the group stage is reached at the
position after the closing quote. -/
theorem parse_action_name (env : Env) (n rest response ip groups : List Char)
    (agentname : Option (List Char))
    (hq : QUOTE ∉ n) (h0 : NUL ∉ n) (hv : env.OS_IsValidName n = true) :
    parse_action env ("OSSEC A:'".toList ++ n ++ QUOTE :: rest) response ip agentname groups =
      parse_group env rest response ip n groups := by
  have h1 : strncmp_zero ("OSSEC A:'".toList ++ (n ++ QUOTE :: rest)) "OSSEC A:'".toList 9 = true :=
    strncmp_zero_append "OSSEC A:'".toList _ (by decide)
  have h2 : ("OSSEC A:'".toList ++ (n ++ QUOTE :: rest)).drop 9 = n ++ QUOTE :: rest := by
    simp
  have h3 := scan_name_append n rest hq h0
  simp only [parse_action, List.append_assoc, h1, h2, h3, hv, if_true, Bool.not_true,
    Bool.false_eq_true, if_false]

/-- The group stage when no `G:` token follows. -/
theorem parse_group_skip (env : Env) (rest response ip n groups : List Char)
    (h : strncmp_zero rest.tail "G:".toList 2 = false) :
    parse_group env rest response ip n groups = parse_ip env rest.tail response ip n groups := by
  simp only [parse_group, h]
  simp

/-- The group stage on a well-formed `G:'x'` field. -/
theorem parse_group_field (env : Env) (c : Char) (x tail response ip n groups : List Char)
    (hx : x ≠ []) (hq : QUOTE ∉ x) (h0 : NUL ∉ x) (hl : x.length ≤ 65535)
    (hv : 0 ≤ env.w_validate_group_name x) :
    parse_group env (c :: ("G:".toList ++ QUOTE :: (x ++ QUOTE :: tail))) response ip n groups =
      parse_ip env tail.tail response ip n
        (snprintf 65536 x ((wstr_delete_repeated_groups x).getD [])) := by
  have h1 : strncmp_zero ("G:".toList ++ QUOTE :: (x ++ QUOTE :: tail)) "G:".toList 2 = true :=
    strncmp_zero_append "G:".toList _ (by decide)
  have h2 : ("G:".toList ++ QUOTE :: (x ++ QUOTE :: tail)).drop 2 = QUOTE :: (x ++ QUOTE :: tail) := by
    simp
  have h3 := sscanf_field_quoted 65535 x tail groups hq h0 hl
  have h4 : (if x.isEmpty then groups else x) = x := by
    cases x with
    | nil => exact absurd rfl hx
    | cons a as => simp
  rw [h4] at h3
  have h5 : ¬ env.w_validate_group_name x < 0 := by omega
  have h6 : ("G:".toList ++ QUOTE :: (x ++ QUOTE :: tail)).drop (2 + strlen x + 2) = tail := by
    rw [strlen_eq x h0]
    have e : 2 + x.length + 2 = (1 + (x.length + 1)) + 2 := by omega
    have d : ∀ (l : List Char), l.drop ((1 + (x.length + 1)) + 2) = (l.drop 2).drop (1 + (x.length + 1)) := by
      intro l; rw [List.drop_drop]
      first
        | rfl
        | (congr 1; omega)
    rw [e, d, h2]
    have : 1 + (x.length + 1) = (x.length + 1) + 1 := by omega
    rw [this, List.drop_succ_cons]
    have h7 : x ++ QUOTE :: tail = (x ++ [QUOTE]) ++ tail := by simp
    rw [h7]
    have h8 : x.length + 1 = (x ++ [QUOTE]).length := by simp
    rw [h8, List.drop_left]
  simp only [parse_group, List.tail_cons, h1, h2, h3, h5, h6, if_true, if_false,
    wstr_delete_repeated_groups, Option.getD_some]

theorem request_eq (n v : List Char) (g : Option (List Char)) :
    request n g (some v) = "OSSEC A:'".toList ++ n ++ QUOTE ::
      ((match g with
        | some x => ' ' :: ("G:".toList ++ QUOTE :: (x ++ QUOTE :: []))
        | none => []) ++ ' ' :: ("IP:".toList ++ QUOTE :: (v ++ QUOTE :: []))) := by
  cases g <;> simp [request] <;> rfl

/-- The whole parse of a well-formed request with an `IP:'v'` field. -/
theorem parse_request_ip (env : Env) (n v response peer : List Char) (g : Option (List Char))
    (hnq : QUOTE ∉ n) (hn0 : NUL ∉ n) (hnv : env.OS_IsValidName n = true)
    (hg : ∀ x, g = some x → x ≠ [] ∧ QUOTE ∉ x ∧ NUL ∉ x ∧ x.length ≤ 65535 ∧
      0 ≤ env.w_validate_group_name x) :
    ∃ groups, w_auth_parse_data env (request n g (some v)) response none peer none [] =
      parse_ip env ("IP:".toList ++ QUOTE :: (v ++ QUOTE :: [])) response peer n groups := by
  rw [request_eq]
  simp only [w_auth_parse_data]
  rw [parse_action_name env n _ response peer [] none hnq hn0 hnv]
  cases g with
  | none =>
    refine ⟨[], ?_⟩
    rw [parse_group_skip]
    · simp
    · simp [strncmp_zero, deref]
  | some x =>
    obtain ⟨hx, hq, h0, hl, hv⟩ := hg x rfl
    refine ⟨snprintf 65536 x ((wstr_delete_repeated_groups x).getD []), ?_⟩
    have := parse_group_field env ' ' x (' ' :: ("IP:".toList ++ QUOTE :: (v ++ QUOTE :: [])))
      response peer n [] hx hq h0 hl hv
    simpa using this

/-- Claim C3, amended: in a well-formed request with an `IP:'v'` field whose
value is shorter than `IPSIZE`, the literal `src` keeps the peer address, and
a value that does not begin with `src` is either valid for the IP validator
and becomes the ip output, or is refused with `OS_INVALID` and the response
`ERROR: Invalid IP: v` followed by two newlines. -/
theorem parse_ip_value (env : Env) (n v response peer : List Char) (g : Option (List Char))
    (hnq : QUOTE ∉ n) (hn0 : NUL ∉ n) (hnv : env.OS_IsValidName n = true)
    (hg : ∀ x, g = some x → x ≠ [] ∧ QUOTE ∉ x ∧ NUL ∉ x ∧ x.length ≤ 65535 ∧
      0 ≤ env.w_validate_group_name x)
    (hvq : QUOTE ∉ v) (hv0 : NUL ∉ v) (hvl : v.length < env.IPSIZE) (hsz : env.IPSIZE ≤ 2027) :
    (v = "src".toList →
      (w_auth_parse_data env (request n g (some v)) response none peer none []).ret = OS_SUCCESS ∧
      (w_auth_parse_data env (request n g (some v)) response none peer none []).ip = peer) ∧
    (¬ "src".toList <+: v →
      (env.OS_IsValidIP v = true ∧
        (w_auth_parse_data env (request n g (some v)) response none peer none []).ret
          = OS_SUCCESS ∧
        (w_auth_parse_data env (request n g (some v)) response none peer none []).ip = v) ∨
      (env.OS_IsValidIP v = false ∧
        (w_auth_parse_data env (request n g (some v)) response none peer none []).ret
          = OS_INVALID ∧
        (w_auth_parse_data env (request n g (some v)) response none peer none []).response
          = "ERROR: Invalid IP: ".toList ++ v ++ "\n\n".toList)) := by
  obtain ⟨groups, hp⟩ := parse_request_ip env n v response peer g hnq hn0 hnv hg
  rw [hp, parse_ip_field env v [] response peer n groups hvq hv0 (Nat.le_of_lt hvl)]
  constructor
  · intro hv
    subst hv
    have : strncmp_zero "src".toList "src".toList 3 = true := by decide
    simp only [this, if_true, and_self]
  · intro hv
    rw [strncmp_src_false v hv]
    cases hval : env.OS_IsValidIP v with
    | true =>
      left
      simp only [if_true, true_and, Bool.false_eq_true, if_false]
      exact snprintf_fits _ _ _ hvl
    | false =>
      right
      simp only [Bool.false_eq_true, if_false, true_and]
      apply snprintf_fits
      simp
      omega


/-- Claim C3 fails as stated: an `IP:` value of 50 characters `x` is neither
accepted as the ip output nor refused with the response that quotes it; the
response quotes only the first `IPSIZE = 46` characters scanned. -/
theorem parse_ip_value_counterexample :
    List.replicate 50 'x' ≠ "src".toList ∧
    ¬ (sampleEnv.OS_IsValidIP (List.replicate 50 'x') = true ∧
        (w_auth_parse_data sampleEnv (request "alpha".toList none (some (List.replicate 50 'x')))
          [] none "192.168.1.7".toList none []).ip = List.replicate 50 'x') ∧
    ¬ ((w_auth_parse_data sampleEnv (request "alpha".toList none (some (List.replicate 50 'x')))
          [] none "192.168.1.7".toList none []).ret = OS_INVALID ∧
        (w_auth_parse_data sampleEnv (request "alpha".toList none (some (List.replicate 50 'x')))
          [] none "192.168.1.7".toList none []).response
          = "ERROR: Invalid IP: ".toList ++ List.replicate 50 'x' ++ "\n\n".toList) ∧
    (w_auth_parse_data sampleEnv (request "alpha".toList none (some (List.replicate 50 'x')))
          [] none "192.168.1.7".toList none []).response
          = "ERROR: Invalid IP: ".toList ++ List.replicate 46 'x' ++ "\n\n".toList := by
  decide

/-- Claim C3, amended, at the request `OSSEC A:'alpha' G:'web' IP:'10.0.0.1'`. -/
theorem parse_ip_value_witness :
    (w_auth_parse_data sampleEnv (request "alpha".toList (some "web".toList)
        (some "10.0.0.1".toList)) [] none "192.168.1.7".toList none []).ip = "10.0.0.1".toList := by
  have h := (parse_ip_value sampleEnv "alpha".toList "10.0.0.1".toList [] "192.168.1.7".toList
    (some "web".toList) (by decide) (by decide) (by decide)
    (by intro x hx; cases hx; decide) (by decide) (by decide) (by decide) (by decide)).2
    (by decide)
  rcases h with h | h
  · exact h.2.2
  · exact absurd h.1 (by decide)

/-- A value that merely begins with `src` is taken for `src`: the IP validator
is not consulted and the peer address is kept. -/
theorem parse_ip_src_leading :
    sampleEnv.OS_IsValidIP "srcfoo".toList = false ∧
    w_auth_parse_data sampleEnv (request "alpha".toList none (some "srcfoo".toList))
        [] none "192.168.1.7".toList none [] =
      { ret := OS_SUCCESS, response := [], ip := "192.168.1.7".toList
        agentname := some "alpha".toList, groups := [] } := by
  decide

theorem parse_ip_agentname (env : Env) (buf response ip n g : List Char) :
    (parse_ip env buf response ip n g).agentname = some n := by
  simp only [parse_ip]
  split_ifs <;> rfl

theorem parse_group_agentname (env : Env) (rest response ip n g : List Char) :
    (parse_group env rest response ip n g).agentname = some n := by
  simp only [parse_group, wstr_delete_repeated_groups]
  split_ifs <;> first | rfl | exact parse_ip_agentname _ _ _ _ _ _

theorem parse_action_success (env : Env) (buf response ip groups : List Char)
    (agentname : Option (List Char))
    (h : (parse_action env buf response ip agentname groups).ret = OS_SUCCESS) :
    ∃ n rest, buf = "OSSEC A:'".toList ++ n ++ QUOTE :: rest ∧ QUOTE ∉ n ∧ NUL ∉ n ∧
      env.OS_IsValidName n = true ∧
      (parse_action env buf response ip agentname groups).agentname = some n := by
  unfold parse_action at h ⊢
  by_cases h1 : strncmp_zero buf "OSSEC A:'".toList 9 = true
  · have e1 := strncmp_zero_split "OSSEC A:'".toList (by decide) buf h1
    have hl : "OSSEC A:'".toList.length = 9 := by decide
    rw [hl] at e1
    simp only [h1, if_true] at h ⊢
    generalize buf.drop 9 = b at h e1 ⊢
    cases hs : scan_name b with
    | none => simp [hs] at h
    | some r =>
      obtain ⟨n, rest⟩ := r
      obtain ⟨e2, hq, h0⟩ := scan_name_some b n rest hs
      simp only [hs] at h ⊢
      cases hv : env.OS_IsValidName n with
      | false => simp [hv] at h
      | true =>
        refine ⟨n, rest, ?_, hq, h0, hv, ?_⟩
        · rw [e1, e2]; simp
        · simp only [Bool.not_true, Bool.false_eq_true, if_false]
          exact parse_group_agentname _ _ _ _ _ _
  · rw [if_neg h1] at h
    simp at h

/-- Claim C4, amended: every buffer on which `w_auth_parse_data` returns
`OS_SUCCESS` is, after the password prefix when a password is configured,
`OSSEC A:'` ++ name ++ quote ++ rest, where the name holds no quote, passes the
name validator and is the `agentname` output; nothing is required of the text
after the closing quote. -/
theorem parse_success_shape (env : Env) (buf response ip groups : List Char)
    (authpass agentname : Option (List Char)) (hpw : ∀ pw, authpass = some pw → NUL ∉ pw)
    (h : (w_auth_parse_data env buf response authpass ip agentname groups).ret = OS_SUCCESS) :
    ∃ n rest, QUOTE ∉ n ∧ NUL ∉ n ∧ env.OS_IsValidName n = true ∧
      (w_auth_parse_data env buf response authpass ip agentname groups).agentname = some n ∧
      (authpass = none → buf = "OSSEC A:'".toList ++ n ++ QUOTE :: rest) ∧
      (∀ pw, authpass = some pw →
        buf = "OSSEC PASS: ".toList ++ pw ++ ' ' :: ("OSSEC A:'".toList ++ n ++ QUOTE :: rest)) := by
  cases authpass with
  | none =>
    simp only [w_auth_parse_data] at h ⊢
    obtain ⟨n, rest, e, hq, h0, hv, ha⟩ := parse_action_success env buf response ip groups agentname h
    exact ⟨n, rest, hq, h0, hv, ha, fun _ => e, fun pw hp => by cases hp⟩
  | some pw =>
    simp only [w_auth_parse_data] at h ⊢
    cases hs : password_stage buf pw with
    | none => simp [hs] at h
    | some b =>
      simp only [hs] at h ⊢
      have e0 := password_stage_some buf pw b (hpw pw rfl) hs
      obtain ⟨n, rest, e, hq, h0, hv, ha⟩ := parse_action_success env b response ip groups agentname h
      refine ⟨n, rest, hq, h0, hv, ha, fun hp => (by cases hp), fun pw2 hp => ?_⟩
      cases hp
      rw [e0, e]

/-- Claim C4 fails as stated: a buffer whose closing quote is followed by `X`
before `G:`, and a buffer with trailing text that is neither field, are outside
the grammar and are parsed with `OS_SUCCESS`. -/
theorem parse_success_shape_counterexample :
    grammar_request "OSSEC A:'alpha'XG:'web'".toList = false ∧
    w_auth_parse_data sampleEnv "OSSEC A:'alpha'XG:'web'".toList [] none "192.168.1.7".toList
        none [] =
      { ret := OS_SUCCESS, response := [], ip := "any".toList
        agentname := some "alpha".toList, groups := "web".toList } ∧
    grammar_request "OSSEC A:'alpha' trailing text".toList = false ∧
    w_auth_parse_data sampleEnv "OSSEC A:'alpha' trailing text".toList [] none
        "192.168.1.7".toList none [] =
      { ret := OS_SUCCESS, response := [], ip := "any".toList
        agentname := some "alpha".toList, groups := [] } := by
  decide

/-- Claim C4, amended, at the buffer `OSSEC PASS: pw OSSEC A:'alpha' junk`. -/
theorem parse_success_shape_witness :
    ∃ n rest, QUOTE ∉ n ∧ NUL ∉ n ∧ sampleEnv.OS_IsValidName n = true ∧
      (w_auth_parse_data sampleEnv "OSSEC PASS: pw OSSEC A:'alpha' junk".toList [] (some "pw".toList)
        "192.168.1.7".toList none []).agentname = some n ∧
      (some "pw".toList = none →
        "OSSEC PASS: pw OSSEC A:'alpha' junk".toList = "OSSEC A:'".toList ++ n ++ QUOTE :: rest) ∧
      (∀ pw, some "pw".toList = some pw → "OSSEC PASS: pw OSSEC A:'alpha' junk".toList =
        "OSSEC PASS: ".toList ++ pw ++ ' ' :: ("OSSEC A:'".toList ++ n ++ QUOTE :: rest)) :=
  parse_success_shape sampleEnv "OSSEC PASS: pw OSSEC A:'alpha' junk".toList [] "192.168.1.7".toList
    [] (some "pw".toList) none (by intro pw hp; cases hp; decide) (by decide)

/-! # Validation and commit -/


/-! ## Key store lookups -/

theorem find_index_of_mem (p : keyentry → Bool) (l : List keyentry)
    (h : ∃ e ∈ l, p e = true) : ∃ i, find_index p l = some i := by
  induction l with
  | nil => obtain ⟨e, he, _⟩ := h; cases he
  | cons x xs ih =>
    by_cases hx : p x = true
    · exact ⟨0, by simp [find_index, hx]⟩
    · obtain ⟨e, he, hp⟩ := h
      have : e ∈ xs := by
        rcases List.mem_cons.mp he with h1 | h1
        · subst h1; exact absurd hp hx
        · exact h1
      obtain ⟨i, hi⟩ := ih ⟨e, this, hp⟩
      exact ⟨i + 1, by simp [find_index, hx, hi]⟩

theorem find_index_some (p : keyentry → Bool) (d : keyentry) (l : List keyentry) (i : Nat)
    (h : find_index p l = some i) : p (l.getD i d) = true ∧ l.getD i d ∈ l := by
  induction l generalizing i with
  | nil => simp [find_index] at h
  | cons x xs ih =>
    by_cases hx : p x = true
    · simp [find_index, hx] at h
      subst h
      simp [hx]
    · simp [find_index, hx] at h
      obtain ⟨j, hj, e⟩ := h
      subst e
      have := ih j hj
      simp only [List.getD_cons_succ]
      exact ⟨this.1, List.mem_cons_of_mem _ this.2⟩

theorem find_index_none (p : keyentry → Bool) (l : List keyentry)
    (h : find_index p l = none) : ∀ e ∈ l, p e = false := by
  intro e he
  cases hp : p e with
  | false => rfl
  | true =>
    obtain ⟨i, hi⟩ := find_index_of_mem p l ⟨e, he, hp⟩
    rw [h] at hi
    cases hi

theorem force_supersedes_off (env : Env) (e : keyentry) (h : env.force_insert = false) :
    force_supersedes env e = false := by
  simp [force_supersedes, h]

/-! ## Group validation -/

theorem validate_groups_loop_success (env : Env) (toks : List (List Char)) (k : Nat)
    (response : Option (List Char))
    (h : (validate_groups_loop env toks k response).1 = OS_SUCCESS) :
    (validate_groups_loop env toks k response).2 = response := by
  induction toks generalizing k with
  | nil => rfl
  | cons g gs ih =>
    simp only [validate_groups_loop] at h ⊢
    split_ifs at h ⊢
    exact ih _ h

theorem validate_groups_success (env : Env) (groups response : List Char)
    (h : (w_auth_validate_groups env groups (some response)).ret = OS_SUCCESS) :
    (w_auth_validate_groups env groups (some response)).response = some response := by
  simp only [w_auth_validate_groups] at h ⊢
  exact validate_groups_loop_success env _ _ _ h

/-- With empty or valid groups the groups stage hands over to the IP stage
with the response untouched. -/
theorem validate_data_groups_ok (env : Env) (st : AuthState)
    (response ip agentname groups : List Char)
    (hg : groups = [] ∨ (w_auth_validate_groups env groups (some response)).ret = OS_SUCCESS) :
    ∃ g, w_auth_validate_data env st response ip agentname groups =
      validate_ip env st response ip g agentname := by
  by_cases hd : (deref groups != NUL) = true
  · have hs : (w_auth_validate_groups env groups (some response)).ret = OS_SUCCESS := by
      rcases hg with h | h
      · subst h; simp [deref] at hd
      · exact h
    refine ⟨(w_auth_validate_groups env groups (some response)).groups, ?_⟩
    simp only [w_auth_validate_data, hd, if_true, hs, validate_groups_success env groups response hs,
      Option.getD_some]
    simp
  · refine ⟨groups, ?_⟩
    simp only [w_auth_validate_data, hd]
    simp

/-- Claim C5: for every concrete ip (not `any`) held by a record of the store,
with groups empty or valid and force-insert off, `w_auth_validate_data`
returns `OS_INVALID` with the response `ERROR: Duplicated IP: <ip>` and two
newlines, and leaves the shared state (key store and the three queues) as it
was.  The ip text has at most 2023 characters, so that the response fits its
buffer of 2048 bytes. -/
theorem validate_duplicate_ip (env : Env) (st : AuthState)
    (response ip agentname groups : List Char)
    (hany : ip ≠ "any".toList) (hheld : ∃ e ∈ st.keys.keyentries, e.ip = ip)
    (hg : groups = [] ∨ (w_auth_validate_groups env groups (some response)).ret = OS_SUCCESS)
    (hforce : env.force_insert = false) (hlen : ip.length ≤ 2023) :
    (w_auth_validate_data env st response ip agentname groups).ret = OS_INVALID ∧
    (w_auth_validate_data env st response ip agentname groups).response =
      "ERROR: Duplicated IP: ".toList ++ ip ++ "\n\n".toList ∧
    (w_auth_validate_data env st response ip agentname groups).st = st := by
  obtain ⟨g, hv⟩ := validate_data_groups_ok env st response ip agentname groups hg
  obtain ⟨i, hi⟩ := find_index_of_mem (fun e => e.ip == ip) st.keys.keyentries
    (by obtain ⟨e, he, h⟩ := hheld; exact ⟨e, he, by simp [h]⟩)
  have hne : (ip != "any".toList) = true := by simpa using hany
  have hfit : snprintf 2048 response ("ERROR: Duplicated IP: ".toList ++ ip ++ "\n\n".toList) =
      "ERROR: Duplicated IP: ".toList ++ ip ++ "\n\n".toList := by
    apply snprintf_fits
    simp
    omega
  rw [hv]
  simp only [validate_ip, hne, if_true, OS_IsAllowedIP, hi, force_supersedes_off env _ hforce,
    Bool.false_eq_true, if_false, hfit, and_self]

/-- Claim C5 at the sample store and the ip `10.0.0.1` of its record. -/
theorem validate_duplicate_ip_witness :
    (w_auth_validate_data sampleEnv (AuthState.ofKeys sampleKeys) [] "10.0.0.1".toList
        "b1".toList []).ret = OS_INVALID ∧
    (w_auth_validate_data sampleEnv (AuthState.ofKeys sampleKeys) [] "10.0.0.1".toList
        "b1".toList []).response = "ERROR: Duplicated IP: ".toList ++ "10.0.0.1".toList ++ "\n\n".toList ∧
    (w_auth_validate_data sampleEnv (AuthState.ofKeys sampleKeys) [] "10.0.0.1".toList
        "b1".toList []).st = AuthState.ofKeys sampleKeys :=
  validate_duplicate_ip sampleEnv (AuthState.ofKeys sampleKeys) [] "10.0.0.1".toList "b1".toList []
    (by decide) (by decide) (Or.inl rfl) rfl (by decide)


/-! ## Duplicated names -/

theorem name_taken (keys : keystore) (name : List Char)
    (h : ∃ e ∈ keys.keyentries, e.name = name) : ∃ i, OS_IsAllowedName keys name = some i := by
  obtain ⟨e, he, hn⟩ := h
  exact find_index_of_mem _ _ ⟨e, he, by simp [hn]⟩

theorem tag_loop_stop (env : Env) (keys : keystore) (a fname : List Char) (fuel acount : Nat)
    (h : OS_IsAllowedName keys fname = none) :
    tag_loop env keys a fuel fname acount = (fname, acount) := by
  cases fuel with
  | zero => rfl
  | succ n => simp [tag_loop, h]

theorem tag_loop_step (env : Env) (keys : keystore) (a fname : List Char) (fuel acount i : Nat)
    (h : OS_IsAllowedName keys fname = some i) :
    tag_loop env keys a (fuel + 1) fname acount =
      if acount + 1 > env.MAX_TAG_COUNTER then (tag_candidate a acount, acount + 1)
      else tag_loop env keys a fuel (tag_candidate a acount) (acount + 1) := by
  simp [tag_loop, h, snprintf, tag_candidate]

/-- Fuel suffices: once `fuel + acount` reaches `MAX_TAG_COUNTER + 2`, more
fuel does not change the outcome of the loop. -/
theorem tag_loop_fuel (env : Env) (keys : keystore) (a : List Char) (extra : Nat) :
    ∀ (fuel acount : Nat) (fname : List Char),
      1 ≤ fuel → env.MAX_TAG_COUNTER + 2 ≤ fuel + acount →
      tag_loop env keys a (fuel + extra) fname acount = tag_loop env keys a fuel fname acount := by
  intro fuel
  induction fuel with
  | zero => intro _ _ h; omega
  | succ n ih =>
    intro acount fname _ hf
    cases hn : OS_IsAllowedName keys fname with
    | none => rw [tag_loop_stop _ _ _ _ _ _ hn, tag_loop_stop _ _ _ _ _ _ hn]
    | some i =>
      have e : n + 1 + extra = (n + extra) + 1 := by omega
      rw [e, tag_loop_step _ _ _ _ _ _ i hn, tag_loop_step _ _ _ _ _ _ i hn]
      by_cases hc : acount + 1 > env.MAX_TAG_COUNTER
      · rw [if_pos hc, if_pos hc]
      · rw [if_neg hc, if_neg hc]
        exact ih (acount + 1) _ (by omega) (by omega)

/-- When every candidate from `acount` up to `MAX_TAG_COUNTER` is taken, the
loop leaves with the counter above the bound. -/
theorem tag_loop_exhaust (env : Env) (keys : keystore) (a : List Char) :
    ∀ (fuel acount : Nat) (fname : List Char),
      (∃ i, OS_IsAllowedName keys fname = some i) →
      (∀ k, acount ≤ k → k ≤ env.MAX_TAG_COUNTER →
        ∃ i, OS_IsAllowedName keys (tag_candidate a k) = some i) →
      1 ≤ fuel → env.MAX_TAG_COUNTER + 2 ≤ fuel + acount →
      (tag_loop env keys a fuel fname acount).2 > env.MAX_TAG_COUNTER := by
  intro fuel
  induction fuel with
  | zero => intro _ _ _ _ h; omega
  | succ n ih =>
    intro acount fname ht hall _ hf
    obtain ⟨i, hi⟩ := ht
    rw [tag_loop_step env keys a fname n acount i hi]
    by_cases hc : acount + 1 > env.MAX_TAG_COUNTER
    · rw [if_pos hc]
      exact hc
    · rw [if_neg hc]
      apply ih
      · exact hall acount (Nat.le_refl _) (by omega)
      · intro k hk1 hk2
        exact hall k (by omega) hk2
      · omega
      · omega

/-- When a candidate below `MAX_TAG_COUNTER` is free, the loop leaves with
the first free candidate and the counter within the bound. -/
theorem tag_loop_free (env : Env) (keys : keystore) (a : List Char) (k0 : Nat)
    (hk0 : k0 < env.MAX_TAG_COUNTER)
    (hfree : OS_IsAllowedName keys (tag_candidate a k0) = none) :
    ∀ (fuel acount : Nat) (fname : List Char),
      (∃ i, OS_IsAllowedName keys fname = some i) →
      acount ≤ k0 → k0 + 2 ≤ fuel + acount →
      (tag_loop env keys a fuel fname acount).2 ≤ env.MAX_TAG_COUNTER ∧
      ∃ k, acount ≤ k ∧ k ≤ k0 ∧ (tag_loop env keys a fuel fname acount).1 = tag_candidate a k ∧
        OS_IsAllowedName keys (tag_candidate a k) = none := by
  intro fuel
  induction fuel with
  | zero => intro _ _ _ h1 h2; omega
  | succ n ih =>
    intro acount fname ht hle hf
    obtain ⟨i, hi⟩ := ht
    rw [tag_loop_step env keys a fname n acount i hi]
    have hc : ¬ acount + 1 > env.MAX_TAG_COUNTER := by omega
    simp only [hc, if_false]
    cases hn : OS_IsAllowedName keys (tag_candidate a acount) with
    | none =>
      rw [tag_loop_stop env keys a _ n _ hn]
      exact ⟨by simp only; omega, acount, Nat.le_refl _, hle, rfl, hn⟩
    | some j =>
      have hne : acount ≠ k0 := by
        intro e; subst e; rw [hfree] at hn; cases hn
      obtain ⟨h1, k, hk1, hk2, hk3, hk4⟩ := ih (acount + 1) (tag_candidate a acount) ⟨j, hn⟩
        (by omega) (by omega)
      exact ⟨h1, k, by omega, hk2, hk3, hk4⟩

/-! ## Stages of `w_auth_validate_data` -/

theorem validate_limit_st (env : Env) (st : AuthState) (r g a : List Char) :
    (validate_limit env st r g a).st = st := by
  simp only [validate_limit]
  split_ifs <;> rfl

theorem validate_limit_ok (env : Env) (st : AuthState) (r g a : List Char)
    (h : ¬ (env.register_limit = true ∧ (st.keys.keysize : Int) ≥ (env.MAX_AGENTS : Int) - 2)) :
    validate_limit env st r g a =
      { ret := OS_SUCCESS, response := r, st := st, groups := g, agentname := a } := by
  simp only [validate_limit]
  rw [if_neg]
  simp only [Bool.and_eq_true, decide_eq_true_eq]
  exact h

theorem validate_limit_full (env : Env) (st : AuthState) (r g a : List Char)
    (h1 : env.register_limit = true)
    (h2 : (st.keys.keysize : Int) ≥ (env.MAX_AGENTS : Int) - 2) :
    validate_limit env st r g a =
      { ret := OS_INVALID
        response := "ERROR: The maximum number of agents has been reached\n\n".toList
        st := st, groups := g, agentname := a } := by
  simp only [validate_limit]
  rw [if_pos (by simp only [Bool.and_eq_true, decide_eq_true_eq]; exact ⟨h1, h2⟩),
    snprintf_fits _ _ _ (by decide)]

/-- A successful limit stage means that the store is below the limit. -/
theorem validate_limit_success (env : Env) (st : AuthState) (r g a : List Char)
    (h : (validate_limit env st r g a).ret = OS_SUCCESS) (hl : env.register_limit = true) :
    (st.keys.keysize : Int) < (env.MAX_AGENTS : Int) - 2 := by
  by_contra hc
  rw [validate_limit_full env st r g a hl (by omega)] at h
  cases h

/-- With force-insert off the name stage leaves the state as it was. -/
theorem validate_name_force_off_st (env : Env) (st : AuthState) (r g a : List Char)
    (hforce : env.force_insert = false) : (validate_name env st r g a).st = st := by
  unfold validate_name
  by_cases hs : (a == env.shost) = true
  · rw [if_pos hs]
  · rw [if_neg hs]
    cases hn : OS_IsAllowedName st.keys a with
    | none => exact validate_limit_st _ _ _ _ _
    | some i =>
      simp only [force_supersedes_off env _ hforce, Bool.false_eq_true, if_false]
      split_ifs
      · rfl
      · exact validate_limit_st _ _ _ _ _

/-- With force-insert off the IP stage either refuses or hands over to the name
stage. -/
theorem validate_ip_force_off (env : Env) (st : AuthState) (r ip g a : List Char)
    (hforce : env.force_insert = false) :
    ((validate_ip env st r ip g a).ret = OS_INVALID ∧ (validate_ip env st r ip g a).st = st) ∨
      validate_ip env st r ip g a = validate_name env st r g a := by
  unfold validate_ip
  by_cases hs : (ip != "any".toList) = true
  · rw [if_pos hs]
    cases hn : OS_IsAllowedIP st.keys ip with
    | none => right; rfl
    | some i =>
      left
      simp only [force_supersedes_off env _ hforce, Bool.false_eq_true, if_false, and_self]
  · rw [if_neg hs]
    right; rfl

/-- The groups stage either refuses or hands over to the IP stage. -/
theorem validate_data_cases (env : Env) (st : AuthState) (response ip agentname groups : List Char) :
    ((w_auth_validate_data env st response ip agentname groups).ret = OS_INVALID ∧
      (w_auth_validate_data env st response ip agentname groups).st = st) ∨
    ∃ r g, w_auth_validate_data env st response ip agentname groups =
      validate_ip env st r ip g agentname := by
  simp only [w_auth_validate_data]
  split_ifs
  · left; exact ⟨rfl, rfl⟩
  · right; exact ⟨_, _, rfl⟩
  · right; exact ⟨_, _, rfl⟩


theorem find_index_eq_none (p : keyentry → Bool) (l : List keyentry)
    (h : ∀ e ∈ l, p e = false) : find_index p l = none := by
  cases hf : find_index p l with
  | none => rfl
  | some i =>
    have := find_index_some p { id := 0, name := [], ip := [], key := [] } l i hf
    rw [h _ this.2] at this
    exact absurd this.1 (by simp)

theorem name_free (keys : keystore) (name : List Char)
    (h : ∀ e ∈ keys.keyentries, e.name ≠ name) : OS_IsAllowedName keys name = none :=
  find_index_eq_none _ _ (fun e he => by simpa using h e he)

theorem ip_free (keys : keystore) (ip : List Char)
    (h : ∀ e ∈ keys.keyentries, e.ip ≠ ip) : OS_IsAllowedIP keys ip = none :=
  find_index_eq_none _ _ (fun e he => by simpa using h e he)

/-- With no duplicated IP in sight the IP stage hands over to the name stage. -/
theorem validate_ip_pass (env : Env) (st : AuthState) (r ip g a : List Char)
    (h : ip = "any".toList ∨ ∀ e ∈ st.keys.keyentries, e.ip ≠ ip) :
    validate_ip env st r ip g a = validate_name env st r g a := by
  unfold validate_ip
  by_cases hs : (ip != "any".toList) = true
  · rw [if_pos hs]
    rcases h with h | h
    · subst h; simp at hs
    · rw [ip_free st.keys ip h]
  · rw [if_neg hs]

theorem validate_data_no_groups (env : Env) (st : AuthState) (response ip agentname : List Char) :
    w_auth_validate_data env st response ip agentname [] =
      validate_ip env st response ip [] agentname := by
  simp [w_auth_validate_data, deref]

/-- Claim C7, amended: when the requested name exists in the store and
force-insert is off, `w_auth_validate_data` returns `OS_INVALID` if every
candidate `name2 .. name<MAX_TAG_COUNTER>` exists too; and if a candidate below
`MAX_TAG_COUNTER` is free (groups empty or valid, no duplicated IP, a name
that is not the manager, the limit not reached), it returns `OS_SUCCESS`
with the state untouched, having derived a suffixed name in its local
variable. -/
theorem validate_duplicate_name (env : Env) (st : AuthState)
    (response ip agentname groups : List Char)
    (hforce : env.force_insert = false)
    (hheld : ∃ e ∈ st.keys.keyentries, e.name = agentname)
    (hlen : agentname.length < 2048) :
    ((∀ k, 2 ≤ k → k ≤ env.MAX_TAG_COUNTER →
        ∃ e ∈ st.keys.keyentries, e.name = tag_candidate agentname k) →
      (w_auth_validate_data env st response ip agentname groups).ret = OS_INVALID) ∧
    (∀ k0, 2 ≤ k0 → k0 < env.MAX_TAG_COUNTER →
      (∀ e ∈ st.keys.keyentries, e.name ≠ tag_candidate agentname k0) →
      (groups = [] ∨ (w_auth_validate_groups env groups (some response)).ret = OS_SUCCESS) →
      (ip = "any".toList ∨ ∀ e ∈ st.keys.keyentries, e.ip ≠ ip) →
      agentname ≠ env.shost →
      ¬ (env.register_limit = true ∧ (st.keys.keysize : Int) ≥ (env.MAX_AGENTS : Int) - 2) →
      (w_auth_validate_data env st response ip agentname groups).ret = OS_SUCCESS ∧
      (w_auth_validate_data env st response ip agentname groups).st = st ∧
      ∃ k, 2 ≤ k ∧ k ≤ k0 ∧
        (w_auth_validate_data env st response ip agentname groups).agentname
          = tag_candidate agentname k) := by
  obtain ⟨i, hi⟩ := name_taken st.keys agentname hheld
  have htake : agentname.take 2048 = agentname := List.take_of_length_le (by omega)
  constructor
  · intro hall
    rcases validate_data_cases env st response ip agentname groups with h | ⟨r, g, h⟩
    · exact h.1
    · rw [h]
      rcases validate_ip_force_off env st r ip g agentname hforce with h2 | h2
      · exact h2.1
      · rw [h2]
        unfold validate_name
        by_cases hs : (agentname == env.shost) = true
        · rw [if_pos hs]
        · rw [if_neg hs]
          have hex := tag_loop_exhaust env st.keys agentname (env.MAX_TAG_COUNTER + 1) 2
            agentname ⟨i, hi⟩
            (fun k hk1 hk2 => name_taken st.keys _ (hall k hk1 hk2)) (by omega) (by omega)
          simp only [hi, force_supersedes_off env _ hforce, Bool.false_eq_true, if_false, htake,
            hex, if_true]
  · intro k0 hk1 hk2 hfree hg hip hname hlimit
    obtain ⟨g, hvd⟩ := validate_data_groups_ok env st response ip agentname groups hg
    rw [hvd, validate_ip_pass env st response ip g agentname hip]
    have hs : ¬ (agentname == env.shost) = true := by simpa using hname
    obtain ⟨h1, k, hk3, hk4, hk5, _⟩ := tag_loop_free env st.keys agentname k0 hk2
      (name_free st.keys _ hfree) (env.MAX_TAG_COUNTER + 1) 2 agentname ⟨i, hi⟩ hk1 (by omega)
    have h1n : ¬ (tag_loop env st.keys agentname (env.MAX_TAG_COUNTER + 1) agentname 2).2 >
        env.MAX_TAG_COUNTER := by omega
    unfold validate_name
    rw [if_neg hs]
    simp only [hi, force_supersedes_off env _ hforce, Bool.false_eq_true, if_false, htake, h1n,
      validate_limit_ok env st _ _ _ hlimit, true_and]
    exact ⟨k, hk3, hk4, hk5⟩

/-- Claim C7 fails as stated: with force-insert off and the name `a1` already
in the store, `w_auth_validate_data` returns `OS_SUCCESS`. -/
theorem validate_duplicate_name_counterexample :
    sampleEnv.force_insert = false ∧
    (∃ e ∈ (AuthState.ofKeys sampleKeys).keys.keyentries, e.name = "a1".toList) ∧
    (w_auth_validate_data sampleEnv (AuthState.ofKeys sampleKeys) [] "any".toList "a1".toList
      []).ret = OS_SUCCESS := by
  refine ⟨rfl, ⟨_, List.mem_cons_self _ _, rfl⟩, ?_⟩
  decide

/-- Claim C7, amended, at the sample store and the name `a1`, whose candidate
`a12` is free. -/
theorem validate_duplicate_name_witness :
    (w_auth_validate_data sampleEnv (AuthState.ofKeys sampleKeys) [] "any".toList "a1".toList
      []).ret = OS_SUCCESS ∧
    (w_auth_validate_data sampleEnv (AuthState.ofKeys sampleKeys) [] "any".toList "a1".toList
      []).st = AuthState.ofKeys sampleKeys ∧
    ∃ k, 2 ≤ k ∧ k ≤ 2 ∧
      (w_auth_validate_data sampleEnv (AuthState.ofKeys sampleKeys) [] "any".toList "a1".toList
        []).agentname = tag_candidate "a1".toList k :=
  (validate_duplicate_name sampleEnv (AuthState.ofKeys sampleKeys) [] "any".toList "a1".toList []
    rfl ⟨_, List.mem_cons_self _ _, rfl⟩ (by decide)).2 2 (by decide) (by decide) (by decide)
    (Or.inl rfl) (Or.inl rfl) (by decide) (by decide)

/-- Claim C8, on the code: with the name `a1` in the store and force-insert
off, the validator derives `a12` in its local variable only; the dispatcher
commits and announces a second record named `a1`. -/
theorem duplicate_name_committed :
    (w_auth_validate_data sampleEnv (AuthState.ofKeys sampleKeys) [] "any".toList "a1".toList
      []).agentname = "a12".toList ∧
    (dispatch_primary sampleEnv (AuthState.ofKeys sampleKeys) "OSSEC A:'a1'".toList [] none
      "192.168.1.7".toList).enrollment_ok = true ∧
    (dispatch_primary sampleEnv (AuthState.ofKeys sampleKeys) "OSSEC A:'a1'".toList [] none
      "192.168.1.7".toList).st.keys.keyentries.map (fun e => (e.id, e.name)) =
        [(1, "a1".toList), (2, "a1".toList)] ∧
    (dispatch_primary sampleEnv (AuthState.ofKeys sampleKeys) "OSSEC A:'a1'".toList [] none
      "192.168.1.7".toList).written = ["OSSEC K:'2 a1 any key'\n\n".toList] := by
  decide


/-! ## The agent limit -/

theorem validate_limit_outcome (env : Env) (st : AuthState) (r g a : List Char) :
    (validate_limit env st r g a).ret = OS_INVALID ∨
      ((validate_limit env st r g a).ret = OS_SUCCESS ∧
        below_limit env (validate_limit env st r g a).st.keys) := by
  by_cases h : env.register_limit = true ∧ (st.keys.keysize : Int) ≥ (env.MAX_AGENTS : Int) - 2
  · left
    rw [validate_limit_full env st r g a h.1 h.2]
  · right
    rw [validate_limit_ok env st r g a h]
    refine ⟨rfl, fun hl => ?_⟩
    have : ¬ (st.keys.keysize : Int) ≥ (env.MAX_AGENTS : Int) - 2 := fun h2 => h ⟨hl, h2⟩
    simp only
    omega

theorem validate_name_outcome (env : Env) (st : AuthState) (r g a : List Char) :
    (validate_name env st r g a).ret = OS_INVALID ∨
      ((validate_name env st r g a).ret = OS_SUCCESS ∧
        below_limit env (validate_name env st r g a).st.keys) := by
  unfold validate_name
  by_cases hs : (a == env.shost) = true
  · rw [if_pos hs]; left; rfl
  · rw [if_neg hs]
    cases hn : OS_IsAllowedName st.keys a with
    | none => exact validate_limit_outcome _ _ _ _ _
    | some i =>
      simp only
      split_ifs
      · exact validate_limit_outcome _ _ _ _ _
      · left; rfl
      · exact validate_limit_outcome _ _ _ _ _

theorem validate_ip_outcome (env : Env) (st : AuthState) (r ip g a : List Char) :
    (validate_ip env st r ip g a).ret = OS_INVALID ∨
      ((validate_ip env st r ip g a).ret = OS_SUCCESS ∧
        below_limit env (validate_ip env st r ip g a).st.keys) := by
  unfold validate_ip
  by_cases hs : (ip != "any".toList) = true
  · rw [if_pos hs]
    cases hn : OS_IsAllowedIP st.keys ip with
    | none => exact validate_name_outcome _ _ _ _ _
    | some i =>
      simp only
      split_ifs
      · exact validate_name_outcome _ _ _ _ _
      · left; rfl
  · rw [if_neg hs]
    exact validate_name_outcome _ _ _ _ _

/-- `w_auth_validate_data` returns `OS_INVALID`, or `OS_SUCCESS` with the store
below the agent limit. -/
theorem validate_data_outcome (env : Env) (st : AuthState) (response ip agentname groups : List Char) :
    (w_auth_validate_data env st response ip agentname groups).ret = OS_INVALID ∨
      ((w_auth_validate_data env st response ip agentname groups).ret = OS_SUCCESS ∧
        below_limit env (w_auth_validate_data env st response ip agentname groups).st.keys) := by
  rcases validate_data_cases env st response ip agentname groups with h | ⟨r, g, h⟩
  · exact Or.inl h.1
  · rw [h]
    exact validate_ip_outcome _ _ _ _ _ _

theorem add_agent_keysize (env : Env) (st : AuthState) (response ip agentname groups : List Char) :
    (w_auth_add_agent env st response ip agentname groups).st.keys.keysize ≤
      st.keys.keysize + 1 := by
  unfold w_auth_add_agent OS_AddNewAgent
  by_cases he : env.add_agent_error agentname ip = true
  · simp [he]
  · simp only [he, Bool.false_eq_true, if_false]
    split_ifs <;> simp [keystore.keysize]

/-- Claim C10: with the agent limit enabled and a store of at most
`MAX_AGENTS - 2` records, a `w_auth_validate_data` call that returns
`OS_SUCCESS` followed by `w_auth_add_agent` leaves a store of at most
`MAX_AGENTS - 2` records, force-insert supersessions included. -/
theorem agent_limit_preserved (env : Env) (st : AuthState)
    (response ip agentname groups : List Char)
    (hlim : env.register_limit = true)
    (hsize : (st.keys.keysize : Int) ≤ (env.MAX_AGENTS : Int) - 2)
    (hv : (w_auth_validate_data env st response ip agentname groups).ret = OS_SUCCESS) :
    ((w_auth_add_agent env (w_auth_validate_data env st response ip agentname groups).st
        (w_auth_validate_data env st response ip agentname groups).response ip agentname
        (w_auth_validate_data env st response ip agentname groups).groups).st.keys.keysize : Int)
      ≤ (env.MAX_AGENTS : Int) - 2 := by
  have _ := hsize
  rcases validate_data_outcome env st response ip agentname groups with h | h
  · rw [h] at hv; cases hv
  · have h1 := h.2 hlim
    have h2 := add_agent_keysize env (w_auth_validate_data env st response ip agentname groups).st
      (w_auth_validate_data env st response ip agentname groups).response ip agentname
      (w_auth_validate_data env st response ip agentname groups).groups
    omega

/-- Claim C10 at the full sample store with force-insert on: the request
supersedes record 1 and three records remain. -/
theorem agent_limit_preserved_witness :
    ((w_auth_add_agent sampleEnvForce
        (w_auth_validate_data sampleEnvForce (AuthState.ofKeys sampleKeysFull) []
          "10.0.0.1".toList "d4".toList []).st
        (w_auth_validate_data sampleEnvForce (AuthState.ofKeys sampleKeysFull) []
          "10.0.0.1".toList "d4".toList []).response "10.0.0.1".toList "d4".toList
        (w_auth_validate_data sampleEnvForce (AuthState.ofKeys sampleKeysFull) []
          "10.0.0.1".toList "d4".toList []).groups).st.keys.keysize : Int)
      ≤ (sampleEnvForce.MAX_AGENTS : Int) - 2 :=
  agent_limit_preserved sampleEnvForce (AuthState.ofKeys sampleKeysFull) [] "10.0.0.1".toList
    "d4".toList [] rfl (by decide) (by decide)

theorem validate_data_invalid_enroll (env : Env) (st : AuthState)
    (response ip agentname groups : List Char)
    (h : (w_auth_validate_data env st response ip agentname groups).ret = OS_INVALID) :
    (dispatch_enroll env st response ip agentname groups).enrollment_ok = false ∧
    (dispatch_enroll env st response ip agentname groups).st =
      (w_auth_validate_data env st response ip agentname groups).st := by
  simp [dispatch_enroll, h, dispatch_reply]

/-- Claim C9, amended: with the agent limit enabled and `MAX_AGENTS - 2`
records in the store, a request whose validation removes no record from the
store is refused with `OS_INVALID` and nothing is added; when no earlier
check refuses it (groups empty or valid, no duplicated IP, a name that is not
the manager and not in the store) the response is the text
`ERROR: The maximum number of agents has been reached` and two newlines. -/
theorem agent_limit_reached (env : Env) (st : AuthState)
    (response ip agentname groups : List Char)
    (hlim : env.register_limit = true)
    (hfull : (st.keys.keysize : Int) = (env.MAX_AGENTS : Int) - 2) :
    ((w_auth_validate_data env st response ip agentname groups).st.keys = st.keys →
      (w_auth_validate_data env st response ip agentname groups).ret = OS_INVALID ∧
      (dispatch_enroll env st response ip agentname groups).enrollment_ok = false ∧
      (dispatch_enroll env st response ip agentname groups).st.keys = st.keys) ∧
    ((groups = [] ∨ (w_auth_validate_groups env groups (some response)).ret = OS_SUCCESS) →
      (ip = "any".toList ∨ ∀ e ∈ st.keys.keyentries, e.ip ≠ ip) →
      agentname ≠ env.shost → (∀ e ∈ st.keys.keyentries, e.name ≠ agentname) →
      (w_auth_validate_data env st response ip agentname groups).ret = OS_INVALID ∧
      (w_auth_validate_data env st response ip agentname groups).response =
        "ERROR: The maximum number of agents has been reached\n\n".toList ∧
      (w_auth_validate_data env st response ip agentname groups).st = st) := by
  constructor
  · intro hk
    have hinv : (w_auth_validate_data env st response ip agentname groups).ret = OS_INVALID := by
      rcases validate_data_outcome env st response ip agentname groups with h | h
      · exact h
      · have := h.2 hlim
        rw [hk] at this
        omega
    have := validate_data_invalid_enroll env st response ip agentname groups hinv
    exact ⟨hinv, this.1, by rw [this.2, hk]⟩
  · intro hg hip hname hfree
    obtain ⟨g, hv⟩ := validate_data_groups_ok env st response ip agentname groups hg
    have hs : ¬ (agentname == env.shost) = true := by simpa using hname
    rw [hv, validate_ip_pass env st response ip g agentname hip]
    unfold validate_name
    rw [if_neg hs]
    simp only [name_free st.keys agentname hfree,
      validate_limit_full env st response g agentname hlim (by omega), and_self]

/-- Claim C9 fails as stated: with force-insert on, the limit enabled and the
three records that the limit admits, the request `OSSEC A:'d4' IP:'10.0.0.1'`
supersedes record 1, is validated with `OS_SUCCESS` and is added. -/
theorem agent_limit_reached_counterexample :
    sampleEnvForce.register_limit = true ∧
    ((AuthState.ofKeys sampleKeysFull).keys.keysize : Int) =
      (sampleEnvForce.MAX_AGENTS : Int) - 2 ∧
    (w_auth_parse_data sampleEnvForce "OSSEC A:'d4' IP:'10.0.0.1'".toList [] none
      "192.168.1.7".toList none []).ret = OS_SUCCESS ∧
    (w_auth_validate_data sampleEnvForce (AuthState.ofKeys sampleKeysFull) [] "10.0.0.1".toList
      "d4".toList []).ret = OS_SUCCESS ∧
    (dispatch_primary sampleEnvForce (AuthState.ofKeys sampleKeysFull)
      "OSSEC A:'d4' IP:'10.0.0.1'".toList [] none "192.168.1.7".toList).enrollment_ok = true ∧
    (dispatch_primary sampleEnvForce (AuthState.ofKeys sampleKeysFull)
      "OSSEC A:'d4' IP:'10.0.0.1'".toList [] none "192.168.1.7".toList).st.keys.keyentries.map
        (fun e => (e.id, e.name)) = [(2, "b2".toList), (3, "c3".toList), (4, "d4".toList)] := by
  decide

/-- Claim C9, amended, at the full sample store and the fresh name `d4`. -/
theorem agent_limit_reached_witness :
    (w_auth_validate_data sampleEnv (AuthState.ofKeys sampleKeysFull) [] "any".toList
      "d4".toList []).ret = OS_INVALID ∧
    (w_auth_validate_data sampleEnv (AuthState.ofKeys sampleKeysFull) [] "any".toList
      "d4".toList []).response =
        "ERROR: The maximum number of agents has been reached\n\n".toList ∧
    (w_auth_validate_data sampleEnv (AuthState.ofKeys sampleKeysFull) [] "any".toList
      "d4".toList []).st = AuthState.ofKeys sampleKeysFull :=
  (agent_limit_reached sampleEnv (AuthState.ofKeys sampleKeysFull) [] "any".toList "d4".toList []
    rfl (by decide)).2 (Or.inl rfl) (Or.inl rfl) (by decide) (by decide)


/-! ## Force-insert supersession -/

theorem validate_limit_fields (env : Env) (st : AuthState) (r g a : List Char) :
    (validate_limit env st r g a).st = st ∧ (validate_limit env st r g a).groups = g := by
  simp only [validate_limit]
  split_ifs <;> exact ⟨rfl, rfl⟩

/-- The name stage changes the state only by a supersession. -/
theorem validate_name_keep (env : Env) (st : AuthState) (r g a : List Char)
    (h : ∀ j, OS_IsAllowedName st.keys a = some j → force_supersedes env (st.keys.entry j) = false) :
    (validate_name env st r g a).st = st ∧ (validate_name env st r g a).groups = g := by
  unfold validate_name
  by_cases hs : (a == env.shost) = true
  · rw [if_pos hs]; exact ⟨rfl, rfl⟩
  · rw [if_neg hs]
    cases hn : OS_IsAllowedName st.keys a with
    | none => exact validate_limit_fields _ _ _ _ _
    | some i =>
      simp only [h i hn, Bool.false_eq_true, if_false]
      split_ifs
      · exact ⟨rfl, rfl⟩
      · exact validate_limit_fields _ _ _ _ _

/-- The name stage on a superseded record: a backup node is appended and the
record leaves the store. -/
theorem validate_name_supersede (env : Env) (st : AuthState) (r g a : List Char) (i : Nat)
    (hs : a ≠ env.shost) (hn : OS_IsAllowedName st.keys a = some i)
    (hf : force_supersedes env (st.keys.entry i) = true) :
    (validate_name env st r g a).st =
      { st with queue_backup := st.queue_backup ++ [backup_node (st.keys.entry i)]
                keys := OS_DeleteKey st.keys (st.keys.entry i).id 0 } ∧
    (validate_name env st r g a).groups = g := by
  have hs2 : ¬ (a == env.shost) = true := by simpa using hs
  unfold validate_name
  rw [if_neg hs2]
  simp only [hn, hf, if_true]
  exact validate_limit_fields _ _ _ _ _

/-- The IP stage on a superseded record: the group file is removed, a backup
node is appended, the record leaves the store, and the name stage follows. -/
theorem validate_ip_supersede (env : Env) (st : AuthState) (r ip g a : List Char) (i : Nat)
    (hs : ip ≠ "any".toList) (hn : OS_IsAllowedIP st.keys ip = some i)
    (hf : force_supersedes env (st.keys.entry i) = true) :
    validate_ip env st r ip g a =
      validate_name env
        { st with removed_groups := st.removed_groups ++ [(st.keys.entry i).id]
                  queue_backup := st.queue_backup ++ [backup_node (st.keys.entry i)]
                  keys := OS_DeleteKey st.keys (st.keys.entry i).id 0 } r g a := by
  have hs2 : (ip != "any".toList) = true := by simpa using hs
  unfold validate_ip
  rw [if_pos hs2]
  simp only [hn, hf, if_true]
  rfl

theorem delete_key_no_id (keys : keystore) (id p : Nat) :
    ∀ x ∈ (OS_DeleteKey keys id p).keyentries, x.id ≠ id := by
  intro x hx
  simp only [OS_DeleteKey, List.mem_filter] at hx
  simpa using hx.2

theorem delete_key_subset (keys : keystore) (id p : Nat) :
    ∀ x ∈ (OS_DeleteKey keys id p).keyentries, x ∈ keys.keyentries := by
  intro x hx
  simp only [OS_DeleteKey, List.mem_filter] at hx
  exact hx.1

theorem entry_last (l : List keyentry) (x : keyentry) (ctr : Nat) :
    ({ keyentries := l ++ [x], id_counter := ctr } : keystore).entry
      (({ keyentries := l ++ [x], id_counter := ctr } : keystore).keysize - 1) = x := by
  simp [keystore.entry, keystore.keysize, List.getD_eq_getElem?_getD]

theorem entry_new (keys : keystore) (x : keyentry) (ctr : Nat) :
    ({ keyentries := keys.keyentries ++ [x], id_counter := ctr } : keystore).entry keys.keysize
      = x := by
  simp [keystore.entry, keystore.keysize, List.getD_eq_getElem?_getD]

/-- A successful enrollment appends the record of the requested name to the
validated store and one node for it to the insertion queue, the backup queue
staying as validation left it. -/
theorem dispatch_enroll_ok (env : Env) (st : AuthState) (response ip agentname groups : List Char)
    (hok : (dispatch_enroll env st response ip agentname groups).enrollment_ok = true)
    (hw : 0 ≤ env.SSL_write (dispatch_enroll env st response ip agentname groups).response) :
    (dispatch_enroll env st response ip agentname groups).st.keys =
      { keyentries :=
          (w_auth_validate_data env st response ip agentname groups).st.keys.keyentries ++
            [{ id := (w_auth_validate_data env st response ip agentname groups).st.keys.id_counter
               name := agentname, ip := ip
               key := env.new_key
                 (w_auth_validate_data env st response ip agentname groups).st.keys.id_counter }]
        id_counter :=
          (w_auth_validate_data env st response ip agentname groups).st.keys.id_counter + 1 } ∧
    (dispatch_enroll env st response ip agentname groups).st.queue_backup =
      (w_auth_validate_data env st response ip agentname groups).st.queue_backup ∧
    ∃ grp, (dispatch_enroll env st response ip agentname groups).st.queue_insert =
      (w_auth_validate_data env st response ip agentname groups).st.queue_insert ++
        [{ id := (w_auth_validate_data env st response ip agentname groups).st.keys.id_counter
           name := agentname, ip := ip, group := grp }] := by
  unfold dispatch_enroll at hok hw ⊢
  simp only [] at hok hw ⊢
  generalize w_auth_validate_data env st response ip agentname groups = v at hok hw ⊢
  by_cases h1 : v.ret = OS_SUCCESS
  · by_cases h2 : env.add_agent_error agentname ip = true
    · simp [h1, w_auth_add_agent, OS_AddNewAgent, h2, dispatch_reply] at hok
    · simp only [h1, w_auth_add_agent, OS_AddNewAgent, h2, Bool.false_eq_true, if_false,
        beq_self_eq_true, if_true, entry_new] at hok hw ⊢
      by_cases h3 : (deref v.groups != NUL && !env.group_path_fits v.st.keys.id_counter) = true
      · simp [h3, dispatch_reply] at hok
      · simp only [h3, Bool.false_eq_true, if_false, beq_self_eq_true, if_true, dispatch_reply,
          entry_last, Option.getD_some, add_insert] at hw ⊢
        split_ifs at hw ⊢ <;>
          first
            | exact ⟨rfl, rfl, _, rfl⟩
            | (simp only [] at hw; omega)
  · have : (v.ret == OS_SUCCESS) = false := by simpa using h1
    simp [this, dispatch_reply] at hok

theorem force_supersedes_on (env : Env) (e : keyentry) (hforce : env.force_insert = true)
    (hold : env.OS_AgentAntiquity e.name e.ip ≥ env.force_time ∨
      env.OS_AgentAntiquity e.name e.ip < 0) : force_supersedes env e = true := by
  simp only [force_supersedes, hforce, Bool.true_and, Bool.or_eq_true, decide_eq_true_eq]
  exact hold

/-- Claim C6, amended: with force-insert on and the groups empty or valid, let
the record found for the requested concrete ip (no remaining record of the
requested name being superseded as well) or, the ip being `any` or unused and
the name not the manager, the record found for the requested name, have an
antiquity of at least `force_time` or a negative one.  Then
`w_auth_validate_data` appends to the backup queue one node with the id, name
and ip of that record, removes the record from the store and leaves the
insertion queue as it was; and when the add and the reply succeed, the store
holds no record of the old id, its new last record carries the requested name,
the backup queue has gained that one node and the insertion queue one node for
the new record. -/
theorem force_insert_supersession (env : Env) (st : AuthState)
    (response ip agentname groups : List Char) (i : Nat)
    (hforce : env.force_insert = true)
    (hg : groups = [] ∨ (w_auth_validate_groups env groups (some response)).ret = OS_SUCCESS)
    (hold : env.OS_AgentAntiquity (st.keys.entry i).name (st.keys.entry i).ip ≥ env.force_time ∨
      env.OS_AgentAntiquity (st.keys.entry i).name (st.keys.entry i).ip < 0)
    (hcase :
      (ip ≠ "any".toList ∧ OS_IsAllowedIP st.keys ip = some i ∧
        ∀ j, OS_IsAllowedName (OS_DeleteKey st.keys (st.keys.entry i).id 0) agentname = some j →
          force_supersedes env ((OS_DeleteKey st.keys (st.keys.entry i).id 0).entry j) = false) ∨
      ((ip = "any".toList ∨ ∀ e ∈ st.keys.keyentries, e.ip ≠ ip) ∧ agentname ≠ env.shost ∧
        OS_IsAllowedName st.keys agentname = some i))
    (hwf : ∀ x ∈ st.keys.keyentries, x.id < st.keys.id_counter) :
    (w_auth_validate_data env st response ip agentname groups).st.queue_backup =
      st.queue_backup ++ [backup_node (st.keys.entry i)] ∧
    (w_auth_validate_data env st response ip agentname groups).st.keys =
      OS_DeleteKey st.keys (st.keys.entry i).id 0 ∧
    (∀ x ∈ (w_auth_validate_data env st response ip agentname groups).st.keys.keyentries,
      x.id ≠ (st.keys.entry i).id) ∧
    (w_auth_validate_data env st response ip agentname groups).st.queue_insert = st.queue_insert ∧
    ((dispatch_enroll env st response ip agentname groups).enrollment_ok = true →
      0 ≤ env.SSL_write (dispatch_enroll env st response ip agentname groups).response →
      (dispatch_enroll env st response ip agentname groups).st.keys.keyentries =
        (OS_DeleteKey st.keys (st.keys.entry i).id 0).keyentries ++
          [{ id := st.keys.id_counter, name := agentname, ip := ip
             key := env.new_key st.keys.id_counter }] ∧
      (∀ x ∈ (dispatch_enroll env st response ip agentname groups).st.keys.keyentries,
        x.id ≠ (st.keys.entry i).id) ∧
      (dispatch_enroll env st response ip agentname groups).st.queue_backup =
        st.queue_backup ++ [backup_node (st.keys.entry i)] ∧
      ∃ grp, (dispatch_enroll env st response ip agentname groups).st.queue_insert =
        st.queue_insert ++
          [{ id := st.keys.id_counter, name := agentname, ip := ip, group := grp }]) := by
  have hsup := force_supersedes_on env (st.keys.entry i) hforce hold
  obtain ⟨g, hvd⟩ := validate_data_groups_ok env st response ip agentname groups hg
  have facts : (w_auth_validate_data env st response ip agentname groups).st.queue_backup =
        st.queue_backup ++ [backup_node (st.keys.entry i)] ∧
      (w_auth_validate_data env st response ip agentname groups).st.keys =
        OS_DeleteKey st.keys (st.keys.entry i).id 0 ∧
      (w_auth_validate_data env st response ip agentname groups).st.queue_insert =
        st.queue_insert ∧
      st.keys.entry i ∈ st.keys.keyentries := by
    rcases hcase with ⟨hip, hfound, hrest⟩ | ⟨hip, hname, hfound⟩
    · rw [hvd, validate_ip_supersede env st response ip g agentname i hip hfound hsup]
      have hk := validate_name_keep env
        { st with removed_groups := st.removed_groups ++ [(st.keys.entry i).id]
                  queue_backup := st.queue_backup ++ [backup_node (st.keys.entry i)]
                  keys := OS_DeleteKey st.keys (st.keys.entry i).id 0 } response g agentname hrest
      rw [hk.1]
      exact ⟨rfl, rfl, rfl, (find_index_some _ _ _ _ hfound).2⟩
    · rw [hvd, validate_ip_pass env st response ip g agentname hip]
      have hk := validate_name_supersede env st response g agentname i hname hfound hsup
      rw [hk.1]
      exact ⟨rfl, rfl, rfl, (find_index_some _ _ _ _ hfound).2⟩
  obtain ⟨f1, f2, f3, f5⟩ := facts
  refine ⟨f1, f2, ?_, f3, ?_⟩
  · rw [f2]
    exact delete_key_no_id _ _ _
  · intro hok hw
    obtain ⟨e1, e2, grp, e3⟩ := dispatch_enroll_ok env st response ip agentname groups hok hw
    have hc : (OS_DeleteKey st.keys (st.keys.entry i).id 0).id_counter = st.keys.id_counter := rfl
    rw [f2, hc] at e1 e3
    rw [f1] at e2
    rw [f3] at e3
    refine ⟨by rw [e1], ?_, e2, grp, e3⟩
    intro x hx
    rw [e1] at hx
    rcases List.mem_append.mp hx with h | h
    · exact delete_key_no_id _ _ _ x h
    · simp only [List.mem_singleton] at h
      subst h
      have := hwf _ f5
      simp only
      omega

/-- Claim C6 fails as stated: with force-insert on, the request for the name
`b2` and the ip `10.0.0.1`, held by two different old records, enqueues two
backup nodes before the one insert node. -/
theorem force_insert_supersession_counterexample :
    sampleEnvForce.force_insert = true ∧
    OS_IsAllowedIP sampleKeysFull "10.0.0.1".toList = some 0 ∧
    sampleEnvForce.OS_AgentAntiquity (sampleKeysFull.entry 0).name (sampleKeysFull.entry 0).ip < 0 ∧
    (dispatch_primary sampleEnvForce (AuthState.ofKeys sampleKeysFull)
      "OSSEC A:'b2' IP:'10.0.0.1'".toList [] none "192.168.1.7".toList).enrollment_ok = true ∧
    (dispatch_primary sampleEnvForce (AuthState.ofKeys sampleKeysFull)
      "OSSEC A:'b2' IP:'10.0.0.1'".toList [] none "192.168.1.7".toList).st.queue_backup =
        [{ id := 1, name := "a1".toList, ip := "10.0.0.1".toList, group := none },
         { id := 2, name := "b2".toList, ip := "10.0.0.2".toList, group := none }] ∧
    (dispatch_primary sampleEnvForce (AuthState.ofKeys sampleKeysFull)
      "OSSEC A:'b2' IP:'10.0.0.1'".toList [] none "192.168.1.7".toList).st.queue_insert =
        [{ id := 4, name := "b2".toList, ip := "10.0.0.1".toList, group := none }] := by
  decide

/-- Claim C6, amended, at the sample store: the request for the name `b1` and
the ip `10.0.0.1` of record 1 supersedes that record. -/
theorem force_insert_supersession_witness :
    (dispatch_enroll sampleEnvForce (AuthState.ofKeys sampleKeys) [] "10.0.0.1".toList
      "b1".toList []).st.keys.keyentries =
        [{ id := 2, name := "b1".toList, ip := "10.0.0.1".toList, key := "key".toList }] ∧
    (dispatch_enroll sampleEnvForce (AuthState.ofKeys sampleKeys) [] "10.0.0.1".toList
      "b1".toList []).st.queue_backup =
        [{ id := 1, name := "a1".toList, ip := "10.0.0.1".toList, group := none }] := by
  have h := (force_insert_supersession sampleEnvForce (AuthState.ofKeys sampleKeys) []
    "10.0.0.1".toList "b1".toList [] 0 rfl (Or.inl rfl) (Or.inr (by decide))
    (Or.inl ⟨by decide, by decide, by decide⟩) (by decide)).2.2.2.2 (by decide) (by decide)
  exact ⟨h.1, h.2.2.1⟩



/-! # Error responses -/

theorem snprintf_2048 (old s : List Char) : snprintf 2048 old s = s.take 2047 := by
  simp [snprintf]

theorem snprintf_short (old s : List Char) (h : (snprintf 2048 old s).length < 2047) :
    snprintf 2048 old s = s := by
  rw [snprintf_2048] at h ⊢
  rw [List.length_take] at h
  exact List.take_of_length_le (by omega)

theorem error_line_mk (a x b : List Char) (ha : "ERROR: ".toList <+: a)
    (hb : "\n\n".toList <:+ b) : error_line (a ++ x ++ b) := by
  constructor
  · rw [List.append_assoc]
    exact ha.trans (List.prefix_append _ _)
  · exact hb.trans (List.suffix_append _ _)

theorem written_error_mk (old a x b : List Char) (ha : "ERROR: ".toList <+: a)
    (hb : "\n\n".toList <:+ b) : written_error old (snprintf 2048 old (a ++ x ++ b)) :=
  Or.inr ⟨_, rfl, error_line_mk a x b ha hb⟩

theorem written_error_lit (old b : List Char) (h : error_line b) :
    written_error old (snprintf 2048 old b) :=
  Or.inr ⟨_, rfl, h⟩

theorem parse_ip_written (env : Env) (buf response ip n g : List Char) :
    written_error response (parse_ip env buf response ip n g).response := by
  simp only [parse_ip]
  split_ifs
  · exact written_error_mk _ _ _ _ (by decide) (by decide)
  · exact Or.inl rfl
  · exact Or.inl rfl
  · exact Or.inl rfl
  · exact Or.inl rfl

theorem group_name_error_written (valid : Int) (groups response : List Char) :
    parse_written_error response (group_name_error valid groups response) := by
  simp only [group_name_error]
  split_ifs
  · exact Or.inl (written_error_mk _ _ _ _ (by decide) (by decide))
  · right; right; right
    refine ⟨"ERROR: Invalid group name: ".toList ++ groups.take 255 ++
      "... consecutive ',' are not allowed ".toList, ?_⟩
    simp
  · exact Or.inl (written_error_mk _ _ _ _ (by decide) (by decide))
  · exact Or.inl (written_error_mk _ _ _ _ (by decide) (by decide))
  · exact Or.inl (written_error_mk _ _ _ _ (by decide) (by decide))
  · exact Or.inl (written_error_mk _ _ _ _ (by decide) (by decide))
  · exact Or.inl (Or.inl rfl)

theorem parse_group_written (env : Env) (rest response ip n g : List Char) :
    parse_written_error response (parse_group env rest response ip n g).response := by
  simp only [parse_group, wstr_delete_repeated_groups]
  split_ifs
  · exact group_name_error_written _ _ _
  · exact Or.inl (parse_ip_written _ _ _ _ _ _)
  · exact Or.inl (parse_ip_written _ _ _ _ _ _)

theorem parse_action_written (env : Env) (buf response ip groups : List Char)
    (agentname : Option (List Char)) :
    parse_written_error response (parse_action env buf response ip agentname groups).response := by
  unfold parse_action
  by_cases h1 : strncmp_zero buf "OSSEC A:'".toList 9 = true
  · rw [if_pos h1]
    cases hs : scan_name (buf.drop 9) with
    | none =>
      simp only [hs]
      right; right; left
      exact snprintf_fits 2048 response "ERROR: Invalid request for new agent".toList (by decide)
    | some r =>
      obtain ⟨name, rest⟩ := r
      simp only [hs]
      split_ifs
      · exact Or.inl (written_error_mk _ _ _ _ (by decide) (by decide))
      · exact parse_group_written _ _ _ _ _ _
  · rw [if_neg h1]
    right; right; left
    exact snprintf_fits 2048 response "ERROR: Invalid request for new agent".toList (by decide)

/-- What `w_auth_parse_data` leaves in the response buffer. -/
theorem parse_data_written (env : Env) (buf response : List Char)
    (authpass : Option (List Char)) (ip : List Char) (agentname : Option (List Char))
    (groups : List Char) :
    parse_written_error response
      (w_auth_parse_data env buf response authpass ip agentname groups).response := by
  unfold w_auth_parse_data
  cases authpass with
  | none => exact parse_action_written _ _ _ _ _ _
  | some pw =>
    simp only
    cases hp : password_stage buf pw with
    | none =>
      right; left
      exact snprintf_fits 2048 response "ERROR: Invalid password".toList (by decide)
    | some b => exact parse_action_written _ _ _ _ _ _

theorem validate_groups_loop_written (env : Env) (toks : List (List Char)) (k : Nat)
    (response : List Char) :
    ∃ r, (validate_groups_loop env toks k (some response)).2 = some r ∧
      written_error response r := by
  induction toks generalizing k with
  | nil => exact ⟨response, rfl, Or.inl rfl⟩
  | cons g gs ih =>
    simp only [validate_groups_loop]
    split_ifs
    · exact ⟨response, rfl, Or.inl rfl⟩
    · exact ⟨_, rfl, written_error_mk _ _ _ _ (by decide) (by decide)⟩
    · exact ⟨_, rfl, written_error_mk _ _ _ _ (by decide) (by decide)⟩
    · exact ih _

theorem validate_limit_written (env : Env) (st : AuthState) (r g a : List Char) :
    written_error r (validate_limit env st r g a).response := by
  simp only [validate_limit]
  split_ifs
  · exact written_error_lit _ _ (by decide)
  · exact Or.inl rfl

theorem validate_name_written (env : Env) (st : AuthState) (r g a : List Char) :
    written_error r (validate_name env st r g a).response := by
  unfold validate_name
  by_cases hs : (a == env.shost) = true
  · rw [if_pos hs]
    exact written_error_mk _ _ _ _ (by decide) (by decide)
  · rw [if_neg hs]
    cases hn : OS_IsAllowedName st.keys a with
    | none => exact validate_limit_written _ _ _ _ _
    | some i =>
      simp only
      split_ifs
      · exact validate_limit_written _ _ _ _ _
      · exact written_error_mk _ _ _ _ (by decide) (by decide)
      · exact validate_limit_written _ _ _ _ _

theorem validate_ip_written (env : Env) (st : AuthState) (r ip g a : List Char) :
    written_error r (validate_ip env st r ip g a).response := by
  unfold validate_ip
  by_cases hs : (ip != "any".toList) = true
  · rw [if_pos hs]
    cases hn : OS_IsAllowedIP st.keys ip with
    | none => exact validate_name_written _ _ _ _ _
    | some i =>
      simp only
      split_ifs
      · exact validate_name_written _ _ _ _ _
      · exact written_error_mk _ _ _ _ (by decide) (by decide)
  · rw [if_neg hs]
    exact validate_name_written _ _ _ _ _

/-- What `w_auth_validate_data` leaves in the response buffer. -/
theorem validate_data_written (env : Env) (st : AuthState)
    (response ip agentname groups : List Char) :
    written_error response (w_auth_validate_data env st response ip agentname groups).response := by
  unfold w_auth_validate_data
  by_cases hd : (deref groups != NUL) = true
  · rw [if_pos hd]
    simp only
    by_cases hg : (w_auth_validate_groups env groups (some response)).ret = OS_SUCCESS
    · have h1 : ((w_auth_validate_groups env groups (some response)).ret != OS_SUCCESS) = false := by
        simp [hg]
      rw [h1, validate_groups_success env groups response hg]
      simp only [Bool.false_eq_true, if_false, Option.getD_some]
      exact validate_ip_written _ _ _ _ _ _
    · have h1 : ((w_auth_validate_groups env groups (some response)).ret != OS_SUCCESS) = true := by
        simpa using hg
      rw [h1]
      simp only [if_true]
      obtain ⟨r, hr, hw⟩ := validate_groups_loop_written env (strtok_tokens groups) 0 response
      simp only [w_auth_validate_groups, hr, Option.getD_some]
      exact hw
  · rw [if_neg hd]
    exact validate_ip_written _ _ _ _ _ _

/-- What `w_auth_add_agent` leaves in the response buffer. -/
theorem add_agent_written (env : Env) (st : AuthState) (response ip agentname groups : List Char) :
    written_error response (w_auth_add_agent env st response ip agentname groups).response := by
  unfold w_auth_add_agent OS_AddNewAgent
  by_cases he : env.add_agent_error agentname ip = true
  · simp only [he, if_true]
    exact written_error_mk _ _ _ _ (by decide) (by decide)
  · simp only [he, Bool.false_eq_true, if_false]
    split_ifs
    · exact written_error_mk _ _ _ _ (by decide) (by decide)
    · exact Or.inl rfl

theorem written_error_short (old r : List Char) (h : written_error old r) (h1 : r ≠ old)
    (h2 : r.length < 2047) : error_line r := by
  rcases h with h | ⟨s, hs, he⟩
  · exact absurd h h1
  · rw [hs] at h2
    rw [hs, snprintf_short old s h2]
    exact he


/-- Claim C11, amended: a text that `w_auth_parse_data`, `w_auth_validate_data`,
`w_auth_validate_groups` or `w_auth_add_agent` writes to the response buffer
and that is shorter than 2047 characters (so not cut by the buffer of 2048
bytes) starts with `ERROR: ` and ends with two newline characters; for
`w_auth_parse_data` the messages `ERROR: Invalid password` and
`ERROR: Invalid request for new agent` and the message for consecutive commas,
which goes on after its two newlines, are set apart. -/
theorem error_responses_form (env : Env) :
    (∀ (buf response : List Char) (authpass : Option (List Char)) (ip : List Char)
        (agentname : Option (List Char)) (groups : List Char),
      (w_auth_parse_data env buf response authpass ip agentname groups).response ≠ response →
      (w_auth_parse_data env buf response authpass ip agentname groups).response.length < 2047 →
      (w_auth_parse_data env buf response authpass ip agentname groups).response
        ≠ "ERROR: Invalid password".toList →
      (w_auth_parse_data env buf response authpass ip agentname groups).response
        ≠ "ERROR: Invalid request for new agent".toList →
      ¬ ("\n\n, ".toList <:+
        (w_auth_parse_data env buf response authpass ip agentname groups).response) →
      error_line (w_auth_parse_data env buf response authpass ip agentname groups).response) ∧
    (∀ (st : AuthState) (response ip agentname groups : List Char),
      (w_auth_validate_data env st response ip agentname groups).response ≠ response →
      (w_auth_validate_data env st response ip agentname groups).response.length < 2047 →
      error_line (w_auth_validate_data env st response ip agentname groups).response) ∧
    (∀ (groups response r : List Char),
      (w_auth_validate_groups env groups (some response)).response = some r →
      r ≠ response → r.length < 2047 → error_line r) ∧
    (∀ (st : AuthState) (response ip agentname groups : List Char),
      (w_auth_add_agent env st response ip agentname groups).response ≠ response →
      (w_auth_add_agent env st response ip agentname groups).response.length < 2047 →
      error_line (w_auth_add_agent env st response ip agentname groups).response) := by
  refine ⟨?_, ?_, ?_, ?_⟩
  · intro buf response authpass ip agentname groups h1 h2 h3 h4 h5
    rcases parse_data_written env buf response authpass ip agentname groups with h | h | h | ⟨x, h⟩
    · exact written_error_short _ _ h h1 h2
    · exact absurd h h3
    · exact absurd h h4
    · exfalso
      apply h5
      rw [h] at h2
      rw [h, snprintf_short _ _ h2]
      exact List.suffix_append _ _
  · intro st response ip agentname groups h1 h2
    exact written_error_short _ _ (validate_data_written env st response ip agentname groups) h1 h2
  · intro groups response r h h1 h2
    obtain ⟨r2, hr, hw⟩ := validate_groups_loop_written env (strtok_tokens groups) 0 response
    simp only [w_auth_validate_groups] at h
    rw [hr] at h
    cases h
    exact written_error_short _ _ hw h1 h2
  · intro st response ip agentname groups h1 h2
    exact written_error_short _ _ (add_agent_written env st response ip agentname groups) h1 h2

/-- Claim C11, amended, at the request `OSSEC A:'alpha' IP:'nope'`. -/
theorem error_responses_form_witness :
    error_line (w_auth_parse_data sampleEnv "OSSEC A:'alpha' IP:'nope'".toList [] none
      "192.168.1.7".toList none []).response :=
  (error_responses_form sampleEnv).1 "OSSEC A:'alpha' IP:'nope'".toList [] none
    "192.168.1.7".toList none [] (by decide) (by decide) (by decide) (by decide) (by decide)

/-- The parse of a request whose name the validator refuses. -/
theorem parse_invalid_name (env : Env) (n response ip : List Char)
    (hq : QUOTE ∉ n) (h0 : NUL ∉ n) (hv : env.OS_IsValidName n = false) :
    w_auth_parse_data env ("OSSEC A:'".toList ++ n ++ [QUOTE]) response none ip none [] =
      { ret := OS_INVALID
        response := snprintf 2048 response
          ("ERROR: Invalid agent name: ".toList ++ n ++ "\n\n".toList)
        ip := ip, agentname := some n, groups := [] } := by
  have h1 : strncmp_zero ("OSSEC A:'".toList ++ (n ++ [QUOTE])) "OSSEC A:'".toList 9 = true :=
    strncmp_zero_append "OSSEC A:'".toList (n ++ [QUOTE]) (by decide)
  have h2 : ("OSSEC A:'".toList ++ (n ++ [QUOTE])).drop 9 = n ++ [QUOTE] := by
    simp
  have h3 : scan_name (n ++ [QUOTE]) = some (n, []) := scan_name_append n [] hq h0
  simp only [w_auth_parse_data, parse_action, List.append_assoc, h1, h2, h3, hv, if_true,
    Bool.not_false]

/-- Claim C11 fails as stated: for a request whose name of 2100 characters the
validator refuses, the response is cut at 2047 characters, in the middle of
the name, and does not end with a newline. -/
theorem error_responses_form_counterexample :
    (w_auth_parse_data sampleEnv ("OSSEC A:'".toList ++ List.replicate 2100 'x' ++ [QUOTE]) []
      none "192.168.1.7".toList none []).ret = OS_INVALID ∧
    (w_auth_parse_data sampleEnv ("OSSEC A:'".toList ++ List.replicate 2100 'x' ++ [QUOTE]) []
      none "192.168.1.7".toList none []).response =
        "ERROR: Invalid agent name: ".toList ++ List.replicate 2020 'x' ∧
    ¬ error_line (w_auth_parse_data sampleEnv
      ("OSSEC A:'".toList ++ List.replicate 2100 'x' ++ [QUOTE]) [] none "192.168.1.7".toList
      none []).response := by
  have hq : QUOTE ∉ List.replicate 2100 'x' := by
    intro h
    exact absurd (List.eq_of_mem_replicate h) (by decide)
  have h0 : NUL ∉ List.replicate 2100 'x' := by
    intro h
    exact absurd (List.eq_of_mem_replicate h) (by decide)
  have hlong : ∀ n : List Char, 128 < n.length → sampleEnv.OS_IsValidName n = false := by
    intro n hn
    show (decide (2 ≤ n.length) && decide (n.length ≤ 128) && n.all sample_name_char) = false
    have e : decide (n.length ≤ 128) = false := by
      rw [decide_eq_false_iff_not]; omega
    rw [e, Bool.and_false, Bool.false_and]
  have hv : sampleEnv.OS_IsValidName (List.replicate 2100 'x') = false :=
    hlong _ (by rw [List.length_replicate]; omega)
  have hr : snprintf 2048 [] ("ERROR: Invalid agent name: ".toList ++ List.replicate 2100 'x' ++
      "\n\n".toList) = "ERROR: Invalid agent name: ".toList ++ List.replicate 2020 'x' := by
    rw [snprintf_2048, List.append_assoc, List.take_append_eq_append_take]
    have hl : "ERROR: Invalid agent name: ".toList.length = 27 := by decide
    rw [List.take_of_length_le (by rw [hl]; omega), hl, List.take_append_of_le_length
      (by rw [List.length_replicate]; omega), List.take_replicate]
    rfl
  rw [parse_invalid_name sampleEnv _ [] _ hq h0 hv, hr]
  refine ⟨rfl, rfl, ?_⟩
  intro h
  obtain ⟨t, ht⟩ := h.2
  have h1 := congrArg List.getLast? ht
  have h2 : List.replicate 2020 'x' = List.replicate 2019 'x' ++ ['x'] := by
    rw [← List.replicate_succ']
  rw [h2, ← List.append_assoc] at h1
  have e1 : (t ++ "\n\n".toList).getLast? = some '\n' := by
    rw [List.getLast?_append]; rfl
  have e2 : (("ERROR: Invalid agent name: ".toList ++ List.replicate 2019 'x') ++ ['x']).getLast?
      = some 'x' := by
    rw [List.getLast?_append]; rfl
  rw [e1, e2] at h1
  exact absurd h1 (by decide)



/-! # The worker branch, the reply and the group string -/

/-- On a worker node the reply of a successful enrollment is formatted from the
NULL pointers `new_id` and `new_key`: it is the same whatever id and key the
primary assigned. -/
theorem dispatch_worker_reply (env : Env) (cl : Cluster) (buf response : List Char)
    (authpass : Option (List Char)) (ip : List Char)
    (h : (dispatch_worker env cl buf response authpass ip).enrollment_ok = true) :
    (dispatch_worker env cl buf response authpass ip).written =
      [snprintf 2048 (w_auth_parse_data env buf response authpass ip none []).response
        (success_line cl.null_text
          ((w_auth_parse_data env buf response authpass ip none []).agentname.getD [])
          (w_auth_parse_data env buf response authpass ip none []).ip cl.null_text)] := by
  unfold dispatch_worker at h ⊢
  simp only [] at h ⊢
  split_ifs at h ⊢ <;> rfl

/-- Claim C12, on the code: on a worker node the primary accepts the request
`OSSEC A:'alpha'` and assigns the id `007` and the key `secret`; the line
written to the client carries the text of two NULL pointers in their place. -/
theorem worker_reply_ignores_primary :
    sampleCluster.add_clustered "alpha".toList "any".toList [] 0 =
      (0, "007".toList, "secret".toList) ∧
    (dispatch_worker sampleEnv sampleCluster "OSSEC A:'alpha'".toList [] none
      "192.168.1.7".toList).enrollment_ok = true ∧
    (dispatch_worker sampleEnv sampleCluster "OSSEC A:'alpha'".toList [] none
      "192.168.1.7".toList).written = ["OSSEC K:'(null) alpha any (null)'\n\n".toList] ∧
    (dispatch_worker sampleEnv sampleCluster "OSSEC A:'alpha'".toList [] none
      "192.168.1.7".toList).written ≠
        [success_line "007".toList "alpha".toList "any".toList "secret".toList] := by
  decide

/-- Claim C13, on the code: when `SSL_write` returns 0 for the success line the
dispatcher keeps the new record, enqueues its insertion and sets
`write_pending`; the rollback takes place for the return value -1. -/
theorem write_zero_not_rolled_back :
    sampleEnvWriteZero.SSL_write "OSSEC K:'2 beta any key'\n\n".toList = 0 ∧
    (dispatch_primary sampleEnvWriteZero (AuthState.ofKeys sampleKeys) "OSSEC A:'beta'".toList []
      none "192.168.1.7".toList).written = ["OSSEC K:'2 beta any key'\n\n".toList] ∧
    (dispatch_primary sampleEnvWriteZero (AuthState.ofKeys sampleKeys) "OSSEC A:'beta'".toList []
      none "192.168.1.7".toList).st.keys.keyentries.map (fun e => (e.id, e.name)) =
        [(1, "a1".toList), (2, "beta".toList)] ∧
    (dispatch_primary sampleEnvWriteZero (AuthState.ofKeys sampleKeys) "OSSEC A:'beta'".toList []
      none "192.168.1.7".toList).st.queue_insert =
        [{ id := 2, name := "beta".toList, ip := "any".toList, group := none }] ∧
    (dispatch_primary sampleEnvWriteZero (AuthState.ofKeys sampleKeys) "OSSEC A:'beta'".toList []
      none "192.168.1.7".toList).st.write_pending = true ∧
    (dispatch_primary sampleEnvWriteFail (AuthState.ofKeys sampleKeys) "OSSEC A:'beta'".toList []
      none "192.168.1.7".toList).st.keys.keyentries = sampleKeys.keyentries ∧
    (dispatch_primary sampleEnvWriteFail (AuthState.ofKeys sampleKeys) "OSSEC A:'beta'".toList []
      none "192.168.1.7".toList).st.queue_insert = [] ∧
    (dispatch_primary sampleEnvWriteFail (AuthState.ofKeys sampleKeys) "OSSEC A:'beta'".toList []
      none "192.168.1.7".toList).st.write_pending = false := by
  decide

/-- The reply stage rolls the new record back exactly when `SSL_write` returns
a negative value; for any other value it enqueues the insertion and sets
`write_pending`. -/
theorem dispatch_reply_write (env : Env) (st : AuthState) (response ip agentname groups : List Char)
    (new_id : Nat) (new_key : List Char) :
    (env.SSL_write (dispatch_reply env st response ip agentname groups
        (some (new_id, new_key))).response < 0 →
      (dispatch_reply env st response ip agentname groups (some (new_id, new_key))).st =
        { st with keys := OS_DeleteKey st.keys (st.keys.entry (st.keys.keysize - 1)).id 1 }) ∧
    (0 ≤ env.SSL_write (dispatch_reply env st response ip agentname groups
        (some (new_id, new_key))).response →
      (dispatch_reply env st response ip agentname groups (some (new_id, new_key))).st.write_pending
        = true ∧
      (dispatch_reply env st response ip agentname groups (some (new_id, new_key))).st.keys
        = st.keys ∧
      ∃ grp, (dispatch_reply env st response ip agentname groups
          (some (new_id, new_key))).st.queue_insert =
        st.queue_insert ++
          [{ id := (st.keys.entry (st.keys.keysize - 1)).id
             name := (st.keys.entry (st.keys.keysize - 1)).name
             ip := (st.keys.entry (st.keys.keysize - 1)).ip, group := grp }]) := by
  simp only [dispatch_reply]
  constructor
  · intro h
    split_ifs at h ⊢ <;>
      first
        | rfl
        | (simp only [] at h; omega)
  · intro h
    split_ifs at h ⊢ <;>
      first
        | (simp only [] at h; omega)
        | exact ⟨rfl, rfl, _, rfl⟩

/-- Claim C14, on the code: for the request `OSSEC A:'beta' G:'g1,g2'` the
parser delivers the group string `g1,g2`, `w_auth_validate_data` leaves `g1` in
the buffer, and the insertion node carries `g1`; the list `web,web,web` gives
`web`. -/
theorem insert_group_cut :
    (w_auth_parse_data sampleEnv "OSSEC A:'beta' G:'g1,g2'".toList [] none "192.168.1.7".toList
      none []).groups = "g1,g2".toList ∧
    (w_auth_validate_data sampleEnv (AuthState.ofKeys sampleKeys) [] "any".toList "beta".toList
      "g1,g2".toList).ret = OS_SUCCESS ∧
    (w_auth_validate_data sampleEnv (AuthState.ofKeys sampleKeys) [] "any".toList "beta".toList
      "g1,g2".toList).groups = "g1".toList ∧
    (dispatch_primary sampleEnv (AuthState.ofKeys sampleKeys) "OSSEC A:'beta' G:'g1,g2'".toList []
      none "192.168.1.7".toList).st.queue_insert =
        [{ id := 2, name := "beta".toList, ip := "any".toList, group := some "g1".toList }] ∧
    (dispatch_primary sampleEnv (AuthState.ofKeys sampleKeys)
      "OSSEC A:'beta' G:'web,web,web'".toList [] none "192.168.1.7".toList).st.queue_insert =
        [{ id := 2, name := "beta".toList, ip := "any".toList, group := some "web".toList }] := by
  decide

/-- The groups buffer after a validation that reaches the token loop is the
first token of the list, behind the commas that lead it. -/
theorem validate_groups_cut (env : Env) (groups : List Char) (response : Option (List Char)) :
    (w_auth_validate_groups env groups response).groups = strtok_cut groups := rfl

/-! # The tag counter -/

/-- When every candidate from `acount` up to `MAX_TAG_COUNTER - 1` is taken,
the loop leaves with the counter above the bound, the candidate number
`MAX_TAG_COUNTER` being written to `fname` without being looked up. -/
theorem tag_loop_exhaust_below (env : Env) (keys : keystore) (a : List Char) :
    ∀ (fuel acount : Nat) (fname : List Char),
      (∃ i, OS_IsAllowedName keys fname = some i) →
      (∀ k, acount ≤ k → k < env.MAX_TAG_COUNTER →
        ∃ i, OS_IsAllowedName keys (tag_candidate a k) = some i) →
      1 ≤ fuel → env.MAX_TAG_COUNTER + 2 ≤ fuel + acount →
      (tag_loop env keys a fuel fname acount).2 > env.MAX_TAG_COUNTER := by
  intro fuel
  induction fuel with
  | zero => intro _ _ _ _ h; omega
  | succ n ih =>
    intro acount fname ht hall _ hf
    obtain ⟨i, hi⟩ := ht
    rw [tag_loop_step env keys a fname n acount i hi]
    by_cases hc : acount + 1 > env.MAX_TAG_COUNTER
    · rw [if_pos hc]
      exact hc
    · rw [if_neg hc]
      apply ih
      · exact hall acount (Nat.le_refl _) (by omega)
      · intro k hk1 hk2
        exact hall k (by omega) hk2
      · omega
      · omega

/-- The duplicate-name branch rejects exactly when the candidates `name2` to
`name<MAX_TAG_COUNTER - 1>` are all taken. -/
theorem tag_loop_reject_iff (env : Env) (keys : keystore) (a : List Char)
    (ht : ∃ i, OS_IsAllowedName keys a = some i) :
    (tag_loop env keys a (env.MAX_TAG_COUNTER + 1) a 2).2 > env.MAX_TAG_COUNTER ↔
      ∀ k, 2 ≤ k → k < env.MAX_TAG_COUNTER →
        ∃ i, OS_IsAllowedName keys (tag_candidate a k) = some i := by
  constructor
  · intro h k hk1 hk2
    cases hn : OS_IsAllowedName keys (tag_candidate a k) with
    | some i => exact ⟨i, rfl⟩
    | none =>
      have := (tag_loop_free env keys a k hk2 hn (env.MAX_TAG_COUNTER + 1) 2 a ht hk1
        (by omega)).1
      omega
  · intro hall
    exact tag_loop_exhaust_below env keys a (env.MAX_TAG_COUNTER + 1) 2 a ht hall (by omega)
      (by omega)

/-- Claim C20, on the code: with `MAX_TAG_COUNTER = 4`, the names `a1`, `a12`
and `a13` in the store and the candidate `a14` free, the request for `a1` is
rejected as a duplicated name. -/
theorem last_tag_candidate_unused :
    sampleEnvNoLimit.MAX_TAG_COUNTER = 4 ∧
    OS_IsAllowedName sampleKeysTagged (tag_candidate "a1".toList 4) = none ∧
    (w_auth_validate_data sampleEnvNoLimit (AuthState.ofKeys sampleKeysTagged) [] "any".toList
      "a1".toList []).ret = OS_INVALID ∧
    (w_auth_validate_data sampleEnvNoLimit (AuthState.ofKeys sampleKeysTagged) [] "any".toList
      "a1".toList []).response = "ERROR: Invalid agent name: a1\n\n".toList := by
  decide


/-! # The writer and the pending queues -/

theorem writer_insert_loop_eq (t : Int) (l : List keynode) (log : List WriterEffect) :
    writer_insert_loop t l log = log ++ l.flatMap (insert_effects t) := by
  induction l generalizing log with
  | nil => simp [writer_insert_loop]
  | cons n ns ih =>
    simp only [writer_insert_loop, List.flatMap_cons, insert_effects]
    cases n.group <;> simp [ih]

theorem writer_backup_loop_eq (l : List keynode) (log : List WriterEffect) :
    writer_backup_loop l log = log ++ l.flatMap backup_effects := by
  induction l generalizing log with
  | nil => simp [writer_backup_loop]
  | cons n ns ih => simp [writer_backup_loop, List.flatMap_cons, backup_effects, ih]

theorem writer_remove_loop_eq (l : List keynode) (log : List WriterEffect) :
    writer_remove_loop l log = log ++ l.flatMap remove_effects := by
  induction l generalizing log with
  | nil => simp [writer_remove_loop]
  | cons n ns ih => simp [writer_remove_loop, List.flatMap_cons, remove_effects, ih]

/-- One pass of the writer detaches the three queues whole, leaves them empty
with `write_pending` cleared, and makes the calls of the insertions, then of
the backups, then of the deletions, each in queue order. -/
theorem run_writer_pass_eq (st : AuthState) (t : Int) :
    (run_writer_pass st t).copy_insert = st.queue_insert ∧
    (run_writer_pass st t).copy_backup = st.queue_backup ∧
    (run_writer_pass st t).copy_remove = st.queue_remove ∧
    (run_writer_pass st t).st.queue_insert = [] ∧
    (run_writer_pass st t).st.queue_backup = [] ∧
    (run_writer_pass st t).st.queue_remove = [] ∧
    (run_writer_pass st t).st.write_pending = false ∧
    (run_writer_pass st t).effects =
      WriterEffect.OS_WriteKeys st.keys ::
        (st.queue_insert.flatMap (insert_effects t) ++ st.queue_backup.flatMap backup_effects ++
          st.queue_remove.flatMap remove_effects) := by
  refine ⟨rfl, rfl, rfl, rfl, rfl, rfl, rfl, ?_⟩
  simp only [run_writer_pass, writer_remove_loop_eq, writer_backup_loop_eq, writer_insert_loop_eq]
  simp

/-- The passes of a run, each with the state it was made on and its time. -/
theorem run_queue_ops_passes (st : AuthState) (ops : List QueueOp) :
    ∀ p ∈ (run_queue_ops st ops).2, ∃ st0 t, p = run_writer_pass st0 t := by
  induction ops generalizing st with
  | nil => intro p hp; simp [run_queue_ops] at hp
  | cons op ops ih =>
    cases op with
    | insert e g => exact ih _
    | backup e => exact ih _
    | remove e => exact ih _
    | flush t =>
      intro p hp
      simp only [run_queue_ops, List.mem_cons] at hp
      rcases hp with h | h
      · exact ⟨st, t, h⟩
      · exact ih _ p h

theorem run_queue_ops_insert (st : AuthState) (ops : List QueueOp) :
    (run_queue_ops st ops).2.flatMap (fun p => p.copy_insert) ++
      (run_queue_ops st ops).1.queue_insert = st.queue_insert ++ appended_insert ops := by
  induction ops generalizing st with
  | nil => simp [run_queue_ops, appended_insert]
  | cons op ops ih =>
    cases op with
    | insert e g =>
      simp only [run_queue_ops, appended_insert]
      rw [ih]
      simp [add_insert]
    | backup e =>
      simp only [run_queue_ops, appended_insert]
      rw [ih]
      rfl
    | remove e =>
      simp only [run_queue_ops, appended_insert]
      rw [ih]
      rfl
    | flush t =>
      simp only [run_queue_ops, appended_insert, List.flatMap_cons, List.append_assoc]
      rw [ih]
      rfl

theorem run_queue_ops_backup (st : AuthState) (ops : List QueueOp) :
    (run_queue_ops st ops).2.flatMap (fun p => p.copy_backup) ++
      (run_queue_ops st ops).1.queue_backup = st.queue_backup ++ appended_backup ops := by
  induction ops generalizing st with
  | nil => simp [run_queue_ops, appended_backup]
  | cons op ops ih =>
    cases op with
    | insert e g =>
      simp only [run_queue_ops, appended_backup]
      rw [ih]
      rfl
    | backup e =>
      simp only [run_queue_ops, appended_backup]
      rw [ih]
      simp [add_backup, backup_node]
    | remove e =>
      simp only [run_queue_ops, appended_backup]
      rw [ih]
      rfl
    | flush t =>
      simp only [run_queue_ops, appended_backup, List.flatMap_cons, List.append_assoc]
      rw [ih]
      rfl

theorem run_queue_ops_remove (st : AuthState) (ops : List QueueOp) :
    (run_queue_ops st ops).2.flatMap (fun p => p.copy_remove) ++
      (run_queue_ops st ops).1.queue_remove = st.queue_remove ++ appended_remove ops := by
  induction ops generalizing st with
  | nil => simp [run_queue_ops, appended_remove]
  | cons op ops ih =>
    cases op with
    | insert e g =>
      simp only [run_queue_ops, appended_remove]
      rw [ih]
      rfl
    | backup e =>
      simp only [run_queue_ops, appended_remove]
      rw [ih]
      rfl
    | remove e =>
      simp only [run_queue_ops, appended_remove]
      rw [ih]
      simp [add_remove, backup_node]
    | flush t =>
      simp only [run_queue_ops, appended_remove, List.flatMap_cons, List.append_assoc]
      rw [ih]
      rfl

theorem run_queue_ops_no_flush (st : AuthState) (ops : List QueueOp) (h : no_flush ops = true) :
    (run_queue_ops st ops).2 = [] := by
  induction ops generalizing st with
  | nil => rfl
  | cons op ops ih =>
    cases op with
    | insert e g => exact ih _ h
    | backup e => exact ih _ h
    | remove e => exact ih _ h
    | flush t => simp [no_flush] at h

theorem run_queue_ops_append (st : AuthState) (a b : List QueueOp) :
    run_queue_ops st (a ++ b) =
      ((run_queue_ops (run_queue_ops st a).1 b).1,
        (run_queue_ops st a).2 ++ (run_queue_ops (run_queue_ops st a).1 b).2) := by
  induction a generalizing st with
  | nil => simp [run_queue_ops]
  | cons op ops ih =>
    cases op with
    | insert e g => simp only [List.cons_append, run_queue_ops]; exact ih _
    | backup e => simp only [List.cons_append, run_queue_ops]; exact ih _
    | remove e => simp only [List.cons_append, run_queue_ops]; exact ih _
    | flush t =>
      have := ih (run_writer_pass st t).st
      rw [List.cons_append]
      simp only [run_queue_ops, this, List.cons_append]

/-- Claim C19: for every sequence of `add_insert`, `add_backup` and
`add_remove` calls and writer passes, each taken as one step: every pass leaves
the three live queues empty with `write_pending` cleared and makes the calls of
its detached insertions, then backups, then deletions, each in queue order;
the detached lists of all passes, followed by what is still queued, are the
entries appended, in the order of their appending, so that no entry is handled
by two passes; and a pass that follows entries appended to empty queues
detaches exactly those entries. -/
theorem pending_queues_fifo (st : AuthState) (ops : List QueueOp) :
    (∀ p ∈ (run_queue_ops st ops).2,
      p.st.queue_insert = [] ∧ p.st.queue_backup = [] ∧ p.st.queue_remove = [] ∧
      p.st.write_pending = false ∧
      ∃ t ks, p.effects = WriterEffect.OS_WriteKeys ks ::
        (p.copy_insert.flatMap (insert_effects t) ++ p.copy_backup.flatMap backup_effects ++
          p.copy_remove.flatMap remove_effects)) ∧
    ((run_queue_ops st ops).2.flatMap (fun p => p.copy_insert) ++
      (run_queue_ops st ops).1.queue_insert = st.queue_insert ++ appended_insert ops) ∧
    ((run_queue_ops st ops).2.flatMap (fun p => p.copy_backup) ++
      (run_queue_ops st ops).1.queue_backup = st.queue_backup ++ appended_backup ops) ∧
    ((run_queue_ops st ops).2.flatMap (fun p => p.copy_remove) ++
      (run_queue_ops st ops).1.queue_remove = st.queue_remove ++ appended_remove ops) ∧
    (∀ seg t, no_flush seg = true →
      (run_queue_ops st ops).1.queue_insert = [] → (run_queue_ops st ops).1.queue_backup = [] →
      (run_queue_ops st ops).1.queue_remove = [] →
      ∃ p, (run_queue_ops st (ops ++ seg ++ [QueueOp.flush t])).2 = (run_queue_ops st ops).2 ++ [p] ∧
        p.copy_insert = appended_insert seg ∧ p.copy_backup = appended_backup seg ∧
        p.copy_remove = appended_remove seg) := by
  refine ⟨?_, run_queue_ops_insert st ops, run_queue_ops_backup st ops,
    run_queue_ops_remove st ops, ?_⟩
  · intro p hp
    obtain ⟨st0, t, e⟩ := run_queue_ops_passes st ops p hp
    subst e
    have h := run_writer_pass_eq st0 t
    exact ⟨h.2.2.2.1, h.2.2.2.2.1, h.2.2.2.2.2.1, h.2.2.2.2.2.2.1, t, st0.keys, h.2.2.2.2.2.2.2⟩
  · intro seg t hseg h1 h2 h3
    have hi := run_queue_ops_insert (run_queue_ops st ops).1 seg
    have hb := run_queue_ops_backup (run_queue_ops st ops).1 seg
    have hr := run_queue_ops_remove (run_queue_ops st ops).1 seg
    have hn := run_queue_ops_no_flush (run_queue_ops st ops).1 seg hseg
    rw [hn, h1] at hi
    rw [hn, h2] at hb
    rw [hn, h3] at hr
    simp only [List.flatMap_nil, List.nil_append] at hi hb hr
    refine ⟨run_writer_pass (run_queue_ops (run_queue_ops st ops).1 seg).1 t, ?_, hi, hb, hr⟩
    rw [List.append_assoc, run_queue_ops_append, run_queue_ops_append, hn]
    simp [run_queue_ops]

/-- Claim C19 at a sample run: one insertion, a pass, then a backup and an
insertion followed by a second pass, which detaches exactly these two. -/
theorem pending_queues_fifo_witness :
    ∃ p, (run_queue_ops (AuthState.ofKeys sampleKeys)
        ([QueueOp.insert (sampleKeys.entry 0) none, QueueOp.flush 10] ++
          [QueueOp.backup (sampleKeys.entry 0), QueueOp.insert (sampleKeys.entry 0) none] ++
          [QueueOp.flush 20])).2 =
        (run_queue_ops (AuthState.ofKeys sampleKeys)
          [QueueOp.insert (sampleKeys.entry 0) none, QueueOp.flush 10]).2 ++ [p] ∧
      p.copy_insert = appended_insert
        [QueueOp.backup (sampleKeys.entry 0), QueueOp.insert (sampleKeys.entry 0) none] ∧
      p.copy_backup = appended_backup
        [QueueOp.backup (sampleKeys.entry 0), QueueOp.insert (sampleKeys.entry 0) none] ∧
      p.copy_remove = appended_remove
        [QueueOp.backup (sampleKeys.entry 0), QueueOp.insert (sampleKeys.entry 0) none] :=
  (pending_queues_fifo (AuthState.ofKeys sampleKeys)
    [QueueOp.insert (sampleKeys.entry 0) none, QueueOp.flush 10]).2.2.2.2
    [QueueOp.backup (sampleKeys.entry 0), QueueOp.insert (sampleKeys.entry 0) none] 20
    (by decide) (by decide) (by decide) (by decide)

/-! # The multigroup bound -/

/-- On tokens that are all valid names of existing groups the loop of
`w_auth_validate_groups` succeeds exactly when the counter and the tokens left
add up to at most `MAX_GROUPS_PER_MULTIGROUP + 1`, and it never writes the
response. -/
theorem validate_groups_loop_limit (env : Env) (toks : List (List Char)) (k : Nat)
    (response : Option (List Char))
    (hv : ∀ g ∈ toks, env.w_validate_group_name g = 0 ∧ env.opendir_shared g = true) :
    validate_groups_loop env toks k response =
      (if toks = [] ∨ k + toks.length ≤ env.MAX_GROUPS_PER_MULTIGROUP + 1 then OS_SUCCESS
       else OS_INVALID, response) := by
  induction toks generalizing k with
  | nil => simp [validate_groups_loop]
  | cons g gs ih =>
    have hg := hv g (List.mem_cons_self _ _)
    have ih2 := ih (k + 1) (fun x hx => hv x (List.mem_cons_of_mem _ hx))
    simp only [validate_groups_loop]
    by_cases hk : k > env.MAX_GROUPS_PER_MULTIGROUP
    · rw [if_pos hk, if_neg]
      simp only [List.length_cons, false_or, reduceCtorEq]
      omega
    · rw [if_neg hk, if_neg (by simp [hg.1]), if_neg (by simp [hg.2]), ih2]
      congr 1
      by_cases hgs : gs = []
      · subst hgs
        rw [if_pos (Or.inl rfl), if_pos]
        right
        simp only [List.length_cons, List.length_nil]
        omega
      · simp only [hgs, false_or, List.length_cons, reduceCtorEq]
        by_cases hl : k + 1 + gs.length ≤ env.MAX_GROUPS_PER_MULTIGROUP + 1
        · rw [if_pos hl, if_pos (by omega)]
        · rw [if_neg hl, if_neg (by omega)]

/-- A list of valid, existing groups passes `w_auth_validate_groups` exactly
when it has at most `MAX_GROUPS_PER_MULTIGROUP + 1` elements; the response is
as it was in both cases. -/
theorem validate_groups_limit (env : Env) (groups : List Char) (response : Option (List Char))
    (hv : ∀ g ∈ strtok_tokens groups,
      env.w_validate_group_name g = 0 ∧ env.opendir_shared g = true) :
    ((w_auth_validate_groups env groups response).ret = OS_SUCCESS ↔
      (strtok_tokens groups).length ≤ env.MAX_GROUPS_PER_MULTIGROUP + 1) ∧
    (w_auth_validate_groups env groups response).response = response := by
  simp only [w_auth_validate_groups, validate_groups_loop_limit env _ 0 response hv]
  refine ⟨?_, trivial⟩
  by_cases hl : (strtok_tokens groups).length ≤ env.MAX_GROUPS_PER_MULTIGROUP + 1
  · simp [hl]
  · have hne : strtok_tokens groups ≠ [] := by
      intro e
      rw [e] at hl
      simp at hl
    simp [hl, hne]

/-- Claim C21, on the code: with `MAX_GROUPS_PER_MULTIGROUP = 2` the list
`g1,g2,g3` of three valid, existing groups passes `w_auth_validate_groups`;
the list `g1,g2,g3,g4` of four is the shortest that it refuses. -/
theorem multigroup_limit_off_by_one :
    sampleEnv.MAX_GROUPS_PER_MULTIGROUP = 2 ∧
    strtok_tokens "g1,g2,g3".toList = ["g1".toList, "g2".toList, "g3".toList] ∧
    (∀ g ∈ strtok_tokens "g1,g2,g3".toList,
      sampleEnv.w_validate_group_name g = 0 ∧ sampleEnv.opendir_shared g = true) ∧
    (w_auth_validate_groups sampleEnv "g1,g2,g3".toList (some [])).ret = OS_SUCCESS ∧
    (w_auth_validate_groups sampleEnv "g1,g2".toList (some [])).ret = OS_SUCCESS ∧
    (w_auth_validate_groups sampleEnv "g1,g2,g3,g4".toList (some [])).ret = OS_INVALID := by
  decide

/-! # Stale responses -/

/-- Claim C22, on the code: a first request enrolls `alpha` and leaves the
success line with its key in the response buffer; for a second request whose
four groups exceed the multigroup bound `w_auth_validate_groups` and
`w_auth_validate_data` return `OS_INVALID` with the buffer as it was, and the
first message that the dispatcher writes to the second client is the success
line of the first. -/
theorem rejection_sends_stale_response :
    sampleFirstPass.response = "OSSEC K:'2 alpha any key'\n\n".toList ∧
    w_auth_validate_groups sampleEnv "g1,g2,g3,g4".toList (some sampleFirstPass.response) =
      { ret := OS_INVALID, response := some "OSSEC K:'2 alpha any key'\n\n".toList
        groups := "g1".toList } ∧
    (w_auth_validate_data sampleEnv sampleFirstPass.st sampleFirstPass.response "any".toList
      "beta".toList "g1,g2,g3,g4".toList).ret = OS_INVALID ∧
    (w_auth_validate_data sampleEnv sampleFirstPass.st sampleFirstPass.response "any".toList
      "beta".toList "g1,g2,g3,g4".toList).response = "OSSEC K:'2 alpha any key'\n\n".toList ∧
    (dispatch_primary sampleEnv sampleFirstPass.st "OSSEC A:'beta' G:'g1,g2,g3,g4'".toList
      sampleFirstPass.response none "192.168.1.8".toList).written =
        ["OSSEC K:'2 alpha any key'\n\n".toList, "ERROR: Unable to add agent.\n\n".toList] := by
  decide

/-! # Rejections after a supersession -/

/-- The IP stage and the stages behind it leave the shared state as it was
unless a record is superseded. -/
theorem validate_ip_keep (env : Env) (st : AuthState) (r ip g a : List Char)
    (hip : ∀ i, OS_IsAllowedIP st.keys ip = some i → ip ≠ "any".toList →
      force_supersedes env (st.keys.entry i) = false)
    (hname : ∀ j, OS_IsAllowedName st.keys a = some j → a ≠ env.shost →
      force_supersedes env (st.keys.entry j) = false) :
    (validate_ip env st r ip g a).st = st := by
  have hn : (validate_name env st r g a).st = st := by
    by_cases hs : a = env.shost
    · unfold validate_name
      rw [if_pos (by simpa using hs)]
    · exact (validate_name_keep env st r g a (fun j hj => hname j hj hs)).1
  unfold validate_ip
  by_cases hs : (ip != "any".toList) = true
  · rw [if_pos hs]
    cases hi : OS_IsAllowedIP st.keys ip with
    | none => exact hn
    | some i =>
      simp only [hip i hi (by simpa using hs), Bool.false_eq_true, if_false]
  · rw [if_neg hs]
    exact hn

/-- Claim C23, amended: whenever neither the record found for a concrete ip
nor the record found for a name other than the manager host name is superseded
under force-insert (none is when force-insert is off), a call of
`w_auth_validate_data` that returns `OS_INVALID` leaves the shared state, the
key store and the backup queue with it, exactly as it was before the call.
Without a supersession the function does not write the shared state at all,
so the return code plays no part in the proof. -/
theorem validate_failure_atomic (env : Env) (st : AuthState)
    (response ip agentname groups : List Char)
    (hip : ∀ i, OS_IsAllowedIP st.keys ip = some i → ip ≠ "any".toList →
      force_supersedes env (st.keys.entry i) = false)
    (hname : ∀ j, OS_IsAllowedName st.keys agentname = some j → agentname ≠ env.shost →
      force_supersedes env (st.keys.entry j) = false) :
    (w_auth_validate_data env st response ip agentname groups).ret = OS_INVALID →
      (w_auth_validate_data env st response ip agentname groups).st = st ∧
      (w_auth_validate_data env st response ip agentname groups).st.keys = st.keys ∧
      (w_auth_validate_data env st response ip agentname groups).st.queue_backup =
        st.queue_backup := by
  intro _
  have h : (w_auth_validate_data env st response ip agentname groups).st = st := by
    rcases validate_data_cases env st response ip agentname groups with h | ⟨r, g, h⟩
    · exact h.2
    · rw [h]
      exact validate_ip_keep env st r ip g agentname hip hname
  exact ⟨h, by rw [h], by rw [h]⟩

/-- Claim C23 fails as stated: with force-insert on, the request for the
manager host name from the ip `10.0.0.1` of record 1 is refused with
`OS_INVALID` after the IP stage has superseded that record: the store has lost
the record and the backup queue has gained its node, in the function as in a
pass of the dispatcher. -/
theorem validate_failure_atomic_counterexample :
    sampleEnvForce.force_insert = true ∧
    sampleEnvForce.shost = "manager".toList ∧
    (w_auth_validate_data sampleEnvForce (AuthState.ofKeys sampleKeys) [] "10.0.0.1".toList
      "manager".toList []).ret = OS_INVALID ∧
    (w_auth_validate_data sampleEnvForce (AuthState.ofKeys sampleKeys) [] "10.0.0.1".toList
      "manager".toList []).response = "ERROR: Invalid agent name: manager\n\n".toList ∧
    (AuthState.ofKeys sampleKeys).keys.keyentries =
      [{ id := 1, name := "a1".toList, ip := "10.0.0.1".toList, key := "k1".toList }] ∧
    (AuthState.ofKeys sampleKeys).queue_backup = [] ∧
    (w_auth_validate_data sampleEnvForce (AuthState.ofKeys sampleKeys) [] "10.0.0.1".toList
      "manager".toList []).st.keys.keyentries = [] ∧
    (w_auth_validate_data sampleEnvForce (AuthState.ofKeys sampleKeys) [] "10.0.0.1".toList
      "manager".toList []).st.queue_backup =
        [{ id := 1, name := "a1".toList, ip := "10.0.0.1".toList, group := none }] ∧
    (dispatch_primary sampleEnvForce (AuthState.ofKeys sampleKeys)
      "OSSEC A:'manager' IP:'10.0.0.1'".toList [] none "192.168.1.7".toList).enrollment_ok
        = false ∧
    (dispatch_primary sampleEnvForce (AuthState.ofKeys sampleKeys)
      "OSSEC A:'manager' IP:'10.0.0.1'".toList [] none "192.168.1.7".toList).st.keys.keyentries
        = [] := by
  decide

/-- Claim C23, amended, with force-insert on: the request for the manager host
name without a concrete ip supersedes nothing and is refused with the state
as it was. -/
theorem validate_failure_atomic_witness :
    (w_auth_validate_data sampleEnvForce (AuthState.ofKeys sampleKeys) [] "any".toList
      "manager".toList []).ret = OS_INVALID ∧
    (w_auth_validate_data sampleEnvForce (AuthState.ofKeys sampleKeys) [] "any".toList
      "manager".toList []).st = AuthState.ofKeys sampleKeys :=
  ⟨by decide,
    (validate_failure_atomic sampleEnvForce (AuthState.ofKeys sampleKeys) [] "any".toList
      "manager".toList [] (fun _ _ h => absurd rfl h) (fun _ _ h => absurd rfl h)
      (by decide)).1⟩

end Authd

namespace FimSync


/-! # Properties of the integrity synchronizer -/

/-! ## Back-off -/

theorem wrap_long_id (bits : Nat) (x : Int) (hb : 1 ≤ bits)
    (h1 : -(2 ^ (bits - 1) : Int) ≤ x) (h2 : x < 2 ^ (bits - 1)) : wrap_long bits x = x := by
  unfold wrap_long
  have hp : (2 : Int) ^ bits = 2 * 2 ^ (bits - 1) := by
    have : bits = (bits - 1) + 1 := by omega
    conv_lhs => rw [this]
    rw [pow_succ]
    ring
  rw [hp, Int.emod_eq_of_lt (by omega) (by omega)]
  omega

theorem collect_loop_flag (env : SyncEnv) (db : FimDb) (msgs : List (List Char))
    (st : SyncState) (flag : Bool) :
    (collect_loop env db msgs st flag).2 = (flag && msgs.isEmpty) := by
  induction msgs generalizing st flag with
  | nil => simp [collect_loop]
  | cons m ms ih => simp [collect_loop, ih]

/-- A round without message resets the interval; a round with a message doubles
it within the cap. -/
theorem integrity_round_interval (env : SyncEnv) (rs : RunState) (round : Round) :
    (integrity_round env rs round).1.sync_interval =
      if round.msgs = [] then env.sync_interval
      else if wrap_long env.LONG_BITS (rs.sync_interval * 2) < env.max_sync_interval then
        wrap_long env.LONG_BITS (rs.sync_interval * 2)
      else env.max_sync_interval := by
  simp only [integrity_round, collect_loop_flag, Bool.true_and]
  cases h : round.msgs with
  | nil => simp
  | cons m ms => simp

/-- One failed round from an interval `min (base * 2 ^ j) cap`. -/
theorem integrity_round_failed (env : SyncEnv) (rs : RunState) (round : Round) (j : Nat)
    (hbase : 0 < env.sync_interval) (hcap : env.sync_interval ≤ env.max_sync_interval)
    (hlong : 2 * env.max_sync_interval < 2 ^ (env.LONG_BITS - 1))
    (hs : rs.sync_interval = min (env.sync_interval * 2 ^ j) env.max_sync_interval)
    (hfail : round.msgs ≠ []) :
    (integrity_round env rs round).1.sync_interval =
      min (env.sync_interval * 2 ^ (j + 1)) env.max_sync_interval := by
  have hpos : (0 : Int) < 2 ^ j := by positivity
  have hx : 0 < env.sync_interval * 2 ^ j := Int.mul_pos hbase hpos
  have hx2 : env.sync_interval * 2 ^ (j + 1) = 2 * (env.sync_interval * 2 ^ j) := by
    rw [pow_succ]; ring
  have hbits : 1 ≤ env.LONG_BITS := by
    by_contra hc
    have : env.LONG_BITS = 0 := by omega
    rw [this] at hlong
    simp at hlong
    omega
  have hH : (0 : Int) < 2 ^ (env.LONG_BITS - 1) := by positivity
  have hs1 : 0 < rs.sync_interval := by
    rw [hs]; exact lt_min hx (by omega)
  have hs2 : rs.sync_interval ≤ env.max_sync_interval := by
    rw [hs]; exact min_le_right _ _
  have hw : wrap_long env.LONG_BITS (rs.sync_interval * 2) = rs.sync_interval * 2 :=
    wrap_long_id _ _ hbits (by omega) (by omega)
  rw [integrity_round_interval, if_neg hfail, hw, hx2]
  generalize env.sync_interval * 2 ^ j = x at hs hx ⊢
  rw [hs]
  simp only [min_def]
  split_ifs <;> omega

theorem integrity_rounds_failed (env : SyncEnv)
    (hbase : 0 < env.sync_interval) (hcap : env.sync_interval ≤ env.max_sync_interval)
    (hlong : 2 * env.max_sync_interval < 2 ^ (env.LONG_BITS - 1)) :
    ∀ (rounds : List Round) (rs : RunState) (j : Nat),
      rs.sync_interval = min (env.sync_interval * 2 ^ j) env.max_sync_interval →
      (∀ r ∈ rounds, r.msgs ≠ []) →
      (integrity_rounds env rs rounds).sync_interval =
        min (env.sync_interval * 2 ^ (j + rounds.length)) env.max_sync_interval := by
  intro rounds
  induction rounds with
  | nil => intro rs j hs _; simpa [integrity_rounds] using hs
  | cons r rest ih =>
    intro rs j hs hfail
    simp only [integrity_rounds, List.length_cons]
    have h1 := integrity_round_failed env rs r j hbase hcap hlong hs
      (hfail r (List.mem_cons_self _ _))
    have h2 := ih (integrity_round env rs r).1 (j + 1) h1
      (fun x hx => hfail x (List.mem_cons_of_mem _ hx))
    rw [h2]
    have e : j + 1 + rest.length = j + (rest.length + 1) := by omega
    rw [e]

/-- Claim C15: starting from `sync_interval = base = syscheck.sync_interval`
with `0 < base ≤ cap = syscheck.max_sync_interval`, after `k` consecutive
failed rounds of `fim_run_integrity` the interval is `min (base * 2 ^ k) cap`.
The arithmetic is exact: twice the cap lies in the range of `long`. -/
theorem backoff_closed_form (env : SyncEnv) (sync : SyncState) (rounds : List Round)
    (hbase : 0 < env.sync_interval) (hcap : env.sync_interval ≤ env.max_sync_interval)
    (hlong : 2 * env.max_sync_interval < 2 ^ (env.LONG_BITS - 1))
    (hfail : ∀ r ∈ rounds, r.msgs ≠ []) :
    (integrity_rounds env (integrity_start env sync) rounds).sync_interval =
      min (env.sync_interval * 2 ^ rounds.length) env.max_sync_interval := by
  have h := integrity_rounds_failed env hbase hcap hlong rounds (integrity_start env sync) 0
    (by simp only [integrity_start, pow_zero, mul_one]; exact (min_eq_left hcap).symm) hfail
  simpa using h

/-- Claim C15 at the sample environment: five failed rounds from 300 seconds
reach the cap of 3600 seconds. -/
theorem backoff_closed_form_witness :
    (integrity_rounds sampleSyncEnv (integrity_start sampleSyncEnv (SyncState.ofId 0))
      (List.replicate 5 { now := 7, db := sampleDb, msgs := ["x".toList] })).sync_interval =
      min (sampleSyncEnv.sync_interval * 2 ^ (List.replicate 5
        ({ now := 7, db := sampleDb, msgs := ["x".toList] } : Round)).length)
        sampleSyncEnv.max_sync_interval :=
  backoff_closed_form sampleSyncEnv (SyncState.ofId 0)
    (List.replicate 5 { now := 7, db := sampleDb, msgs := ["x".toList] })
    (by decide) (by decide) (by decide) (by decide)

/-- Claim C16: a round of `fim_run_integrity` is successful if and only if no
message was dequeued during it, whatever `fim_sync_dispatch` does with the
messages; after a successful round the interval is `syscheck.sync_interval`
whatever it was before, and after any other round it is the doubled interval
within the cap. -/
theorem round_success_iff (env : SyncEnv) (rs : RunState) (round : Round) :
    ((integrity_round env rs round).2 = true ↔ round.msgs = []) ∧
    (round.msgs = [] → (integrity_round env rs round).1.sync_interval = env.sync_interval) ∧
    (round.msgs ≠ [] → (integrity_round env rs round).1.sync_interval =
      if wrap_long env.LONG_BITS (rs.sync_interval * 2) < env.max_sync_interval then
        wrap_long env.LONG_BITS (rs.sync_interval * 2)
      else env.max_sync_interval) := by
  refine ⟨?_, ?_, ?_⟩
  · have : (integrity_round env rs round).2 = round.msgs.isEmpty := by
      simp only [integrity_round, collect_loop_flag, Bool.true_and]
      split_ifs <;> rfl
    rw [this]
    cases round.msgs <;> simp
  · intro h
    rw [integrity_round_interval, if_pos h]
  · intro h
    rw [integrity_round_interval, if_neg h]

/-- Claim C16 at a round without message after an interval of 2400 seconds. -/
theorem round_success_iff_witness :
    (integrity_round sampleSyncEnv { sync_interval := 2400, sync := SyncState.ofId 0 }
      { now := 7, db := sampleDb, msgs := [] }).1.sync_interval = sampleSyncEnv.sync_interval :=
  (round_success_iff sampleSyncEnv { sync_interval := 2400, sync := SyncState.ofId 0 }
    { now := 7, db := sampleDb, msgs := [] }).2.1 rfl


/-! ## Dispatch -/

theorem split_space_append (command json : List Char) (hc : ' ' ∉ command) :
    split_space (command ++ ' ' :: json) = some (command, json) := by
  induction command with
  | nil => simp [split_space]
  | cons c cs ih =>
    have h1 : c ≠ ' ' := fun e => hc (by simp [e])
    have h2 : ' ' ∉ cs := fun e => hc (by simp [e])
    simp [split_space, h1, ih h2]

theorem excess_bits_small (fuel a : Nat) (h : a < 2 ^ 53) : excess_bits fuel a = 0 := by
  cases fuel with
  | zero => rfl
  | succ k => simp only [excess_bits, if_pos h]

/-- The bound `a` on the recursion of `excess_bits` is never used up: the
halvings counted bring `a` below `2 ^ 53`. -/
theorem excess_bits_spec (fuel a : Nat) (h : a < 2 ^ 53 * 2 ^ fuel) :
    a / 2 ^ excess_bits fuel a < 2 ^ 53 := by
  induction fuel generalizing a with
  | zero => simpa [excess_bits] using h
  | succ k ih =>
    simp only [excess_bits]
    by_cases h1 : a < 2 ^ 53
    · rw [if_pos h1]
      simpa using h1
    · rw [if_neg h1]
      have h2 : a / 2 < 2 ^ 53 * 2 ^ k := by
        apply Nat.div_lt_of_lt_mul
        rw [pow_succ] at h
        omega
      have := ih (a / 2) h2
      rw [pow_succ, Nat.mul_comm (2 ^ excess_bits k (a / 2)) 2, ← Nat.div_div_eq_div_mul]
      exact this

theorem excess_bits_self (a : Nat) : a / 2 ^ excess_bits a a < 2 ^ 53 := by
  apply excess_bits_spec
  have h1 : a < 2 ^ a := Nat.lt_two_pow a
  have h2 : 0 < 2 ^ 53 := by positivity
  calc a < 2 ^ a := h1
    _ = 1 * 2 ^ a := by rw [Nat.one_mul]
    _ ≤ 2 ^ 53 * 2 ^ a := Nat.mul_le_mul_right _ h2

theorem round_at_zero (a : Nat) : round_at a 0 = a := by
  simp [round_at, Nat.mod_one]

/-- A `long` of magnitude up to `2 ^ 53` is converted to `double` without
rounding. -/
theorem long_to_double_exact (x : Int) (h : x.natAbs ≤ 2 ^ 53) : long_to_double x = x := by
  have key : round_at x.natAbs (excess_bits x.natAbs x.natAbs) = x.natAbs := by
    rcases Nat.lt_or_eq_of_le h with h1 | h1
    · rw [excess_bits_small _ _ h1, round_at_zero]
    · rw [h1]
      decide
  simp only [long_to_double, key]
  split_ifs with h0
  · exact Int.natAbs_of_nonneg h0
  · have := Int.ofNat_natAbs_of_nonpos (le_of_lt (not_le.mp h0))
    omega

/-- Above `2 ^ 53` the conversion rounds: `2 ^ 53 + 1` becomes `2 ^ 53`, and
`2 ^ 53 + 3` becomes `2 ^ 53 + 4`. -/
theorem long_to_double_rounds :
    long_to_double 9007199254740993 = 9007199254740992 ∧
    long_to_double 9007199254740995 = 9007199254740996 ∧
    long_to_double (-9007199254740993) = -9007199254740992 := by
  decide

theorem ofInt_lt_long (n cur : Int) :
    (JsonNumber.ofInt n).lt_long cur = decide (n < long_to_double cur) := by
  simp [JsonNumber.ofInt, JsonNumber.lt_long]

theorem ofInt_gt_long (n cur : Int) :
    (JsonNumber.ofInt n).gt_long cur = decide (n > long_to_double cur) := by
  simp [JsonNumber.ofInt, JsonNumber.gt_long]

theorem ofInt_to_long (n : Int) (bits : Nat) (indefinite : Int)
    (h : in_long_range bits n = true) : (JsonNumber.ofInt n).to_long bits indefinite = n := by
  simp only [JsonNumber.ofInt, JsonNumber.to_long, Nat.cast_one, Int.tdiv_one, h]
  simp

/-- The handlers change neither `fim_sync_cur_id` nor the messages sent. -/
theorem checksum_split_eq (db : FimDb) (st : SyncState) (start top : List Char) (id : Int) :
    fim_sync_checksum_split db st start top id =
      { st with calls := st.calls ++ [HandlerCall.checksum_split start top id] } := by
  simp [fim_sync_checksum_split]

/-- Claim C17, amended: for every payload `<command> <json>` whose argument has
string `begin` and `end` and an id whose `valuedouble` is a whole number `n`
in the range of `long` (the id of the text when a `double` holds it exactly),
`fim_sync_cur_id` being of magnitude at most `2 ^ 53` (so that its comparison
with the id, made in `double`, is exact): if the id is above `fim_sync_cur_id`
the message is dropped, no handler is called and the variable keeps its value;
if it is below, the variable takes the id and the command is processed; if it
is equal, the command is processed and the variable keeps its value.
Processing calls the split handler with `(begin, end, id)` for
`checksum_fail`, the range handler with `(begin, end)` for `no_data`, and
nothing for any other command. -/
theorem dispatch_by_id (env : SyncEnv) (db : FimDb) (st : SyncState)
    (command json b e : List Char) (n : Int)
    (hc : ' ' ∉ command) (hc0 : Authd.NUL ∉ command) (hj0 : Authd.NUL ∉ json)
    (hp : env.cJSON_Parse json =
      some { id := some (JsonNumber.ofInt n), begin_str := some b, end_str := some e })
    (hcur : st.fim_sync_cur_id.natAbs ≤ 2 ^ 53)
    (hn : in_long_range env.LONG_BITS n = true) :
    (n > st.fim_sync_cur_id →
      fim_sync_dispatch env db st (command ++ ' ' :: json) = st) ∧
    (n < st.fim_sync_cur_id →
      (fim_sync_dispatch env db st (command ++ ' ' :: json)).fim_sync_cur_id = n) ∧
    (n = st.fim_sync_cur_id →
      (fim_sync_dispatch env db st (command ++ ' ' :: json)).fim_sync_cur_id
        = st.fim_sync_cur_id) ∧
    (n ≤ st.fim_sync_cur_id →
      (fim_sync_dispatch env db st (command ++ ' ' :: json)).calls = st.calls ++
        (if command = "checksum_fail".toList then [HandlerCall.checksum_split b e n]
         else if command = "no_data".toList then [HandlerCall.send_list b e]
         else [])) := by
  have h0 : Authd.NUL ∉ command ++ ' ' :: json := by
    intro h
    rcases List.mem_append.mp h with h | h
    · exact hc0 h
    · rcases List.mem_cons.mp h with h | h
      · exact absurd h (by decide)
      · exact hj0 h
  have hs : split_space (Authd.cstr (command ++ ' ' :: json)) = some (command, json) := by
    rw [Authd.cstr_self _ h0]; exact split_space_append command json hc
  have hd : fim_sync_dispatch env db st (command ++ ' ' :: json) =
      if n < st.fim_sync_cur_id then
        (if command = "checksum_fail".toList then
          { fim_sync_cur_id := n, sent := st.sent
            calls := st.calls ++ [HandlerCall.checksum_split b e n] }
         else if command = "no_data".toList then
          { fim_sync_cur_id := n, sent := st.sent
            calls := st.calls ++ [HandlerCall.send_list b e] }
         else { fim_sync_cur_id := n, sent := st.sent, calls := st.calls })
      else if n > st.fim_sync_cur_id then st
      else
        (if command = "checksum_fail".toList then
          { st with calls := st.calls ++ [HandlerCall.checksum_split b e n] }
         else if command = "no_data".toList then
          { st with calls := st.calls ++ [HandlerCall.send_list b e] }
         else st) := by
    simp only [fim_sync_dispatch, hs, hp, ofInt_lt_long, ofInt_gt_long,
      long_to_double_exact _ hcur, ofInt_to_long n env.LONG_BITS env.long_indefinite hn,
      checksum_split_eq, fim_sync_send_list, decide_eq_true_eq, beq_iff_eq]
  rw [hd]
  refine ⟨?_, ?_, ?_, ?_⟩
  · intro h
    rw [if_neg (by omega), if_pos h]
  · intro h
    rw [if_pos h]
    split_ifs <;> rfl
  · intro h
    rw [if_neg (by omega), if_neg (by omega)]
    split_ifs <;> rfl
  · intro h
    by_cases h1 : n < st.fim_sync_cur_id
    · rw [if_pos h1]
      split_ifs <;> simp
    · rw [if_neg h1, if_neg (by omega)]
      split_ifs <;> simp

/-- Claim C17 fails as stated: for the id 2.5 below `fim_sync_cur_id = 3` the
variable becomes 2, not the id, and the split handler is called with 2; for
the id `-1e19`, below the range of a `long` of 64 bits, the variable becomes
what the platform gives for the undefined conversion, not the id; and for the
id `2 ^ 53` below `fim_sync_cur_id = 2 ^ 53 + 1` the comparison in `double`
finds the two equal and the variable keeps its value. -/
theorem dispatch_by_id_counterexample :
    sample_parse "\x7b\"id\":2.5,\"begin\":\"a\",\"end\":\"z\"\x7d".toList =
      some { id := some { num := 5, den := 2 }, begin_str := some "a".toList
             end_str := some "z".toList } ∧
    ({ num := 5, den := 2 } : JsonNumber).lt_long 3 = true ∧
    ({ num := 5, den := 2 } : JsonNumber) ≠ JsonNumber.ofInt 2 ∧
    fim_sync_dispatch sampleSyncEnv sampleDb (SyncState.ofId 3)
        "checksum_fail \x7b\"id\":2.5,\"begin\":\"a\",\"end\":\"z\"\x7d".toList =
      { fim_sync_cur_id := 2, sent := []
        calls := [HandlerCall.checksum_split "a".toList "z".toList 2] } ∧
    sampleSyncEnvWide.LONG_BITS = 64 ∧
    sampleSyncEnvWide.long_indefinite = -9223372036854775808 ∧
    fim_sync_dispatch sampleSyncEnvWide sampleDb (SyncState.ofId 100)
        "checksum_fail \x7b\"id\":-1e19,\"begin\":\"a\",\"end\":\"z\"\x7d".toList =
      { fim_sync_cur_id := -9223372036854775808, sent := []
        calls := [HandlerCall.checksum_split "a".toList "z".toList (-9223372036854775808)] } ∧
    (9007199254740992 : Int) < 9007199254740993 ∧
    fim_sync_dispatch sampleSyncEnvWide sampleDb (SyncState.ofId 9007199254740993)
        "checksum_fail \x7b\"id\":9007199254740992,\"begin\":\"a\",\"end\":\"z\"\x7d".toList =
      { fim_sync_cur_id := 9007199254740993, sent := []
        calls := [HandlerCall.checksum_split "a".toList "z".toList 9007199254740992] } := by
  decide

/-- Claim C17, amended, at the sample payload with the id 90 below
`fim_sync_cur_id = 100`. -/
theorem dispatch_by_id_witness :
    (fim_sync_dispatch sampleSyncEnv sampleDb (SyncState.ofId 100)
      ("checksum_fail".toList ++
        ' ' :: "\x7b\"id\":90,\"begin\":\"a\",\"end\":\"z\"\x7d".toList)).fim_sync_cur_id = 90 :=
  (dispatch_by_id sampleSyncEnv sampleDb (SyncState.ofId 100) "checksum_fail".toList
    "\x7b\"id\":90,\"begin\":\"a\",\"end\":\"z\"\x7d".toList "a".toList "z".toList 90
    (by decide) (by decide) (by decide) (by decide) (by decide) (by decide)).2.1 (by decide)

/-- No call of `fim_sync_dispatch` sends a message. -/
theorem dispatch_sends_nothing (env : SyncEnv) (db : FimDb) (st : SyncState)
    (payload : List Char) : (fim_sync_dispatch env db st payload).sent = st.sent := by
  simp only [fim_sync_dispatch, checksum_split_eq, fim_sync_send_list]
  repeat' first
    | rfl
    | split

/-- Claim C18, on the code: a `checksum_fail` response whose id equals
`fim_sync_cur_id` and whose range `("a","z")` covers the three records of the
sample table, or the one record of the one-record table, makes the split
handler run and no message is sent. -/
theorem checksum_fail_sends_nothing :
    fim_sync_dispatch sampleSyncEnv sampleDb (SyncState.ofId 100)
        "checksum_fail \x7b\"id\":100,\"begin\":\"a\",\"end\":\"z\"\x7d".toList =
      { fim_sync_cur_id := 100, sent := []
        calls := [HandlerCall.checksum_split "a".toList "z".toList 100] } ∧
    sampleDb.rows.length = 3 ∧
    fim_sync_dispatch sampleSyncEnv sampleDbOne (SyncState.ofId 100)
        "checksum_fail \x7b\"id\":100,\"begin\":\"a\",\"end\":\"z\"\x7d".toList =
      { fim_sync_cur_id := 100, sent := []
        calls := [HandlerCall.checksum_split "a".toList "z".toList 100] } ∧
    sampleDbOne.rows.length = 1 := by
  decide

/-! ## The frame of `fim_sync_cur_id` -/

/-- The conversion to `long` of a number found below a `long` of magnitude up
to `2 ^ 53` is not above it. -/
theorem to_long_le (x : JsonNumber) (cur : Int) (bits : Nat) (indefinite : Int)
    (hd : 0 < x.den) (hcur : cur.natAbs ≤ 2 ^ 53)
    (hr : in_long_range bits (Int.tdiv x.num (x.den : Int)) = true)
    (h : x.lt_long cur = true) : x.to_long bits indefinite ≤ cur := by
  simp only [JsonNumber.lt_long, decide_eq_true_eq, long_to_double_exact _ hcur] at h
  have hd0 : x.den ≠ 0 := by omega
  simp only [JsonNumber.to_long, hr, hd0, ne_eq, not_false_eq_true, and_self, if_true]
  have hd2 : (0 : Int) < (x.den : Int) := by exact_mod_cast hd
  by_cases hn : 0 ≤ x.num
  · rw [Int.tdiv_eq_ediv hn (le_of_lt hd2)]
    exact le_of_lt (Int.ediv_lt_of_lt_mul hd2 h)
  · have e : x.num = -(-x.num) := by omega
    rw [e, Int.neg_tdiv, Int.tdiv_eq_ediv (by omega) (le_of_lt hd2)]
    have : -cur ≤ (-x.num) / (x.den : Int) :=
      Int.le_ediv_of_mul_le hd2 (by rw [Int.neg_mul]; omega)
    omega

/-- The value of `fim_sync_cur_id` after a call: the converted id when the
payload carries a number found below the variable, the old value otherwise. -/
theorem dispatch_cur_id (env : SyncEnv) (db : FimDb) (st : SyncState) (payload : List Char) :
    (fim_sync_dispatch env db st payload).fim_sync_cur_id =
      match split_space (Authd.cstr payload) with
      | none => st.fim_sync_cur_id
      | some (_, json_arg) =>
        match env.cJSON_Parse json_arg with
        | none => st.fim_sync_cur_id
        | some root =>
          match root.id with
          | none => st.fim_sync_cur_id
          | some id =>
            if id.lt_long st.fim_sync_cur_id then
              id.to_long env.LONG_BITS env.long_indefinite
            else st.fim_sync_cur_id := by
  simp only [fim_sync_dispatch, checksum_split_eq, fim_sync_send_list]
  repeat' first
    | rfl
    | split

/-- Claim C24, amended: with `fim_sync_cur_id` of magnitude at most `2 ^ 53`
(so that its comparison with the id, made in `double`, is exact) and a payload
whose id, when it has one, is a finite number with the whole part in the range
of `long`, `fim_sync_dispatch` changes `fim_sync_cur_id` only for a payload
whose id is below it: the variable never increases across a call;
when it changes, the payload has an argument that parses with a numeric id
below the old value; and every such payload sets it to the whole part of the
id, whether the message is then processed or ignored for a missing `begin` or
`end` or an unknown command.  So a payload without argument, with an argument
that does not parse, without numeric id, with the id equal to the variable,
or dropped for an id above it, leaves the variable as it was. -/
theorem dispatch_cur_id_frame (env : SyncEnv) (db : FimDb) (st : SyncState)
    (payload : List Char)
    (hcur : st.fim_sync_cur_id.natAbs ≤ 2 ^ 53)
    (hden : ∀ command json root id, split_space (Authd.cstr payload) = some (command, json) →
      env.cJSON_Parse json = some root → root.id = some id →
      0 < id.den ∧ in_long_range env.LONG_BITS (Int.tdiv id.num (id.den : Int)) = true) :
    (fim_sync_dispatch env db st payload).fim_sync_cur_id ≤ st.fim_sync_cur_id ∧
    ((fim_sync_dispatch env db st payload).fim_sync_cur_id ≠ st.fim_sync_cur_id →
      ∃ command json root id, split_space (Authd.cstr payload) = some (command, json) ∧
        env.cJSON_Parse json = some root ∧ root.id = some id ∧
        id.num < st.fim_sync_cur_id * (id.den : Int)) ∧
    (∀ command json root id, split_space (Authd.cstr payload) = some (command, json) →
      env.cJSON_Parse json = some root → root.id = some id →
      id.num < st.fim_sync_cur_id * (id.den : Int) →
      (fim_sync_dispatch env db st payload).fim_sync_cur_id =
        Int.tdiv id.num (id.den : Int)) := by
  have hlt : ∀ id : JsonNumber, id.lt_long st.fim_sync_cur_id = true ↔
      id.num < st.fim_sync_cur_id * (id.den : Int) := by
    intro id
    simp only [JsonNumber.lt_long, decide_eq_true_eq, long_to_double_exact _ hcur]
  rw [dispatch_cur_id]
  cases hs : split_space (Authd.cstr payload) with
  | none => exact ⟨le_refl _, fun h => absurd rfl h, fun _ _ _ _ h => by cases h⟩
  | some cj =>
    obtain ⟨c, j⟩ := cj
    rw [hs] at hden
    dsimp only
    cases hp : env.cJSON_Parse j with
    | none =>
      dsimp only
      refine ⟨le_refl _, fun h => absurd rfl h, fun _ _ _ _ h1 h2 => ?_⟩
      cases h1
      rw [hp] at h2
      cases h2
    | some root =>
      dsimp only
      cases hi : root.id with
      | none =>
        dsimp only
        refine ⟨le_refl _, fun h => absurd rfl h, fun _ _ _ _ h1 h2 h3 => ?_⟩
        cases h1
        rw [hp] at h2
        cases h2
        rw [hi] at h3
        cases h3
      | some id =>
        dsimp only
        have hw := hden c j root id rfl hp hi
        by_cases hl : id.lt_long st.fim_sync_cur_id = true
        · rw [if_pos hl]
          refine ⟨to_long_le id _ _ _ hw.1 hcur hw.2 hl,
            fun _ => ⟨c, j, root, id, rfl, hp, hi, (hlt id).mp hl⟩,
            fun _ _ _ _ h1 h2 h3 _ => ?_⟩
          cases h1
          rw [hp] at h2
          cases h2
          rw [hi] at h3
          cases h3
          have hd0 : id.den ≠ 0 := by have := hw.1; omega
          simp only [JsonNumber.to_long, hw.2, hd0, ne_eq, not_false_eq_true, and_self, if_true]
        · rw [if_neg hl]
          refine ⟨le_refl _, fun h => absurd rfl h, fun _ _ _ _ h1 h2 h3 h4 => ?_⟩
          cases h1
          rw [hp] at h2
          cases h2
          rw [hi] at h3
          cases h3
          exact absurd ((hlt _).mpr h4) hl

/-- Claim C24 fails as stated: the payload `other` with the id 90 below
`fim_sync_cur_id = 100` is ignored for its unknown command, no handler being
called, and the variable has become 90. -/
theorem dispatch_cur_id_frame_counterexample :
    fim_sync_dispatch sampleSyncEnv sampleDb (SyncState.ofId 100)
        "other \x7b\"id\":90,\"begin\":\"a\",\"end\":\"z\"\x7d".toList =
      { fim_sync_cur_id := 90, sent := [], calls := [] } ∧
    (SyncState.ofId 100).fim_sync_cur_id = 100 ∧
    (SyncState.ofId 100).calls = [] := by
  decide

/-- Claim C24, amended, at the sample payload `other` with the id 90 and the
variable at 100, then at 80. -/
theorem dispatch_cur_id_frame_witness :
    (fim_sync_dispatch sampleSyncEnv sampleDb (SyncState.ofId 100)
      "other \x7b\"id\":90,\"begin\":\"a\",\"end\":\"z\"\x7d".toList).fim_sync_cur_id ≤ 100 ∧
    (fim_sync_dispatch sampleSyncEnv sampleDb (SyncState.ofId 80)
      "other \x7b\"id\":90,\"begin\":\"a\",\"end\":\"z\"\x7d".toList).fim_sync_cur_id ≤ 80 :=
  have hden : ∀ command json root id,
      split_space (Authd.cstr "other \x7b\"id\":90,\"begin\":\"a\",\"end\":\"z\"\x7d".toList) =
        some (command, json) →
      sampleSyncEnv.cJSON_Parse json = some root → root.id = some id →
      0 < id.den ∧
        in_long_range sampleSyncEnv.LONG_BITS (Int.tdiv id.num (id.den : Int)) = true := by
    intro command json root id h1 h2 h3
    have e1 : split_space
        (Authd.cstr "other \x7b\"id\":90,\"begin\":\"a\",\"end\":\"z\"\x7d".toList) =
        some ("other".toList, "\x7b\"id\":90,\"begin\":\"a\",\"end\":\"z\"\x7d".toList) := by
      decide
    rw [e1] at h1
    cases h1
    have e2 : sampleSyncEnv.cJSON_Parse
        "\x7b\"id\":90,\"begin\":\"a\",\"end\":\"z\"\x7d".toList =
        some { id := some (JsonNumber.ofInt 90), begin_str := some "a".toList
               end_str := some "z".toList } := by
      decide
    rw [e2] at h2
    cases h2
    cases h3
    decide
  ⟨(dispatch_cur_id_frame sampleSyncEnv sampleDb (SyncState.ofId 100) _ (by decide) hden).1,
   (dispatch_cur_id_frame sampleSyncEnv sampleDb (SyncState.ofId 80) _ (by decide) hden).1⟩

end FimSync
